import Mathlib

/-!
# GeNN neuron groups: requirement analysis, delay slots and merging

A shallow embedding of `src/genn/genn/neuronGroup.cc`.  Objects reached through
pointers (neuron models, synapse groups, current sources, variable initialisers)
are records holding what the code reads from them; their names identify them.
Member functions of those classes that are not defined in `neuronGroup.cc`
(`NeuronModels::Base::canBeMerged`, `CurrentSource::canBeMerged`,
`SynapseGroup::canPSBeMerged`, `SynapseGroup::canPSBeLinearlyCombined`,
`Models::VarInit::canBeMerged`) are parameters of the functions that call them.
-/

namespace GeNN

/-! ## Scalars and strings -/

/-- A C++ `double`, given by its IEEE-754 binary64 bit pattern (taken modulo `2^64`). -/
structure Double where
  bits : Nat
deriving DecidableEq

/-- The 64-bit pattern of a double. -/
def Double.pattern (x : Double) : Nat := x.bits % 2 ^ 64

/-- A double is a NaN when its exponent field is all ones and its fraction is non-zero. -/
def Double.isNaN (x : Double) : Bool :=
  ((x.pattern / 2 ^ 52) % 2 ^ 11 == 2047) && (x.pattern % 2 ^ 52 != 0)

/-- A double is a zero (of either sign) when all bits below the sign bit are clear. -/
def Double.isZero (x : Double) : Bool := x.pattern % 2 ^ 63 == 0

/-- The C++ `operator==` on doubles: a NaN equals nothing, the two zeros are equal,
every other value equals exactly the values with the same bit pattern. -/
def Double.opEq (x y : Double) : Bool :=
  !x.isNaN && !y.isNaN && ((x.isZero && y.isZero) || x.pattern == y.pattern)

/-- The `operator==` of `std::vector`: same size and element-wise equal. -/
def vectorEq {α : Type} (eq : α → α → Bool) : List α → List α → Bool
  | [], [] => true
  | x :: xs, y :: ys => eq x y && vectorEq eq xs ys
  | _, _ => false

/-- Scan of `std::string::find`: the first position at or after `pos` where `needle` starts. -/
def findFrom (needle : List Char) : List Char → Nat → Option Nat
  | [], pos => if needle.isEmpty then some pos else none
  | c :: cs, pos =>
    if needle.isPrefixOf (c :: cs) then some pos else findFrom needle cs (pos + 1)

/-- The call `s.find(needle)` of `std::string`; `none` stands for `std::string::npos`. -/
def stringFind (s needle : String) : Option Nat := findFrom needle.data s.data 0

/-- The call `std::find_if(first, last, p)`: the position of the first element satisfying `p`;
`none` stands for the end iterator. -/
def find_if {α : Type} (p : α → Bool) : List α → Option Nat
  | [] => none
  | x :: xs => if p x then some 0 else (find_if p xs).map (· + 1)

/-! ## Model descriptors -/

/-- Access mode of a model variable. -/
inductive VarAccess where
  | READ_WRITE
  | READ_ONLY
deriving DecidableEq

/-- A model variable (`Models::Base::Var`). -/
structure Var where
  name : String
  type : String
  access : VarAccess
deriving DecidableEq

/-- An extra global parameter (`Snippet::Base::EGP`). -/
structure EGP where
  name : String
  type : String
deriving DecidableEq

/-- An additional input variable or a row-build state variable (`Models::Base::ParamVal`):
its name, its type and the text of its initial value. -/
structure ParamVal where
  name : String
  type : String
  value : String
deriving DecidableEq

/-- A neuron model (`NeuronModels::Base`), as far as `neuronGroup.cc` reads it.  The further
fields are what the neuron update emitter reads: the support code, whether the model asks
for the automatic refractory test, the names of its parameters and derived parameters, and
its additional input variables. -/
structure NeuronModel where
  vars : List Var
  simCode : String
  thresholdConditionCode : String
  resetCode : String
  extraGlobalParams : List EGP
  supportCode : String := ""
  isAutoRefractoryRequired : Bool := true
  paramNames : List String := []
  derivedParamNames : List String := []
  additionalInputVars : List ParamVal := []
deriving DecidableEq

/-- A variable initialiser (`Models::VarInit`): the snippet it refers to and its parameters.
The further fields are what the init emitter reads: the code of the snippet, the names of
its parameters and derived parameters, its extra global parameters, and the values of the
derived parameters. -/
structure VarInit where
  snippet : String
  params : List Double
  code : String := ""
  paramNames : List String := []
  derivedParamNames : List String := []
  derivedParams : List Double := []
  extraGlobalParams : List EGP := []
  requiresKernel : Bool := false
deriving DecidableEq

/-- A weight update model, as far as `neuronGroup.cc` reads it.  The further fields are what
the synapse update emitter and the init emitter read: the names of its parameters and
derived parameters, its extra global parameters, and its variables. -/
structure WeightUpdateModel where
  isPreSpikeTimeRequired : Bool
  isPostSpikeTimeRequired : Bool
  learnPostCode : String
  paramNames : List String := []
  derivedParamNames : List String := []
  extraGlobalParams : List EGP := []
  vars : List Var := []
  preVars : List Var := []
  postVars : List Var := []
  simCode : String := ""
  eventCode : String := ""
  synapseDynamicsCode : String := ""
  learnPostSupportCode : String := ""
  synapseDynamicsSuppportCode : String := ""
deriving DecidableEq

/-- The initialiser of the sparse connectivity of a synapse group
(`InitSparseConnectivitySnippet::Init`), as far as the procedural connectivity handler reads
it. -/
structure ConnectivityInit where
  rowBuildCode : String := ""
  rowBuildStateVars : List ParamVal := []
  paramNames : List String := []
  params : List Double := []
  derivedParamNames : List String := []
  derivedParams : List Double := []
  extraGlobalParams : List EGP := []
deriving DecidableEq

/-- A postsynaptic model, as far as `neuronGroup.cc` reads it.  The further fields are what
the neuron update emitter reads. -/
structure PostsynapticModel where
  applyInputCode : String
  decayCode : String
  vars : List Var := []
  supportCode : String := ""
  paramNames : List String := []
  derivedParamNames : List String := []
  extraGlobalParams : List EGP := []
deriving DecidableEq

/-- The matrix type of a synapse group (`SynapseMatrixType`, declared outside the sources),
kept as the outcomes of the three tests that the emitters make on it:
`getMatrixType() & SynapseMatrixWeight::INDIVIDUAL`, `… & SynapseMatrixWeight::PROCEDURAL`
and `… & SynapseMatrixWeight::INDIVIDUAL_PSM`. -/
structure SynapseMatrixType where
  INDIVIDUAL : Bool := false
  PROCEDURAL : Bool := false
  INDIVIDUAL_PSM : Bool := false
deriving DecidableEq

/-- Modelled from the spec: `NO_DELAY` is defined outside the sources; a delay other than
`NO_DELAY` is a delay that is "non-zero". -/
def NO_DELAY : Nat := 0

/-- A synapse group (`SynapseGroupInternal`), as far as `neuronGroup.cc` reads it, with the
parameters of its postsynaptic model.  The merge target, which `setPSModelMergeTarget`
writes, is kept outside the record.  The further fields are what the neuron update and
synapse update emitters read. -/
structure SynapseGroupInternal where
  name : String
  wuModel : WeightUpdateModel
  psModel : PostsynapticModel
  psParams : List Double
  psDerivedParams : List Double
  psVarInitialisers : List VarInit
  isSpikeEventRequired : Bool
  isTrueSpikeRequired : Bool
  matrixType : SynapseMatrixType := {}
  isDendriticDelayRequired : Bool := false
  psConstInitVals : List Double := []
  psModelTargetName : String := ""
  delaySteps : Nat := NO_DELAY
  backPropDelaySteps : Nat := NO_DELAY
  wuParams : List Double := []
  wuDerivedParams : List Double := []
  wuVarInitialisers : List VarInit := []
  wuConstInitVals : List Double := []
  connectivityInitialiser : ConnectivityInit := {}
deriving DecidableEq

/-- A current source (`CurrentSourceInternal`), as far as `neuronGroup.cc` reads it. -/
structure CurrentSourceInternal where
  name : String
  model : String
  params : List Double
  isSimRNGRequired : Bool
deriving DecidableEq

/-- Modelled from the spec: `VarLocation` is declared in `variableMode.h`, which is not among
the sources; a location is one of "HOST, DEVICE, HOST_AND_DEVICE, ZERO_COPY_HOST_DEVICE". -/
inductive VarLocation where
  | HOST
  | DEVICE
  | HOST_AND_DEVICE
  | ZERO_COPY_HOST_DEVICE
deriving DecidableEq

/-- Entry of the merged incoming list: an archetype and the groups merged with it. -/
abbrev MergedInSynEntry := SynapseGroupInternal × List SynapseGroupInternal

/-- The data members of `NeuronGroup` that `neuronGroup.cc` uses.  `m_SpikeEventCondition`
is a `std::set` of pairs, held as its sequence of elements in iteration order. -/
structure NeuronGroup where
  m_Name : String
  m_NeuronModel : NeuronModel
  m_Params : List Double
  m_DerivedParams : List Double
  m_VarInitialisers : List VarInit
  m_InSyn : List SynapseGroupInternal
  m_OutSyn : List SynapseGroupInternal
  m_MergedInSyn : List MergedInSynEntry
  m_SpikeEventCondition : List (String × String)
  m_NumDelaySlots : Nat
  m_CurrentSources : List CurrentSourceInternal
  m_VarQueueRequired : List Bool
  m_VarLocation : List VarLocation
  m_ExtraGlobalParamLocation : List VarLocation
deriving DecidableEq

namespace NeuronGroup

/-! ## Getters -/

def getName (ng : NeuronGroup) : String := ng.m_Name
def getNeuronModel (ng : NeuronGroup) : NeuronModel := ng.m_NeuronModel
def getParams (ng : NeuronGroup) : List Double := ng.m_Params
def getDerivedParams (ng : NeuronGroup) : List Double := ng.m_DerivedParams
def getVarInitialisers (ng : NeuronGroup) : List VarInit := ng.m_VarInitialisers
def getInSyn (ng : NeuronGroup) : List SynapseGroupInternal := ng.m_InSyn
def getOutSyn (ng : NeuronGroup) : List SynapseGroupInternal := ng.m_OutSyn
def getMergedInSyn (ng : NeuronGroup) : List MergedInSynEntry := ng.m_MergedInSyn
def getSpikeEventCondition (ng : NeuronGroup) : List (String × String) := ng.m_SpikeEventCondition
def getNumDelaySlots (ng : NeuronGroup) : Nat := ng.m_NumDelaySlots
def getCurrentSources (ng : NeuronGroup) : List CurrentSourceInternal := ng.m_CurrentSources

/-! ## Requirement queries -/

/-- `NeuronGroup::isSpikeTimeRequired`. -/
def isSpikeTimeRequired (ng : NeuronGroup) : Bool :=
  if ng.getInSyn.any (fun sg => sg.wuModel.isPostSpikeTimeRequired) then true
  else if ng.getOutSyn.any (fun sg => sg.wuModel.isPreSpikeTimeRequired) then true
  else false

/-- `NeuronGroup::isSpikeEventRequired`. -/
def isSpikeEventRequired (ng : NeuronGroup) : Bool :=
  ng.getOutSyn.any (fun sg => sg.isSpikeEventRequired)

/-- Modelled from the spec: `isDelayRequired` is defined inline in `neuronGroup.h`, which is
not among the sources.  A group with a single delay slot has only slot 0, so delay is
required exactly when the group has more than one delay slot. -/
def isDelayRequired (ng : NeuronGroup) : Bool := decide (ng.getNumDelaySlots > 1)

/-! ## Delay slots and variable queues -/

/-- `NeuronGroup::checkNumDelaySlots`; `requiredDelay + 1` is computed in `unsigned int`. -/
def checkNumDelaySlots (ng : NeuronGroup) (requiredDelay : Nat) : NeuronGroup :=
  if requiredDelay >= ng.getNumDelaySlots then
    { ng with m_NumDelaySlots := (requiredDelay + 1) % 2 ^ 32 }
  else ng

/-- The loop of `NeuronGroup::updateVarQueues` from index `i` on, over the variables not yet
visited. -/
def updateVarQueuesLoop (code suffix : String) : List Var → Nat → List Bool → List Bool
  | [], _, flags => flags
  | v :: vs, i, flags =>
    if (stringFind code (v.name ++ suffix)).isSome then
      updateVarQueuesLoop code suffix vs (i + 1) (flags.set i true)
    else
      updateVarQueuesLoop code suffix vs (i + 1) flags

/-- `NeuronGroup::updateVarQueues`. -/
def updateVarQueues (ng : NeuronGroup) (code suffix : String) : NeuronGroup :=
  { ng with m_VarQueueRequired :=
      updateVarQueuesLoop code suffix ng.getNeuronModel.vars 0 ng.m_VarQueueRequired }

/-- `NeuronGroup::updatePreVarQueues`. -/
def updatePreVarQueues (ng : NeuronGroup) (code : String) : NeuronGroup :=
  ng.updateVarQueues code "_pre"

/-- `NeuronGroup::updatePostVarQueues`. -/
def updatePostVarQueues (ng : NeuronGroup) (code : String) : NeuronGroup :=
  ng.updateVarQueues code "_post"

end NeuronGroup

/-- One call of `updatePreVarQueues` or `updatePostVarQueues`. -/
inductive QueueUpdate where
  | pre (code : String)
  | post (code : String)
deriving DecidableEq

namespace NeuronGroup

/-- Perform one queue-update call. -/
def applyQueueUpdate (ng : NeuronGroup) : QueueUpdate → NeuronGroup
  | .pre code => ng.updatePreVarQueues code
  | .post code => ng.updatePostVarQueues code

/-- Perform a sequence of queue-update calls, first call first. -/
def applyQueueUpdates (ng : NeuronGroup) (calls : List QueueUpdate) : NeuronGroup :=
  calls.foldl applyQueueUpdate ng

/-- Call `checkNumDelaySlots` once for each delay of the list, in order. -/
def checkAllNumDelaySlots (ng : NeuronGroup) (delays : List Nat) : NeuronGroup :=
  delays.foldl checkNumDelaySlots ng

end NeuronGroup

/-! ## Merging of neuron groups -/

/-- The find-and-erase loop that `canBeMerged` and `canInitBeMerged` run over a temporary
copy `others` of the other group's list: for each own element, `std::find_if` looks for the
first compatible element of `others`; if there is one it is erased, otherwise the loop
returns `false`.  The result is `true` when the loop runs to its end. -/
def findAndEraseAll {α β : Type} (canMerge : α → β → Bool) : List α → List β → Bool
  | [], _ => true
  | x :: xs, others =>
    match find_if (fun o => canMerge x o) others with
    | some pos => findAndEraseAll canMerge xs (others.eraseIdx pos)
    | none => false

namespace NeuronGroup

/-- `NeuronGroup::canBeMerged`.  The three relations it delegates to are parameters. -/
def canBeMerged (nmCanBeMerged : NeuronModel → NeuronModel → Bool)
    (csCanBeMerged : CurrentSourceInternal → CurrentSourceInternal → Bool)
    (canPSBeMerged : SynapseGroupInternal → SynapseGroupInternal → Bool)
    (self other : NeuronGroup) : Bool :=
  if nmCanBeMerged self.getNeuronModel other.getNeuronModel
      && vectorEq Double.opEq self.getParams other.getParams
      && vectorEq Double.opEq self.getDerivedParams other.getDerivedParams
      && (self.isSpikeTimeRequired == other.isSpikeTimeRequired)
      && (self.getSpikeEventCondition == other.getSpikeEventCondition)
      && (self.m_VarQueueRequired == other.m_VarQueueRequired) then
    if self.getCurrentSources.length == other.getCurrentSources.length then
      if findAndEraseAll csCanBeMerged self.getCurrentSources other.getCurrentSources then
        if self.getMergedInSyn.length == other.getMergedInSyn.length then
          if findAndEraseAll (fun syn m => canPSBeMerged syn.1 m.1)
              self.getMergedInSyn other.getMergedInSyn then
            true
          else false
        else false
      else false
    else false
  else false

/-- `NeuronGroup::canInitBeMerged`.  `Models::VarInit::canBeMerged` is a parameter. -/
def canInitBeMerged (viCanBeMerged : VarInit → VarInit → Bool)
    (self other : NeuronGroup) : Bool :=
  if (self.isSpikeTimeRequired == other.isSpikeTimeRequired)
      && (self.isSpikeEventRequired == other.isSpikeEventRequired)
      && (self.getNumDelaySlots == other.getNumDelaySlots)
      && (self.m_VarQueueRequired == other.m_VarQueueRequired) then
    if self.getVarInitialisers.length == other.getVarInitialisers.length then
      if findAndEraseAll viCanBeMerged self.getVarInitialisers other.getVarInitialisers then
        true
      else false
    else false
  else false

end NeuronGroup

/-! ## Merging of incoming postsynaptic models -/

/-- A call `sg->setPSModelMergeTarget(name)`. -/
abbrev MergeTargetCall := SynapseGroupInternal × String

/-- What one pass of the inner loop of `mergeIncomingPSM` leaves behind. -/
structure InnerResult where
  merged : List SynapseGroupInternal
  calls : List MergeTargetCall
  inSyn : List SynapseGroupInternal

/-- The inner loop of `NeuronGroup::mergeIncomingPSM` over the remaining incoming groups
`b`, from the first to the last: a group that `a` can be linearly combined with is appended
to the entry, gets the merge target and is erased from the temporary vector; any other is
kept.  The test `canPSBeLinearlyCombined` is a parameter; it compares the postsynaptic
models of the two groups and does not read the merge target that the loop writes. -/
def mergeWithRemainder (canPSBeLinearlyCombined : SynapseGroupInternal → SynapseGroupInternal → Bool)
    (a : SynapseGroupInternal) (mergedPSMName : String) : List SynapseGroupInternal → InnerResult
  | [] => { merged := [], calls := [], inSyn := [] }
  | b :: rest =>
    let r := mergeWithRemainder canPSBeLinearlyCombined a mergedPSMName rest
    if canPSBeLinearlyCombined a b then
      { merged := b :: r.merged, calls := (b, mergedPSMName) :: r.calls, inSyn := r.inSyn }
    else
      { merged := r.merged, calls := r.calls, inSyn := b :: r.inSyn }

/-- State of the outer loop of `mergeIncomingPSM`: the merged list built so far and the
`setPSModelMergeTarget` calls made so far, in order. -/
structure MergeState where
  m_MergedInSyn : List MergedInSynEntry
  calls : List MergeTargetCall
deriving DecidableEq

/-- The outer loop of `NeuronGroup::mergeIncomingPSM`, one iteration per unit of `fuel`.
The counter `i` is an `unsigned int`.  The result is `none` when the fuel runs out before
the temporary vector `inSyn` is empty. -/
def mergeIncomingPSMLoop
    (canPSBeLinearlyCombined : SynapseGroupInternal → SynapseGroupInternal → Bool)
    (groupName : String) (merge : Bool) :
    Nat → Nat → List SynapseGroupInternal → MergeState → Option MergeState
  | 0, _, inSyn, st => if inSyn.isEmpty then some st else none
  | fuel + 1, i, inSyn, st =>
    match inSyn.getLast? with
    | none => some st
    | some a =>
      let inSyn := inSyn.dropLast
      if !merge then
        mergeIncomingPSMLoop canPSBeLinearlyCombined groupName merge fuel ((i + 1) % 2 ^ 32) inSyn
          { st with m_MergedInSyn := st.m_MergedInSyn ++ [(a, [a])] }
      else if !a.psVarInitialisers.isEmpty then
        mergeIncomingPSMLoop canPSBeLinearlyCombined groupName merge fuel ((i + 1) % 2 ^ 32) inSyn
          { st with m_MergedInSyn := st.m_MergedInSyn ++ [(a, [a])] }
      else
        let mergedPSMName := "Merged" ++ toString i ++ "_" ++ groupName
        let r := mergeWithRemainder canPSBeLinearlyCombined a mergedPSMName inSyn
        let members := a :: r.merged
        mergeIncomingPSMLoop canPSBeLinearlyCombined groupName merge fuel ((i + 1) % 2 ^ 32) r.inSyn
          { m_MergedInSyn := st.m_MergedInSyn ++ [(a, members)],
            calls := st.calls ++ r.calls ++
              (if members.length > 1 then [(a, mergedPSMName)] else []) }

namespace NeuronGroup

/-- `NeuronGroup::mergeIncomingPSM`: the group afterwards together with the calls of
`setPSModelMergeTarget` it made, in order.  Every iteration of the outer loop removes at
least one element of the temporary vector, so its size bounds the number of iterations. -/
def mergeIncomingPSM
    (canPSBeLinearlyCombined : SynapseGroupInternal → SynapseGroupInternal → Bool)
    (ng : NeuronGroup) (merge : Bool) : Option (NeuronGroup × List MergeTargetCall) :=
  (mergeIncomingPSMLoop canPSBeLinearlyCombined ng.getName merge ng.getInSyn.length 0 ng.getInSyn
      { m_MergedInSyn := ng.m_MergedInSyn, calls := [] }).map
    (fun st => ({ ng with m_MergedInSyn := st.m_MergedInSyn }, st.calls))

end NeuronGroup

/-! ## Properties of descriptors used when stating results -/

/-- An equivalence relation given as a Boolean test. -/
def IsEquivalence {α : Type} (r : α → α → Bool) : Prop :=
  (∀ a, r a a = true) ∧ (∀ a b, r a b = true → r b a = true) ∧
    (∀ a b c, r a b = true → r b c = true → r a c = true)

/-- Every parameter and derived parameter of the group compares equal to itself. -/
def NeuronGroup.paramsSelfEqual (ng : NeuronGroup) : Prop :=
  (∀ p ∈ ng.getParams, Double.opEq p p = true) ∧
    (∀ p ∈ ng.getDerivedParams, Double.opEq p p = true)

/-- An entry of the merged incoming list is well formed when its first member is its
archetype and the archetype can be linearly combined with every other member. -/
def MergedEntryOK
    (canPSBeLinearlyCombined : SynapseGroupInternal → SynapseGroupInternal → Bool)
    (e : MergedInSynEntry) : Prop :=
  ∃ rest, e.2 = e.1 :: rest ∧ ∀ b ∈ rest, canPSBeLinearlyCombined e.1 b = true

/-- The code of a queue-update call contains the name of `v` followed by the suffix that
the call uses. -/
def QueueUpdate.refersTo : QueueUpdate → Var → Bool
  | .pre code, v => (stringFind code (v.name ++ "_pre")).isSome
  | .post code, v => (stringFind code (v.name ++ "_post")).isSome

/-! ## Example inputs -/

/-- A neuron model with two state variables. -/
def exampleModel : NeuronModel :=
  { vars := [{ name := "V", type := "scalar", access := .READ_WRITE },
             { name := "U", type := "scalar", access := .READ_ONLY }]
    simCode := "$(V) += ($(Isyn) - $(U)) * DT;"
    thresholdConditionCode := "$(V) >= $(Vthresh)"
    resetCode := "$(V) = $(Vreset);"
    extraGlobalParams := [{ name := "Vthresh", type := "scalar" },
                          { name := "spikeTimes", type := "scalar*" }] }

/-- A freshly constructed neuron group: one delay slot, no queued variable, no synapse group. -/
def exampleGroup : NeuronGroup :=
  { m_Name := "Pop"
    m_NeuronModel := exampleModel
    m_Params := [{ bits := 4626322717216342016 }]
    m_DerivedParams := []
    m_VarInitialisers := [{ snippet := "Constant", params := [] },
                          { snippet := "Uniform", params := [] }]
    m_InSyn := []
    m_OutSyn := []
    m_MergedInSyn := []
    m_SpikeEventCondition := []
    m_NumDelaySlots := 1
    m_CurrentSources := []
    m_VarQueueRequired := [false, false]
    m_VarLocation := [.HOST_AND_DEVICE, .HOST_AND_DEVICE]
    m_ExtraGlobalParamLocation := [.HOST_AND_DEVICE, .HOST_AND_DEVICE] }

/-! ## The delegated relations, for concrete inputs -/

/-- Modelled from the spec: `NeuronModels::Base::canBeMerged` is not among the sources;
update-mergeable groups have the "same neuron-model identity". -/
def NeuronModel.canBeMerged (a b : NeuronModel) : Bool := decide (a = b)

/-- Modelled from the spec: `CurrentSource::canBeMerged` is not among the sources; current
sources are mergeable with the "same model, same params". -/
def CurrentSourceInternal.canBeMerged (a b : CurrentSourceInternal) : Bool :=
  decide (a.model = b.model) && vectorEq Double.opEq a.params b.params

/-- Modelled from the spec: `Models::VarInit::canBeMerged` is not among the sources; variable
initialisers are mergeable with the "same snippet identity; parameter equality optional". -/
def VarInit.canBeMerged (a b : VarInit) : Bool := decide (a.snippet = b.snippet)

/-- Modelled from the spec: `SynapseGroup::canPSBeMerged` is not among the sources;
postsynaptic-mergeable means "same postsynaptic model, params, derived params; variables
compatible", the last read as: variable initialisers mergeable one by one. -/
def SynapseGroupInternal.canPSBeMerged (a b : SynapseGroupInternal) : Bool :=
  decide (a.psModel = b.psModel) && vectorEq Double.opEq a.psParams b.psParams
    && vectorEq Double.opEq a.psDerivedParams b.psDerivedParams
    && vectorEq VarInit.canBeMerged a.psVarInitialisers b.psVarInitialisers

/-- Modelled from the spec: `SynapseGroup::canPSBeLinearlyCombined` is not among the sources;
linearly combinable means "identical model identity, identical parameters, identical derived
parameters, no non-trivial postsynaptic variable initializers". -/
def SynapseGroupInternal.canPSBeLinearlyCombined (a b : SynapseGroupInternal) : Bool :=
  decide (a.psModel = b.psModel) && vectorEq Double.opEq a.psParams b.psParams
    && vectorEq Double.opEq a.psDerivedParams b.psDerivedParams
    && a.psVarInitialisers.isEmpty && b.psVarInitialisers.isEmpty

/-! ## More example inputs -/

/-- A weight update model that needs no spike times. -/
def exampleWUM : WeightUpdateModel :=
  { isPreSpikeTimeRequired := false, isPostSpikeTimeRequired := false, learnPostCode := "" }

/-- An exponential-decay postsynaptic model. -/
def examplePSM : PostsynapticModel :=
  { applyInputCode := "$(Isyn) += $(inSyn);", decayCode := "$(inSyn) *= $(expDecay);" }

/-- A synapse group with the given name, postsynaptic parameter and postsynaptic variable
initialisers. -/
def exampleSyn (name : String) (tau : Nat) (psInit : List VarInit) : SynapseGroupInternal :=
  { name := name
    wuModel := exampleWUM
    psModel := examplePSM
    psParams := [{ bits := tau }]
    psDerivedParams := []
    psVarInitialisers := psInit
    isSpikeEventRequired := false
    isTrueSpikeRequired := true }

/-- A current source with the given name and model. -/
def exampleCS (name model : String) : CurrentSourceInternal :=
  { name := name, model := model, params := [{ bits := 4607182418800017408 }],
    isSimRNGRequired := model == "GaussianNoise" }

/-- A group with a direct-current and a noise current source and one incoming synapse group. -/
def exampleGroupA : NeuronGroup :=
  { exampleGroup with
    m_Name := "PopA"
    m_CurrentSources := [exampleCS "A_dc" "DC", exampleCS "A_noise" "GaussianNoise"]
    m_InSyn := [exampleSyn "SynA" 5 []]
    m_MergedInSyn := [(exampleSyn "SynA" 5 [], [exampleSyn "SynA" 5 []])] }

/-- Like `exampleGroupA`, with the current sources attached in the other order. -/
def exampleGroupB : NeuronGroup :=
  { exampleGroup with
    m_Name := "PopB"
    m_CurrentSources := [exampleCS "B_noise" "GaussianNoise", exampleCS "B_dc" "DC"]
    m_InSyn := [exampleSyn "SynB" 5 []]
    m_MergedInSyn := [(exampleSyn "SynB" 5 [], [exampleSyn "SynB" 5 []])] }

/-- A third group of the same kind. -/
def exampleGroupC : NeuronGroup :=
  { exampleGroup with
    m_Name := "PopC"
    m_CurrentSources := [exampleCS "C_dc" "DC", exampleCS "C_noise" "GaussianNoise"]
    m_InSyn := [exampleSyn "SynC" 5 []]
    m_MergedInSyn := [(exampleSyn "SynC" 5 [], [exampleSyn "SynC" 5 []])] }

/-- A group whose variable `V` is read through `V_pre` by an outgoing synapse group
without delay. -/
def exampleUndelayedGroup : NeuronGroup :=
  ({ exampleGroup with m_Name := "PopU", m_OutSyn := [exampleSyn "SynU" 5 []] }
    ).updatePreVarQueues "$(addToInSyn, $(g) * $(V_pre));"

/-- A group of the same kind whose outgoing synapse group has an axonal delay of 5 steps. -/
def exampleDelayedGroup : NeuronGroup :=
  (({ exampleGroup with m_Name := "PopD", m_OutSyn := [exampleSyn "SynD" 5 []] }
    ).updatePreVarQueues "$(addToInSyn, $(g) * $(V_pre));").checkNumDelaySlots 5

/-- Like `exampleGroup`, with the two variables initialised the other way round. -/
def exampleSwappedInitGroup : NeuronGroup :=
  { exampleGroup with
    m_Name := "PopS"
    m_VarInitialisers := [{ snippet := "Uniform", params := [] },
                          { snippet := "Constant", params := [] }] }

/-- A neuron model with other variables than `exampleModel`. -/
def exampleOtherModel : NeuronModel :=
  { vars := [{ name := "X", type := "unsigned int", access := .READ_WRITE },
             { name := "Y", type := "scalar", access := .READ_WRITE }]
    simCode := "$(X) += 1;"
    thresholdConditionCode := ""
    resetCode := ""
    extraGlobalParams := [] }

/-- Like `exampleGroup`, with another neuron model. -/
def exampleOtherModelGroup : NeuronGroup :=
  { exampleGroup with m_Name := "PopO", m_NeuronModel := exampleOtherModel }

/-- Current sources that use the same model: an equivalence that refines nothing else. -/
def CurrentSourceInternal.sameModel (a b : CurrentSourceInternal) : Bool :=
  decide (a.model = b.model)

/-- Synapse groups that use the same postsynaptic model. -/
def SynapseGroupInternal.samePSModel (a b : SynapseGroupInternal) : Bool :=
  decide (a.psModel = b.psModel)

/-- The initialiser that the init emitter hands to `genInitNeuronVarCode` for variable `i` of
a merged group: `ng.getArchetype().getVarInitialisers().at(i)`; `none` stands for the
exception that `at` throws. -/
def archetypeVarInitialiser (archetype : NeuronGroup) (i : Nat) : Option VarInit :=
  archetype.getVarInitialisers[i]?

/-- A group with three incoming synapse groups; the first and the last have the same
postsynaptic parameter. -/
def exampleTargetGroup : NeuronGroup :=
  { exampleGroup with
    m_Name := "Target"
    m_InSyn := [exampleSyn "SynA" 5 [], exampleSyn "SynC" 7 [], exampleSyn "SynB" 5 []] }

/-! ## Merge targets -/

/-- Two calls of `mergeIncomingPSM(merge)` in a row: what the second call returns. -/
def NeuronGroup.mergeIncomingPSMTwice
    (canPSBeLinearlyCombined : SynapseGroupInternal → SynapseGroupInternal → Bool)
    (ng : NeuronGroup) (merge : Bool) : Option (NeuronGroup × List MergeTargetCall) :=
  (ng.mergeIncomingPSM canPSBeLinearlyCombined merge).bind
    (fun first => first.1.mergeIncomingPSM canPSBeLinearlyCombined merge)

/-- A group with three incoming synapse groups of which the middle one has a postsynaptic
variable initialiser. -/
def exampleInitialisedTargetGroup : NeuronGroup :=
  { exampleGroup with
    m_Name := "Target"
    m_InSyn := [exampleSyn "SynA" 5 [],
                exampleSyn "SynV" 5 [{ snippet := "Constant", params := [] }],
                exampleSyn "SynB" 5 []] }

/-- The state of the outer loop that holds `r` on top of `st`. -/
def MergeState.extend (st r : MergeState) : MergeState :=
  { m_MergedInSyn := st.m_MergedInSyn ++ r.m_MergedInSyn, calls := st.calls ++ r.calls }

/-! ## Derived parameters -/

/-- A derived parameter (`Snippet::Base::DerivedParam`): its name and the function that
computes its value from the parameters and the timestep. -/
structure DerivedParam where
  name : String
  func : List Double → Double → Double

/-- `NeuronGroup::initDerivedParams`.  `modelDerivedParams` stands for
`getNeuronModel()->getDerivedParams()`, a virtual function of the model classes, and
`varInitDerivedParams` for `Models::VarInit::initDerivedParams`; both are defined outside
`neuronGroup.cc`.  Each `push_back` appends to `m_DerivedParams`. -/
def NeuronGroup.initDerivedParams (modelDerivedParams : NeuronModel → List DerivedParam)
    (varInitDerivedParams : VarInit → Double → VarInit) (ng : NeuronGroup) (dt : Double) :
    NeuronGroup :=
  let derivedParams := modelDerivedParams ng.getNeuronModel
  { ng with
    m_DerivedParams :=
      derivedParams.foldl (fun m_DerivedParams d => m_DerivedParams ++ [d.func ng.m_Params dt])
        ng.m_DerivedParams
    m_VarInitialisers := ng.m_VarInitialisers.map (fun v => varInitDerivedParams v dt) }

/-- The derived parameters of a model with one derived parameter, which is the product of
the bit patterns of the first parameter and the timestep. -/
def exampleDerivedParams : NeuronModel → List DerivedParam :=
  fun _ => [{ name := "ExpTC", func := fun params dt =>
    { bits := (params.headD { bits := 0 }).bits * dt.bits } }]

/-- A variable initialiser without derived parameters stays as it is. -/
def exampleVarInitDerivedParams : VarInit → Double → VarInit := fun v _ => v

/-! ## Further requirement queries and locations -/

/-- `NeuronGroup::isTrueSpikeRequired`. -/
def NeuronGroup.isTrueSpikeRequired (ng : NeuronGroup) : Bool :=
  if ng.getOutSyn.any (fun sg => sg.isTrueSpikeRequired) then true
  else if ng.getInSyn.any (fun sg => !sg.wuModel.learnPostCode.isEmpty) then true
  else false

/-- `NeuronGroup::isSimRNGRequired`.  The RNG test `Utils::isRNGRequired` on a code string
is defined outside `neuronGroup.cc` and is a parameter. -/
def NeuronGroup.isSimRNGRequired (isRNGRequired : String → Bool) (ng : NeuronGroup) : Bool :=
  if isRNGRequired ng.getNeuronModel.simCode
      || isRNGRequired ng.getNeuronModel.thresholdConditionCode
      || isRNGRequired ng.getNeuronModel.resetCode then
    true
  else if ng.m_CurrentSources.any (fun cs => cs.isSimRNGRequired) then
    true
  else
    ng.getInSyn.any (fun sg =>
      isRNGRequired sg.psModel.applyInputCode || isRNGRequired sg.psModel.decayCode)

/-- Modelled from the spec: `getExtraGlobalParamIndex` is defined in `snippet.h`, which is
not among the sources; it gives the index of the extra global parameter with that name, and
a name that is not found is an "unknown reference" failure, here `none`. -/
def NeuronModel.getExtraGlobalParamIndex (nm : NeuronModel) (paramName : String) :
    Option Nat :=
  find_if (fun egp => egp.name == paramName) nm.extraGlobalParams

/-- What a call that can throw leaves behind: the group afterwards and what was thrown. -/
structure Outcome where
  group : NeuronGroup
  thrown : Option String
deriving DecidableEq

/-- `NeuronGroup::setExtraGlobalParamLocation`.  `Utils::isTypePointer` is defined outside
`neuronGroup.cc` and is a parameter. -/
def NeuronGroup.setExtraGlobalParamLocation (isTypePointer : String → Bool) (ng : NeuronGroup)
    (paramName : String) (loc : VarLocation) : Outcome :=
  match ng.getNeuronModel.getExtraGlobalParamIndex paramName with
  | none => { group := ng, thrown := some "unknown reference" }
  | some extraGlobalParamIndex =>
    match ng.getNeuronModel.extraGlobalParams[extraGlobalParamIndex]? with
    | none => { group := ng, thrown := some "unknown reference" }
    | some egp =>
      if !isTypePointer egp.type then
        { group := ng,
          thrown := some "Only extra global parameters with a pointer type have a location" }
      else
        { group := { ng with m_ExtraGlobalParamLocation :=
                      ng.m_ExtraGlobalParamLocation.set extraGlobalParamIndex loc },
          thrown := none }

/-- A type is a pointer type when its name ends in an asterisk. -/
def exampleIsTypePointer (type : String) : Bool := type.data.getLast? == some '*'

/-! ## The init emitter (`generateInit.cc`) -/

/-- What an emitter writes to a `CodeStream`: a line (`os << … << std::endl`), a header
followed by a braced scope (`os << head; { CodeStream::Scope b(os); … }`, the header is empty
for a bare scope), or a call of the backend with what the handler passed to it writes.
The neuron and synapse update emitters also write text without a line end (`os << code`),
numbered opening and closing braces (`CodeStream::OB(n)`, `CodeStream::CB(n)`), and call the
handlers `genEmitTrueSpike` and `genEmitSpikeLikeEvent` that the backend hands to them. -/
inductive Code where
  | line (text : String)
  | scope (head : String) (body : List Code)
  | genPopVariableInit (body : List Code)
  | genVariableInit (count indexVarName : String) (body : List Code)
  | text (text : String)
  | OB (level : Nat)
  | CB (level : Nat)
  | genEmitTrueSpike
  | genEmitSpikeLikeEvent

/-- One substitution installed in a scope, named after the member of `Substitutions` that
installs it, with the arguments of the call; a predicate on the parameter index is kept as
its values at the indices 0, 1, … of the names.  `addParamValues` and `addVarValues` are the
overloads of `addParamValueSubstitution` and `addVarValueSubstitution` that take the names
and the values only. -/
inductive Substitution where
  | addVarSubstitution (source destination : String)
  | addParamValueSubstitution (paramNames : List String) (values : List Double)
      (isHeterogeneous : List Bool) (sourceSuffix destPrefix destSuffix : String)
  | addVarValueSubstitution (names : List String) (values : List Double)
      (isHeterogeneous : List Bool) (sourceSuffix destPrefix destSuffix : String)
  | addVarNameSubstitution (names : List String) (sourceSuffix destPrefix destSuffix : String)
  | addParamValues (paramNames : List String) (values : List Double)
  | addVarValues (names : List String) (values : List Double)
  | addFuncSubstitution (source : String) (numArguments : Nat) (funcTemplate : String)
deriving DecidableEq

/-- A substitution scope (`Substitutions`): what has been installed in it and in its parents,
latest first. -/
abbrev Substitutions := List Substitution

/-- The operations of the substitution layer that the emitters call and that are defined
outside the sources (`substitutions.h`, `codeGenUtils`): the lookup `subs[name]` and
`applyCheckUnreplaced(code, context)`, where `none` stands for the exception they throw,
`ensureFtype(code, type)`, and `apply(code)`, which makes no check and throws nothing. -/
structure SubstitutionLayer where
  getVarSubstitution : Substitutions → String → Option String
  applyCheckUnreplaced : Substitutions → String → String → Option String
  ensureFtype : String → String → String
  apply : Substitutions → String → String

/-- The backend (`BackendBase`), a collaborator outside the sources: the scope that
`genVariableInit` hands to its handler, given the parent scope, the count and the name of
the index variable. -/
structure Backend where
  genVariableInitSubs : Substitutions → String → String → Substitutions

/-- A merged neuron init group (`NeuronInitGroupMerged`), as far as the init emitter reads
it: its index, its archetype and the heterogeneity of the parameters and derived parameters
of the variable initialisers. -/
structure NeuronInitGroupMerged where
  index : Nat
  archetype : NeuronGroup
  isVarInitParamHeterogeneous : Nat → Nat → Bool
  isVarInitDerivedParamHeterogeneous : Nat → Nat → Bool

namespace NeuronInitGroupMerged

def getIndex (ng : NeuronInitGroupMerged) : Nat := ng.index
def getArchetype (ng : NeuronInitGroupMerged) : NeuronGroup := ng.archetype

end NeuronInitGroupMerged

/-- Modelled from the spec: the overload of `isVarQueueRequired` that takes the index of a
variable is defined inline in `neuronGroup.h`, which is not among the sources; it is bit `i`
of the per-variable queue mask. -/
def NeuronGroup.isVarQueueRequired (ng : NeuronGroup) (i : Nat) : Bool :=
  ng.m_VarQueueRequired.getD i false

/-- `genInitSpikeCount`. -/
def genInitSpikeCount (ng : NeuronInitGroupMerged) (spikeEvent : Bool) : List Code :=
  let initRequired := if spikeEvent then ng.getArchetype.isSpikeEventRequired else true
  if initRequired then
    let spikeCntName := if spikeEvent then "spkCntEvnt" else "spkCnt"
    let delayRequired :=
      if spikeEvent then ng.getArchetype.isDelayRequired
      else (ng.getArchetype.isTrueSpikeRequired && ng.getArchetype.isDelayRequired)
    [Code.genPopVariableInit
      (if delayRequired then
        [Code.scope
          ("for (unsigned int d = 0; d < " ++ toString ng.getArchetype.getNumDelaySlots
            ++ "; d++)")
          [Code.line ("group->" ++ spikeCntName ++ "[d] = 0;")]]
      else
        [Code.line ("group->" ++ spikeCntName ++ "[0] = 0;")])]
  else []

/-- `genInitSpikes`. -/
def genInitSpikes (layer : SubstitutionLayer) (backend : Backend) (popSubs : Substitutions)
    (ng : NeuronInitGroupMerged) (spikeEvent : Bool) : Option (List Code) :=
  let initRequired := if spikeEvent then ng.getArchetype.isSpikeEventRequired else true
  if initRequired then do
    let varSubs := backend.genVariableInitSubs popSubs "group->numNeurons" "id"
    let spikeName := if spikeEvent then "spkEvnt" else "spk"
    let delayRequired :=
      if spikeEvent then ng.getArchetype.isDelayRequired
      else (ng.getArchetype.isTrueSpikeRequired && ng.getArchetype.isDelayRequired)
    let id ← layer.getVarSubstitution varSubs "id"
    pure [Code.genVariableInit "group->numNeurons" "id"
      (if delayRequired then
        [Code.scope
          ("for (unsigned int d = 0; d < " ++ toString ng.getArchetype.getNumDelaySlots
            ++ "; d++)")
          [Code.line ("group->" ++ spikeName ++ "[(d * group->numNeurons) + " ++ id
            ++ "] = 0;")]]
      else
        [Code.line ("group->" ++ spikeName ++ "[" ++ id ++ "] = 0;")])]
  else pure []

/-- `genInitSpikeTime`. -/
def genInitSpikeTime (layer : SubstitutionLayer) (backend : Backend) (popSubs : Substitutions)
    (ng : NeuronInitGroupMerged) (varName : String) : Option (List Code) := do
  let varSubs := backend.genVariableInitSubs popSubs "group->numNeurons" "id"
  let id ← layer.getVarSubstitution varSubs "id"
  pure [Code.genVariableInit "group->numNeurons" "id"
    (if ng.getArchetype.isDelayRequired then
      [Code.scope
        ("for (unsigned int d = 0; d < " ++ toString ng.getArchetype.getNumDelaySlots
          ++ "; d++)")
        [Code.line ("group->" ++ varName ++ "[(d * group->numNeurons) + " ++ id
          ++ "] = -TIME_MAX;")]]
    else
      [Code.line ("group->" ++ varName ++ "[" ++ id ++ "] = -TIME_MAX;")])]

/-- The statement with which the neuron init handler zeroes the spike queue pointer. -/
def spkQuePtrInit : Code := Code.genPopVariableInit [Code.line "*group->spkQuePtr = 0;"]

/-- The neuron init handler of `generateInit` ("Local neuron group initialisation") from its
start to the zeroing of the spike queue pointer.  `isPrevSpikeTimeRequired`,
`isSpikeEventTimeRequired` and `isPrevSpikeEventTimeRequired` are members of `NeuronGroup`
that are defined outside the sources. -/
def neuronInitHandlerHead (layer : SubstitutionLayer) (backend : Backend)
    (isPrevSpikeTimeRequired isSpikeEventTimeRequired isPrevSpikeEventTimeRequired :
      NeuronGroup → Bool)
    (ng : NeuronInitGroupMerged) (popSubs : Substitutions) : Option (List Code) := do
  let spikeCount := genInitSpikeCount ng false
  let spikeEventCount := genInitSpikeCount ng true
  let spikes ← genInitSpikes layer backend popSubs ng false
  let spikeEvents ← genInitSpikes layer backend popSubs ng true
  let sT ←
    (if ng.getArchetype.isSpikeTimeRequired then
      genInitSpikeTime layer backend popSubs ng "sT"
    else pure [])
  let prevST ←
    (if isPrevSpikeTimeRequired ng.getArchetype then
      genInitSpikeTime layer backend popSubs ng "prevST"
    else pure [])
  let seT ←
    (if isSpikeEventTimeRequired ng.getArchetype then
      genInitSpikeTime layer backend popSubs ng "seT"
    else pure [])
  let prevSET ←
    (if isPrevSpikeEventTimeRequired ng.getArchetype then
      genInitSpikeTime layer backend popSubs ng "prevSET"
    else pure [])
  let spkQuePtr := if ng.getArchetype.isDelayRequired then [spkQuePtrInit] else []
  pure (spikeCount ++ spikeEventCount ++ spikes ++ spikeEvents ++ sT ++ prevST ++ seT
    ++ prevSET ++ spkQuePtr)

/-- The scope in which `genInitNeuronVarCode` applies the code of the initialiser of variable
`k`, before `$(value)` is bound: the scope of the backend with the parameter, derived
parameter and extra global parameter substitutions of the initialiser. -/
def initVarSubs (backend : Backend) (popSubs : Substitutions) (var : Var)
    (fieldSuffix count : String) (varInit : VarInit)
    (isParamHeterogeneousFn isDerivedParamHeterogeneousFn : Nat → Nat → Bool) (k : Nat) :
    Substitutions :=
  let varSubs := backend.genVariableInitSubs popSubs count "id"
  let varSubs := Substitution.addParamValueSubstitution varInit.paramNames varInit.params
    ((List.range varInit.paramNames.length).map (fun p => isParamHeterogeneousFn k p))
    "" "group->" (var.name ++ fieldSuffix) :: varSubs
  let varSubs := Substitution.addVarValueSubstitution varInit.derivedParamNames
    varInit.derivedParams
    ((List.range varInit.derivedParamNames.length).map
      (fun p => isDerivedParamHeterogeneousFn k p))
    "" "group->" (var.name ++ fieldSuffix) :: varSubs
  Substitution.addVarNameSubstitution (varInit.extraGlobalParams.map EGP.name)
    "" "group->" (var.name ++ fieldSuffix) :: varSubs

/-- One iteration of the loop of `genInitNeuronVarCode`, for the variable `var` at index `k`;
`none` stands for an exception (of `at`, of the lookup of `id` or of
`applyCheckUnreplaced`). -/
def genInitNeuronVarCodeVar (layer : SubstitutionLayer) (backend : Backend)
    (popSubs : Substitutions) (fieldSuffix count : String) (numDelaySlots groupIndex : Nat)
    (ftype : String) (getVarInitialiser : Nat → Option VarInit)
    (isVarQueueRequired : Nat → Bool)
    (isParamHeterogeneousFn isDerivedParamHeterogeneousFn : Nat → Nat → Bool)
    (k : Nat) (var : Var) : Option (List Code) := do
  let varInit ← getVarInitialiser k
  if !varInit.code.isEmpty then
    let varSubs := initVarSubs backend popSubs var fieldSuffix count varInit
      isParamHeterogeneousFn isDerivedParamHeterogeneousFn k
    if isVarQueueRequired k then
      let varSubs := Substitution.addVarSubstitution "value" "initVal" :: varSubs
      let code ← layer.applyCheckUnreplaced varSubs varInit.code
        ("initVar : " ++ var.name ++ "merged" ++ toString groupIndex)
      let code := layer.ensureFtype code ftype
      let id ← layer.getVarSubstitution varSubs "id"
      pure [Code.scope "" [Code.genVariableInit count "id"
        [Code.line (var.type ++ " initVal;"),
         Code.line code,
         Code.scope ("for (unsigned int d = 0; d < " ++ toString numDelaySlots ++ "; d++)")
           [Code.line ("group->" ++ var.name ++ fieldSuffix ++ "[(d * " ++ count ++ ") + "
             ++ id ++ "] = initVal;")]]]]
    else
      let id ← layer.getVarSubstitution varSubs "id"
      let varSubs := Substitution.addVarSubstitution "value"
        ("group->" ++ var.name ++ fieldSuffix ++ "[" ++ id ++ "]") :: varSubs
      let code ← layer.applyCheckUnreplaced varSubs varInit.code
        ("initVar : " ++ var.name ++ "merged" ++ toString groupIndex)
      let code := layer.ensureFtype code ftype
      pure [Code.scope "" [Code.genVariableInit count "id" [Code.line code]]]
  else pure []

/-- The loop of `genInitNeuronVarCode` from index `k` on, over the variables not yet
visited. -/
def genInitNeuronVarCodeLoop (layer : SubstitutionLayer) (backend : Backend)
    (popSubs : Substitutions) (fieldSuffix count : String) (numDelaySlots groupIndex : Nat)
    (ftype : String) (getVarInitialiser : Nat → Option VarInit)
    (isVarQueueRequired : Nat → Bool)
    (isParamHeterogeneousFn isDerivedParamHeterogeneousFn : Nat → Nat → Bool) :
    Nat → List Var → Option (List Code)
  | _, [] => some []
  | k, var :: vars => do
    let emitted ← genInitNeuronVarCodeVar layer backend popSubs fieldSuffix count
      numDelaySlots groupIndex ftype getVarInitialiser isVarQueueRequired
      isParamHeterogeneousFn isDerivedParamHeterogeneousFn k var
    let rest ← genInitNeuronVarCodeLoop layer backend popSubs fieldSuffix count
      numDelaySlots groupIndex ftype getVarInitialiser isVarQueueRequired
      isParamHeterogeneousFn isDerivedParamHeterogeneousFn (k + 1) vars
    pure (emitted ++ rest)

/-- `genInitNeuronVarCode`, the overload with a queue predicate. -/
def genInitNeuronVarCode (layer : SubstitutionLayer) (backend : Backend)
    (popSubs : Substitutions) (vars : List Var) (fieldSuffix countMember : String)
    (numDelaySlots groupIndex : Nat) (ftype : String)
    (getVarInitialiser : Nat → Option VarInit) (isVarQueueRequired : Nat → Bool)
    (isParamHeterogeneousFn isDerivedParamHeterogeneousFn : Nat → Nat → Bool) :
    Option (List Code) :=
  let count := "group->" ++ countMember
  genInitNeuronVarCodeLoop layer backend popSubs fieldSuffix count numDelaySlots groupIndex
    ftype getVarInitialiser isVarQueueRequired isParamHeterogeneousFn
    isDerivedParamHeterogeneousFn 0 vars

/-- `genInitNeuronVarCode`, the overload without a queue predicate. -/
def genInitNeuronVarCodeNoQueue (layer : SubstitutionLayer) (backend : Backend)
    (popSubs : Substitutions) (vars : List Var) (fieldSuffix countMember : String)
    (groupIndex : Nat) (ftype : String) (getVarInitialiser : Nat → Option VarInit)
    (isParamHeterogeneousFn isDerivedParamHeterogeneousFn : Nat → Nat → Bool) :
    Option (List Code) :=
  genInitNeuronVarCode layer backend popSubs vars fieldSuffix countMember 0 groupIndex ftype
    getVarInitialiser (fun _ => false) isParamHeterogeneousFn isDerivedParamHeterogeneousFn

/-- The neuron init handler of `generateInit` up to and including the initialisation of the
neuron variables; the handler goes on with the incoming synapse groups, the weight update
variables and the current sources. -/
def neuronInitHandler (layer : SubstitutionLayer) (backend : Backend)
    (isPrevSpikeTimeRequired isSpikeEventTimeRequired isPrevSpikeEventTimeRequired :
      NeuronGroup → Bool)
    (precision : String) (ng : NeuronInitGroupMerged) (popSubs : Substitutions) :
    Option (List Code) := do
  let head ← neuronInitHandlerHead layer backend isPrevSpikeTimeRequired
    isSpikeEventTimeRequired isPrevSpikeEventTimeRequired ng popSubs
  let neuronVars ← genInitNeuronVarCode layer backend popSubs
    ng.getArchetype.getNeuronModel.vars "" "numNeurons" ng.getArchetype.getNumDelaySlots
    ng.getIndex precision
    (fun i => archetypeVarInitialiser ng.getArchetype i)
    (fun i => ng.getArchetype.isVarQueueRequired i)
    ng.isVarInitParamHeterogeneous ng.isVarInitDerivedParamHeterogeneous
  pure (head ++ neuronVars)

/-! ## Example inputs for the init emitter -/

/-- A substitution layer that looks a name up among the `addVarSubstitution` entries, leaves
code as it is and changes no type. -/
def exampleLayer : SubstitutionLayer :=
  { getVarSubstitution := fun subs name =>
      subs.findSome? (fun s =>
        match s with
        | .addVarSubstitution source destination =>
          if source = name then some destination else none
        | _ => none)
    applyCheckUnreplaced := fun _ code _ => some code
    ensureFtype := fun code _ => code
    apply := fun _ code => code }

/-- A backend whose `genVariableInit` binds the index variable to `i` in a child scope. -/
def exampleBackend : Backend :=
  { genVariableInitSubs := fun popSubs _ indexVarName =>
      Substitution.addVarSubstitution indexVarName "i" :: popSubs }

/-- The merged init group whose archetype is the delayed example group with queued `V`. -/
def exampleMergedInit : NeuronInitGroupMerged :=
  { index := 0
    archetype :=
      { exampleDelayedGroup with
        m_VarInitialisers :=
          [{ snippet := "Constant", params := [], code := "$(value) = $(constant);",
             paramNames := ["constant"] },
           { snippet := "Uninitialised", params := [] }] }
    isVarInitParamHeterogeneous := fun _ _ => false
    isVarInitDerivedParamHeterogeneous := fun _ _ => false }

/-- What `genInitSpikeTime` hands to the backend for the array `varName`, for the text `id`
of the element index: with delay, `-TIME_MAX` is assigned at index `(d * numNeurons) + id`
for every delay slot `d`; without, at index `id`. -/
def spikeTimeInit (delayRequired : Bool) (numDelaySlots : Nat) (varName id : String) : Code :=
  Code.genVariableInit "group->numNeurons" "id"
    (if delayRequired then
      [Code.scope ("for (unsigned int d = 0; d < " ++ toString numDelaySlots ++ "; d++)")
        [Code.line ("group->" ++ varName ++ "[(d * group->numNeurons) + " ++ id
          ++ "] = -TIME_MAX;")]]
    else
      [Code.line ("group->" ++ varName ++ "[" ++ id ++ "] = -TIME_MAX;")])


/-- The merged init group whose archetype needs spike times and a delay of 5 steps: its
outgoing synapse group reads the presynaptic spike times. -/
def exampleSpikeTimeMergedInit : NeuronInitGroupMerged :=
  { exampleMergedInit with
    archetype :=
      { exampleMergedInit.archetype with
        m_OutSyn :=
          [{ exampleSyn "SynD" 5 [] with
             wuModel := { exampleWUM with isPreSpikeTimeRequired := true } }] } }


/-! ## The neuron update emitter (`generateNeuronUpdate.cc`) -/

/-- How an emitter stops without finishing: with an exception (of a lookup, of
`applyCheckUnreplaced` or of `at`), at an `assert(false)` on the given line of the source,
or with undefined behaviour (a read outside an array). -/
inductive Failure where
  | exception
  | assertion (line : Nat)
  | undefinedBehaviour
deriving DecidableEq

/-- The result of a lookup or of `applyCheckUnreplaced` inside an emitter; `none` is the
exception that it throws. -/
def orThrow {α : Type} : Option α → Except Failure α
  | some a => .ok a
  | none => .error .exception

/-- The statement `assert(false);` on line `line`: it stops the emitter, unless the source is
compiled with `NDEBUG`, in which case it does nothing. -/
def assertFalse (ndebug : Bool) (line : Nat) : Except Failure Unit :=
  if ndebug then .ok () else .error (.assertion line)

/-- The expression `literal + i` for a string literal and an `i` of type `size_t`, converted
to `std::string`: the sum is pointer arithmetic on the array of the literal, so the string
is what the literal holds from position `i` up to its terminating zero; beyond the
terminating zero the read is outside the array. -/
def literalPlus (literal : String) (i : Nat) : Except Failure String :=
  if i ≤ literal.length then .ok (String.mk (literal.data.drop i))
  else .error .undefinedBehaviour

/-- A `for` loop over the elements of a vector whose body writes to the stream. -/
def forEach {α : Type} (body : α → Except Failure (List Code)) :
    List α → Except Failure (List Code)
  | [] => .ok []
  | x :: xs => do
    let emitted ← body x
    let rest ← forEach body xs
    pure (emitted ++ rest)

/-- A `for` loop over the indices `i`, `i + 1`, … of a vector whose body writes to the
stream. -/
def forEachIndexed {α : Type} (body : Nat → α → Except Failure (List Code)) :
    Nat → List α → Except Failure (List Code)
  | _, [] => .ok []
  | i, x :: xs => do
    let emitted ← body i x
    let rest ← forEachIndexed body (i + 1) xs
    pure (emitted ++ rest)

/-- The model (`ModelSpecInternal`), as far as the update emitters read it. -/
structure ModelSpecInternal where
  getPrecision : String
  getDT : Double
  scalarExpr : Double → String

/-- A merged neuron update group (`NeuronGroupMerged`), as far as the sim handler reads it. -/
structure NeuronGroupMerged where
  index : Nat
  archetype : NeuronGroup

namespace NeuronGroupMerged

def getIndex (ng : NeuronGroupMerged) : Nat := ng.index
def getArchetype (ng : NeuronGroupMerged) : NeuronGroup := ng.archetype

end NeuronGroupMerged

/-- `addNeuronModelSubstitutions`. -/
def addNeuronModelSubstitutions (substitution : Substitutions) (ng : NeuronGroup)
    (sourceSuffix destSuffix : String) : Substitutions :=
  let nm := ng.getNeuronModel
  let substitution := Substitution.addVarNameSubstitution (nm.vars.map Var.name)
    sourceSuffix "l" destSuffix :: substitution
  let substitution := Substitution.addParamValues nm.paramNames ng.getParams :: substitution
  let substitution :=
    Substitution.addVarValues nm.derivedParamNames ng.getDerivedParams :: substitution
  let substitution := Substitution.addVarNameSubstitution
    (nm.extraGlobalParams.map EGP.name) "" "neuronGroup." "" :: substitution
  Substitution.addVarNameSubstitution (nm.additionalInputVars.map ParamVal.name) "" "" ""
    :: substitution

/-- `addPostsynapticModelSubstitutions`. -/
def addPostsynapticModelSubstitutions (substitution : Substitutions)
    (sg : SynapseGroupInternal) : Substitutions :=
  let psm := sg.psModel
  let substitution :=
    if sg.matrixType.INDIVIDUAL_PSM then
      Substitution.addVarNameSubstitution (psm.vars.map Var.name) "" "lps" sg.name
        :: substitution
    else
      Substitution.addVarValues (psm.vars.map Var.name) sg.psConstInitVals :: substitution
  let substitution := Substitution.addParamValues psm.paramNames sg.psParams :: substitution
  let substitution :=
    Substitution.addVarValues psm.derivedParamNames sg.psDerivedParams :: substitution
  Substitution.addVarNameSubstitution (psm.extraGlobalParams.map EGP.name) "" "" sg.name
    :: substitution

/-- The sim handler, lines 111 to 122: the body of the loop that copies the neuron state into
local variables, for the variable `v`.  `isVarQueueRequired` is the overload of
`NeuronGroup::isVarQueueRequired` that takes the name of a variable (`neuronGroup.cc`, lines
295 to 299); it goes through `getVarIndex`, which is defined outside the sources, and is a
parameter of the handler here. -/
def neuronVarLoadVar (layer : SubstitutionLayer)
    (isVarQueueRequired : NeuronGroup → String → Bool)
    (ng : NeuronGroupMerged) (popSubs : Substitutions) (v : Var) :
    Except Failure (List Code) := do
  let id ← orThrow (layer.getVarSubstitution popSubs "id")
  pure [Code.line
    ((if v.access = VarAccess.READ_ONLY then "const " else "")
      ++ v.type ++ " l" ++ v.name ++ " = "
      ++ "neuronGroup." ++ v.name ++ "["
      ++ (if isVarQueueRequired ng.getArchetype v.name && ng.getArchetype.isDelayRequired
          then "readDelayOffset + " else "")
      ++ id ++ "];")]

/-- The sim handler, lines 124 to 133: the read of the spike time.  The statements that
write the read are commented out in the source; what is left is the assertion and the empty
line. -/
def neuronSpikeTimeLoad (ndebug : Bool) (ng : NeuronGroupMerged) :
    Except Failure (List Code) := do
  if ng.getArchetype.isSpikeTimeRequired then
    assertFalse ndebug 126
  pure [Code.line ""]

/-- The sim handler, lines 135 to 146: the declaration of `Isyn`. -/
def neuronIsynDeclaration (model : ModelSpecInternal) (ng : NeuronGroupMerged) : List Code :=
  if (stringFind ng.getArchetype.getNeuronModel.simCode "$(Isyn)").isSome
      || ng.getArchetype.getMergedInSyn.any (fun p =>
        (stringFind p.1.psModel.applyInputCode "$(inSyn)").isSome
          || (stringFind p.1.psModel.decayCode "$(inSyn)").isSome) then
    [Code.line (model.getPrecision ++ " Isyn = 0;")]
  else []

/-- The sim handler, lines 148 to 151: the scope `neuronSubs`. -/
def neuronUpdateSubs (ng : NeuronGroupMerged) (popSubs : Substitutions) : Substitutions :=
  addNeuronModelSubstitutions
    (Substitution.addVarSubstitution "sT" "lsT"
      :: Substitution.addVarSubstitution "Isyn" "Isyn" :: popSubs)
    ng.getArchetype "" ""

/-- The sim handler, lines 153 to 156: the additional input variables. -/
def neuronAdditionalInputVars (ng : NeuronGroupMerged) : List Code :=
  ng.getArchetype.getNeuronModel.additionalInputVars.map (fun a =>
    Code.line (a.type ++ " " ++ a.name ++ " = " ++ a.value ++ ";"))

/-- The sim handler, lines 184 to 190: the read of the postsynaptic variable `v` of the
merged incoming entry `i` into a local variable. -/
def psmVarLoad (layer : SubstitutionLayer) (neuronSubs : Substitutions) (i : Nat) (v : Var) :
    Except Failure (List Code) := do
  let id ← orThrow (layer.getVarSubstitution neuronSubs "id")
  pure [Code.line
    ((if v.access = VarAccess.READ_ONLY then "const " else "")
      ++ v.type ++ " lps" ++ v.name
      ++ " = neuronGroup." ++ v.name ++ toString i ++ "[" ++ id ++ "];")]

/-- The sim handler, lines 222 to 226: the write of the postsynaptic variable `v` of the
merged incoming entry `i` back to the group. -/
def psmVarWriteBack (layer : SubstitutionLayer) (inSynSubs : Substitutions) (i : Nat)
    (v : Var) : Except Failure (List Code) :=
  if v.access = VarAccess.READ_WRITE then do
    let id ← orThrow (layer.getVarSubstitution inSynSubs "id")
    pure [Code.line
      ("neuronGroup." ++ v.name ++ toString i ++ "[" ++ id ++ "]" ++ " = lps" ++ v.name
        ++ ";")]
  else pure []

/-- The sim handler, line 199: the context that `applyCheckUnreplaced` gets for the
apply-input code of the merged incoming entry `i`, the value of
`"postSyntoCurrent : merged " + i`. -/
def postSyntoCurrentContext (i : Nat) : Except Failure String :=
  literalPlus "postSyntoCurrent : merged " i

/-- The sim handler, line 204: the context that `applyCheckUnreplaced` gets for the decay
code of the merged incoming entry `i`, the value of `"decayCode : merged " + i`. -/
def decayCodeContext (i : Nat) : Except Failure String :=
  literalPlus "decayCode : merged " i

/-- The sim handler, lines 193 to 195: the scope `inSynSubs` of a merged incoming entry. -/
def inSynSubs (neuronSubs : Substitutions) (sg : SynapseGroupInternal) : Substitutions :=
  addPostsynapticModelSubstitutions
    (Substitution.addVarSubstitution "inSyn" "linSyn" :: neuronSubs) sg

/-- The sim handler, lines 159 to 227: the body of the loop over the merged incoming
synapse groups, for the entry `p` at index `i`. -/
def mergedInSynBody (layer : SubstitutionLayer) (model : ModelSpecInternal)
    (popSubs neuronSubs : Substitutions) (i : Nat) (p : MergedInSynEntry) :
    Except Failure (List Code) := do
  let sg := p.1
  let psm := sg.psModel
  let id ← orThrow (layer.getVarSubstitution popSubs "id")
  let pull :=
    [Code.line "// pull inSyn values in a coalesced access",
     Code.line (model.getPrecision ++ " linSyn = neuronGroup.inSyn" ++ toString i ++ "["
       ++ id ++ "];")]
  let denDelay :=
    if sg.isDendriticDelayRequired then
      [Code.line (model.getPrecision ++ " &denDelayFront" ++ toString i ++ " = "
         ++ "neuronGroup.denDelay" ++ toString i ++ "[(*neuronGroup.denDelayPtr"
         ++ toString i ++ " * neuronGroup.numNeurons) + " ++ id ++ "];"),
       Code.line ("linSyn += denDelayFront" ++ toString i ++ ";"),
       Code.line ("denDelayFront" ++ toString i ++ " = " ++ model.scalarExpr { bits := 0 }
         ++ ";")]
    else []
  let psmVars ←
    (if sg.matrixType.INDIVIDUAL_PSM then forEach (psmVarLoad layer neuronSubs i) psm.vars
     else pure [])
  let inSynSubs := inSynSubs neuronSubs sg
  let psContext ← postSyntoCurrentContext i
  let psCode ← orThrow (layer.applyCheckUnreplaced inSynSubs psm.applyInputCode psContext)
  let psCode := layer.ensureFtype psCode model.getPrecision
  let pdContext ← decayCodeContext i
  let pdCode ← orThrow (layer.applyCheckUnreplaced inSynSubs psm.decayCode pdContext)
  let pdCode := layer.ensureFtype pdCode model.getPrecision
  let openNamespace :=
    if !psm.supportCode.isEmpty then
      [Code.OB 29, Code.line (" using namespace " ++ sg.psModelTargetName ++ "_postsyn;")]
    else []
  let closeNamespace :=
    if !psm.supportCode.isEmpty then
      [Code.CB 29, Code.line " // namespace bracket closed"]
    else []
  let idInSyn ← orThrow (layer.getVarSubstitution inSynSubs "id")
  let writeInSyn := [Code.line ("neuronGroup.inSyn" ++ toString i ++ "[" ++ idInSyn
    ++ "] = linSyn;")]
  let writeVars ← forEach (psmVarWriteBack layer inSynSubs i) psm.vars
  pure [Code.scope "" (pull ++ denDelay ++ psmVars ++ openNamespace
    ++ [Code.line psCode, Code.line pdCode] ++ closeNamespace ++ writeInSyn ++ writeVars)]

/-- The sim handler, lines 262 to 265: the support code of the neuron model.  The statement
that writes the `using namespace` is commented out in the source. -/
def neuronSupportCode (ndebug : Bool) (ng : NeuronGroupMerged) :
    Except Failure (List Code) := do
  if !ng.getArchetype.getNeuronModel.supportCode.isEmpty then
    assertFalse ndebug 263
  pure []

/-- The sim handler, lines 267 to 278: the threshold condition.  The first component is
`thCode` afterwards, the second what is written. -/
def neuronThreshold (layer : SubstitutionLayer) (model : ModelSpecInternal)
    (ng : NeuronGroupMerged) (neuronSubs : Substitutions) :
    Except Failure (String × List Code) :=
  let nm := ng.getArchetype.getNeuronModel
  let thCode := nm.thresholdConditionCode
  if !thCode.isEmpty then do
    let thCode ← orThrow (layer.applyCheckUnreplaced neuronSubs thCode
      ("thresholdConditionCode : merged" ++ toString ng.getIndex))
    let thCode := layer.ensureFtype thCode model.getPrecision
    pure (thCode,
      [Code.line "// test whether spike condition was fulfilled previously"]
        ++ (if nm.isAutoRefractoryRequired then
              [Code.line ("const bool oldSpike= (" ++ thCode ++ ");")]
            else []))
  else pure (thCode, [])

/-- The sim handler, lines 286 to 291: the sim code. -/
def neuronSimCode (layer : SubstitutionLayer) (model : ModelSpecInternal)
    (ng : NeuronGroupMerged) (neuronSubs : Substitutions) : Except Failure (List Code) := do
  let sCode ← orThrow (layer.applyCheckUnreplaced neuronSubs
    ng.getArchetype.getNeuronModel.simCode ("simCode : merged" ++ toString ng.getIndex))
  let sCode := layer.ensureFtype sCode model.getPrecision
  pure [Code.line "// calculate membrane potential", Code.line sCode]

/-- The sim handler, lines 299 to 322: the body of the loop over the spike event
conditions. -/
def spikeEventCondition (layer : SubstitutionLayer) (model : ModelSpecInternal)
    (ng : NeuronGroupMerged) (popSubs : Substitutions) (spkEventCond : String × String) :
    Except Failure (List Code) := do
  let spkEventCondSubs := addNeuronModelSubstitutions popSubs ng.getArchetype "_pre" ""
  let eCode ← orThrow (layer.applyCheckUnreplaced spkEventCondSubs spkEventCond.1
    ("neuronSpkEvntCondition : merged" ++ toString ng.getIndex))
  let eCode := layer.ensureFtype eCode model.getPrecision
  pure ([Code.OB 31]
    ++ (if !spkEventCond.2.isEmpty then
          [Code.line (" using namespace " ++ spkEventCond.2 ++ ";")]
        else [])
    ++ [Code.line ("spikeLikeEvent |= (" ++ eCode ++ ");"), Code.CB 31])

/-- The sim handler, lines 293 to 330: the spike-like events. -/
def neuronSpikeEvent (layer : SubstitutionLayer) (model : ModelSpecInternal)
    (ng : NeuronGroupMerged) (popSubs : Substitutions) : Except Failure (List Code) :=
  if ng.getArchetype.isSpikeEventRequired then do
    let conditions ← forEach (spikeEventCondition layer model ng popSubs)
      ng.getArchetype.getSpikeEventCondition
    pure ([Code.line "bool spikeLikeEvent = false;"] ++ conditions
      ++ [Code.line "// register a spike-like event",
          Code.scope "if (spikeLikeEvent)" [Code.genEmitSpikeLikeEvent]])
  else pure []

/-- The sim handler, lines 345 to 353: the reset code inside the scope of the true-spike
test. -/
def neuronReset (layer : SubstitutionLayer) (model : ModelSpecInternal)
    (ng : NeuronGroupMerged) (neuronSubs : Substitutions) : Except Failure (List Code) :=
  let nm := ng.getArchetype.getNeuronModel
  if !nm.resetCode.isEmpty then do
    let rCode ← orThrow (layer.applyCheckUnreplaced neuronSubs nm.resetCode
      ("resetCode : merged" ++ toString ng.getIndex))
    let rCode := layer.ensureFtype rCode model.getPrecision
    pure [Code.line "// spike reset code", Code.line rCode]
  else pure []

/-- The sim handler, lines 356 to 405: the branch for a neuron that does not spike.  The
statements that copy the spike time and the variables of the weight update models are
commented out in the source; what is left is the `else` with its scope and the assertion. -/
def neuronNonSpiking (ndebug : Bool) (ng : NeuronGroupMerged) : Except Failure (List Code) :=
  if ng.getArchetype.isDelayRequired then
    if ng.getArchetype.isSpikeTimeRequired then do
      if ng.getArchetype.isSpikeTimeRequired then
        assertFalse ndebug 380
      pure [Code.scope "else" []]
    else pure []
  else pure []

/-- The sim handler, lines 332 to 406: the test for true spikes, for the `thCode` that the
threshold section leaves behind. -/
def neuronTrueSpike (layer : SubstitutionLayer) (ndebug : Bool) (model : ModelSpecInternal)
    (ng : NeuronGroupMerged) (neuronSubs : Substitutions) (thCode : String) :
    Except Failure (List Code) :=
  let nm := ng.getArchetype.getNeuronModel
  if !thCode.isEmpty then do
    let reset ← neuronReset layer model ng neuronSubs
    let nonSpiking ← neuronNonSpiking ndebug ng
    pure ([Code.line "// test for and register a true spike",
           Code.scope
            (if nm.isAutoRefractoryRequired then "if ((" ++ thCode ++ ") && !(oldSpike))"
             else "if (" ++ thCode ++ ")")
            ([Code.genEmitTrueSpike] ++ reset)]
      ++ nonSpiking)
  else pure []

/-- The sim handler, lines 408 to 422: the body of the loop that copies the local variables
back to the neuron state, for the variable `v`. -/
def neuronVarWriteBackVar (layer : SubstitutionLayer)
    (isVarQueueRequired : NeuronGroup → String → Bool)
    (ng : NeuronGroupMerged) (popSubs : Substitutions) (v : Var) :
    Except Failure (List Code) :=
  let delayed := isVarQueueRequired ng.getArchetype v.name && ng.getArchetype.isDelayRequired
  if v.access = VarAccess.READ_WRITE || delayed then do
    let id ← orThrow (layer.getVarSubstitution popSubs "id")
    pure [Code.line
      ("neuronGroup." ++ v.name ++ "["
        ++ (if delayed then "writeDelayOffset + " else "")
        ++ id ++ "] = l" ++ v.name ++ ";")]
  else pure []

/-- The sim handler of `generateNeuronUpdate`, lines 109 to 422.  The handlers
`genEmitTrueSpike` and `genEmitSpikeLikeEvent` of the backend are kept as marks in what is
written. -/
def neuronUpdateSimHandler (layer : SubstitutionLayer)
    (isVarQueueRequired : NeuronGroup → String → Bool) (ndebug : Bool)
    (model : ModelSpecInternal) (ng : NeuronGroupMerged) (popSubs : Substitutions) :
    Except Failure (List Code) := do
  let nm := ng.getArchetype.getNeuronModel
  let varLoad ← forEach (neuronVarLoadVar layer isVarQueueRequired ng popSubs) nm.vars
  let spikeTime ← neuronSpikeTimeLoad ndebug ng
  let isyn := neuronIsynDeclaration model ng
  let neuronSubs := neuronUpdateSubs ng popSubs
  let additionalInput := neuronAdditionalInputVars ng
  let inSyn ← forEachIndexed (mergedInSynBody layer model popSubs neuronSubs) 0
    ng.getArchetype.getMergedInSyn
  let support ← neuronSupportCode ndebug ng
  let threshold ← neuronThreshold layer model ng neuronSubs
  let sim ← neuronSimCode layer model ng neuronSubs
  let spikeEvent ← neuronSpikeEvent layer model ng popSubs
  let trueSpike ← neuronTrueSpike layer ndebug model ng neuronSubs threshold.1
  let writeBack ← forEach (neuronVarWriteBackVar layer isVarQueueRequired ng popSubs) nm.vars
  pure (varLoad ++ spikeTime ++ isyn ++ additionalInput ++ inSyn ++ support ++ threshold.2
    ++ sim ++ spikeEvent ++ trueSpike ++ writeBack)


/-- The emitter `x` does not stop at an assertion. -/
def NoAssertion {α : Type} (x : Except Failure α) : Prop :=
  ∀ line, x ≠ .error (.assertion line)

/-! ## The synapse update emitter (`generateSynapseUpdate.cc`) -/

/-- A merged synapse group (`SynapseGroupMerged`), as far as the handlers read it. -/
structure SynapseGroupMerged where
  index : Nat
  archetype : SynapseGroupInternal

namespace SynapseGroupMerged

def getIndex (sg : SynapseGroupMerged) : Nat := sg.index
def getArchetype (sg : SynapseGroupMerged) : SynapseGroupInternal := sg.archetype

end SynapseGroupMerged

/-- `applySynapseSubstitutions`, lines 26 to 31: the scope `synapseSubs` with the parameters,
derived parameters and extra global parameters of the weight update model. -/
def synapseParamSubs (sg : SynapseGroupInternal) (baseSubs : Substitutions) : Substitutions :=
  let wu := sg.wuModel
  Substitution.addVarNameSubstitution (wu.extraGlobalParams.map EGP.name) ""
      "(*synapseGroup." ")"
    :: Substitution.addVarValues wu.derivedParamNames sg.wuDerivedParams
    :: Substitution.addParamValues wu.paramNames sg.wuParams
    :: baseSubs

/-- `applySynapseSubstitutions`, line 34: `delayedPreIdx`. -/
def delayedPreIdx (layer : SubstitutionLayer) (sg : SynapseGroupInternal)
    (synapseSubs baseSubs : Substitutions) : Except Failure String :=
  if sg.delaySteps = NO_DELAY then orThrow (layer.getVarSubstitution synapseSubs "id_pre")
  else do
    let idPre ← orThrow (layer.getVarSubstitution baseSubs "id_pre")
    pure ("preReadDelayOffset + " ++ idPre)

/-- `applySynapseSubstitutions`, line 38: `delayedPostIdx`. -/
def delayedPostIdx (layer : SubstitutionLayer) (sg : SynapseGroupInternal)
    (synapseSubs baseSubs : Substitutions) : Except Failure String :=
  if sg.backPropDelaySteps = NO_DELAY then
    orThrow (layer.getVarSubstitution synapseSubs "id_post")
  else do
    let idPost ← orThrow (layer.getVarSubstitution baseSubs "id_post")
    pure ("postReadDelayOffset + " ++ idPost)

/-- `applySynapseSubstitutions`, lines 33 to 36: the scope after the presynaptic variables of
the weight update model have been installed with the index `preIdx`. -/
def synapsePreSubs (sg : SynapseGroupInternal) (baseSubs : Substitutions) (preIdx : String) :
    Substitutions :=
  Substitution.addVarNameSubstitution (sg.wuModel.preVars.map Var.name) "" "synapseGroup."
      ("[" ++ preIdx ++ "]")
    :: synapseParamSubs sg baseSubs

/-- `applySynapseSubstitutions`, lines 38 to 40: the scope after the postsynaptic variables
of the weight update model have been installed with the index `postIdx`. -/
def synapsePostSubs (sg : SynapseGroupInternal) (baseSubs : Substitutions)
    (preIdx postIdx : String) : Substitutions :=
  Substitution.addVarNameSubstitution (sg.wuModel.postVars.map Var.name) "" "synapseGroup."
      ("[" ++ postIdx ++ "]")
    :: synapsePreSubs sg baseSubs preIdx

/-- `applySynapseSubstitutions`, lines 26 to 40: the scope `synapseSubs` after the
presynaptic and postsynaptic variables of the weight update model have been installed. -/
def synapseVarSubs (layer : SubstitutionLayer) (sg : SynapseGroupInternal)
    (baseSubs : Substitutions) : Except Failure Substitutions := do
  let preIdx ← delayedPreIdx layer sg (synapseParamSubs sg baseSubs) baseSubs
  let postIdx ← delayedPostIdx layer sg (synapsePreSubs sg baseSubs preIdx) baseSubs
  pure (synapsePostSubs sg baseSubs preIdx postIdx)

/-- `applySynapseSubstitutions`, lines 51 to 73: the loop over the variables of the weight
update model and their initialisers, for procedural weights.  The two iterators advance
together and the loop ends with the variables, so an initialiser is read beyond the end of
its vector when there are fewer initialisers than variables. -/
def proceduralVarInit (layer : SubstitutionLayer) (sg : SynapseGroupInternal)
    (synapseSubs : Substitutions) : List Var → List VarInit → Except Failure (List Code)
  | [], _ => .ok []
  | _ :: _, [] => .error .undefinedBehaviour
  | var :: vars, varInit :: varInits => do
    let varSubs :=
      Substitution.addVarValues varInit.derivedParamNames varInit.derivedParams
        :: Substitution.addParamValues varInit.paramNames varInit.params
        :: Substitution.addVarSubstitution "value" ("l" ++ var.name)
        :: synapseSubs
    let code ← orThrow (layer.applyCheckUnreplaced varSubs varInit.code
      ("initVar : " ++ var.name ++ sg.name))
    let rest ← proceduralVarInit layer sg synapseSubs vars varInits
    pure ([Code.line (var.type ++ " " ++ "l" ++ var.name ++ ";"),
           Code.scope "" [Code.line code]] ++ rest)

/-- `applySynapseSubstitutions`, lines 42 to 81: what is written for the variables of the
weight update model, and the scope afterwards. -/
def synapseWeightSubs (layer : SubstitutionLayer) (sg : SynapseGroupInternal)
    (synapseSubs : Substitutions) : Except Failure (List Code × Substitutions) :=
  let wu := sg.wuModel
  if sg.matrixType.INDIVIDUAL then do
    let idSyn ← orThrow (layer.getVarSubstitution synapseSubs "id_syn")
    pure ([], Substitution.addVarNameSubstitution (wu.vars.map Var.name) "" "synapseGroup."
      ("[" ++ idSyn ++ "]") :: synapseSubs)
  else if sg.matrixType.PROCEDURAL then do
    let declarations ← proceduralVarInit layer sg synapseSubs wu.vars sg.wuVarInitialisers
    pure (declarations,
      Substitution.addVarNameSubstitution (wu.vars.map Var.name) "" "l" "" :: synapseSubs)
  else
    pure ([], Substitution.addVarValues (wu.vars.map Var.name) sg.wuConstInitVals
      :: synapseSubs)

/-- `applySynapseSubstitutions`.  `neuronSubstitutionsInSynapticCode` and the variable prefix
of the backend are defined outside the sources.  The call of `applyCheckUnreplaced` with
`errorContext` is commented out in the source, so the parameter is not read, and the code
goes through `apply`. -/
def applySynapseSubstitutions (layer : SubstitutionLayer)
    (neuronSubstitutionsInSynapticCode :
      Substitutions → SynapseGroupInternal → String → String → String → Double → Substitutions)
    (getVarPrefix : String) (model : ModelSpecInternal) (code _errorContext : String)
    (sg : SynapseGroupInternal) (baseSubs : Substitutions) : Except Failure (List Code) := do
  let synapseSubs ← synapseVarSubs layer sg baseSubs
  let weights ← synapseWeightSubs layer sg synapseSubs
  let idPre ← orThrow (layer.getVarSubstitution weights.2 "id_pre")
  let idPost ← orThrow (layer.getVarSubstitution weights.2 "id_post")
  let synapseSubs :=
    neuronSubstitutionsInSynapticCode weights.2 sg idPre idPost getVarPrefix model.getDT
  let code := layer.apply synapseSubs code
  let code := layer.ensureFtype code model.getPrecision
  pure (weights.1 ++ [Code.text code])

/-- The presynaptic spike handler of `generateSynapseUpdate`. -/
def presynapticSpikeHandler (layer : SubstitutionLayer)
    (neuronSubstitutionsInSynapticCode :
      Substitutions → SynapseGroupInternal → String → String → String → Double → Substitutions)
    (getVarPrefix : String) (model : ModelSpecInternal) (sg : SynapseGroupMerged)
    (baseSubs : Substitutions) : Except Failure (List Code) :=
  applySynapseSubstitutions layer neuronSubstitutionsInSynapticCode getVarPrefix model
    sg.getArchetype.wuModel.simCode "simCode" sg.getArchetype baseSubs

/-- The presynaptic spike-like event handler of `generateSynapseUpdate`. -/
def presynapticSpikeLikeEventHandler (layer : SubstitutionLayer)
    (neuronSubstitutionsInSynapticCode :
      Substitutions → SynapseGroupInternal → String → String → String → Double → Substitutions)
    (getVarPrefix : String) (model : ModelSpecInternal) (sg : SynapseGroupMerged)
    (baseSubs : Substitutions) : Except Failure (List Code) :=
  applySynapseSubstitutions layer neuronSubstitutionsInSynapticCode getVarPrefix model
    sg.getArchetype.wuModel.eventCode "eventCode" sg.getArchetype baseSubs

/-- The postsynaptic learning handler of `generateSynapseUpdate`. -/
def postsynapticLearningHandler (layer : SubstitutionLayer)
    (neuronSubstitutionsInSynapticCode :
      Substitutions → SynapseGroupInternal → String → String → String → Double → Substitutions)
    (getVarPrefix : String) (model : ModelSpecInternal) (sg : SynapseGroupMerged)
    (baseSubs : Substitutions) : Except Failure (List Code) := do
  let namespaceLine :=
    if !sg.getArchetype.wuModel.learnPostSupportCode.isEmpty then
      [Code.line (" using namespace " ++ sg.getArchetype.name ++ "_weightupdate_simLearnPost;")]
    else []
  let code ← applySynapseSubstitutions layer neuronSubstitutionsInSynapticCode getVarPrefix
    model sg.getArchetype.wuModel.learnPostCode "learnPostCode" sg.getArchetype baseSubs
  pure (namespaceLine ++ code)

/-- The synapse dynamics handler of `generateSynapseUpdate`. -/
def synapseDynamicsHandler (layer : SubstitutionLayer)
    (neuronSubstitutionsInSynapticCode :
      Substitutions → SynapseGroupInternal → String → String → String → Double → Substitutions)
    (getVarPrefix : String) (model : ModelSpecInternal) (sg : SynapseGroupMerged)
    (baseSubs : Substitutions) : Except Failure (List Code) := do
  let namespaceLine :=
    if !sg.getArchetype.wuModel.synapseDynamicsSuppportCode.isEmpty then
      [Code.line (" using namespace " ++ sg.getArchetype.name
        ++ "_weightupdate_synapseDynamics;")]
    else []
  let code ← applySynapseSubstitutions layer neuronSubstitutionsInSynapticCode getVarPrefix
    model sg.getArchetype.wuModel.synapseDynamicsCode "synapseDynamics" sg.getArchetype
    baseSubs
  pure (namespaceLine ++ code)

/-- The procedural connectivity handler, line 198: the context that `applyCheckUnreplaced`
gets for the row-build code of the merged synapse group with the given index, the value of
`"proceduralSparseConnectivity : merged " + sg.getIndex()`. -/
def proceduralSparseConnectivityContext (index : Nat) : Except Failure String :=
  literalPlus "proceduralSparseConnectivity : merged " index

/-- The procedural connectivity handler of `generateSynapseUpdate`. -/
def proceduralConnectivityHandler (layer : SubstitutionLayer) (model : ModelSpecInternal)
    (sg : SynapseGroupMerged) (baseSubs : Substitutions) : Except Failure (List Code) := do
  let baseSubs := Substitution.addFuncSubstitution "endRow" 0 "break" :: baseSubs
  let connectInit := sg.getArchetype.connectivityInitialiser
  let stateVars := connectInit.rowBuildStateVars.map (fun a =>
    Code.line (a.type ++ " " ++ a.name ++ " = " ++ a.value ++ ";"))
  let synSubs :=
    Substitution.addVarNameSubstitution (connectInit.extraGlobalParams.map EGP.name) ""
        "(*synapseGroup." ")"
      :: Substitution.addVarValues connectInit.derivedParamNames connectInit.derivedParams
      :: Substitution.addParamValues connectInit.paramNames connectInit.params
      :: baseSubs
  let context ← proceduralSparseConnectivityContext sg.getIndex
  let pCode ← orThrow (layer.applyCheckUnreplaced synSubs connectInit.rowBuildCode context)
  let pCode := layer.ensureFtype pCode model.getPrecision
  pure (stateVars ++ [Code.scope "while(true)" [Code.line pCode]])

/-! ## The init emitter: variables in a kernel -/

/-- A merged group for the initialisation of the connectivity
(`SynapseConnectivityInitGroupMerged`), as far as the kernel handler reads it. -/
structure SynapseConnectivityInitGroupMerged where
  index : Nat
  archetype : SynapseGroupInternal
  isWUVarInitParamHeterogeneous : Nat → Nat → Bool
  isWUVarInitDerivedParamHeterogeneous : Nat → Nat → Bool

namespace SynapseConnectivityInitGroupMerged

def getIndex (sg : SynapseConnectivityInitGroupMerged) : Nat := sg.index
def getArchetype (sg : SynapseConnectivityInitGroupMerged) : SynapseGroupInternal :=
  sg.archetype

end SynapseConnectivityInitGroupMerged

/-- The kernel handler of `generateInit`, lines 446 to 468: the loop over the variables of
the weight update model from index `k` on.  The substitutions are installed in `popSubs`
itself, which goes on to the next variable.  The call of `applyCheckUnreplaced` is commented
out in the source; the code goes through `apply`. -/
def kernelVarInitLoop (layer : SubstitutionLayer) (precision : String)
    (sg : SynapseConnectivityInitGroupMerged) :
    Nat → List Var → Substitutions → Except Failure (List Code)
  | _, [], _ => .ok []
  | k, var :: vars, popSubs => do
    let varInit ← orThrow (sg.getArchetype.wuVarInitialisers[k]?)
    if varInit.requiresKernel then
      let idSyn ← orThrow (layer.getVarSubstitution popSubs "id_syn")
      let popSubs :=
        Substitution.addVarNameSubstitution (varInit.extraGlobalParams.map EGP.name) ""
            "group->" var.name
          :: Substitution.addVarValueSubstitution varInit.derivedParamNames
              varInit.derivedParams
              ((List.range varInit.derivedParamNames.length).map
                (fun p => sg.isWUVarInitDerivedParamHeterogeneous k p))
              "" "group->" var.name
          :: Substitution.addParamValueSubstitution varInit.paramNames varInit.params
              ((List.range varInit.paramNames.length).map
                (fun p => sg.isWUVarInitParamHeterogeneous k p))
              "" "group->" var.name
          :: Substitution.addVarSubstitution "value"
              ("group->" ++ var.name ++ "[" ++ idSyn ++ "]")
          :: popSubs
      let code := layer.apply popSubs varInit.code
      let code := layer.ensureFtype code precision
      let rest ← kernelVarInitLoop layer precision sg (k + 1) vars popSubs
      pure ([Code.scope "" [Code.line code]] ++ rest)
    else
      kernelVarInitLoop layer precision sg (k + 1) vars popSubs

/-- The kernel handler of `generateInit` ("Kernel matrix var initialisation").
`genKernelIndex` is defined outside the sources; here it is the text that it writes. -/
def kernelVarInitHandler (layer : SubstitutionLayer)
    (genKernelIndex : Substitutions → SynapseConnectivityInitGroupMerged → String)
    (precision : String) (sg : SynapseConnectivityInitGroupMerged) (popSubs : Substitutions) :
    Except Failure (List Code) := do
  let head := Code.line ("const unsigned int kernelInd = " ++ genKernelIndex popSubs sg ++ ";")
  let popSubs := Substitution.addVarSubstitution "id_kernel" "kernelInd" :: popSubs
  let vars ← kernelVarInitLoop layer precision sg 0 sg.getArchetype.wuModel.vars popSubs
  pure (head :: vars)

/-! ## Example inputs for the update emitters -/

/-- Modelled from the spec: `getVarIndex` is defined in `models.h`, which is not among the
sources; like `getExtraGlobalParamIndex` it gives the index of the variable with that name,
and a name that is not found is an "unknown reference" failure, here `none`. -/
def NeuronModel.getVarIndex (nm : NeuronModel) (varName : String) : Option Nat :=
  find_if (fun v => v.name == varName) nm.vars

/-- `NeuronGroup::isVarQueueRequired(const std::string &var)` (`neuronGroup.cc`, lines 295 to
299): `m_VarQueueRequired[getNeuronModel()->getVarIndex(var)]`.  The result is `none` when
`getVarIndex` throws or the index is outside the vector. -/
def NeuronGroup.isVarQueueRequiredVar (ng : NeuronGroup) (var : String) : Option Bool := do
  let i ← ng.getNeuronModel.getVarIndex var
  ng.m_VarQueueRequired[i]?

/-- `NeuronGroup::isVarQueueRequired(const std::string &var)` as the predicate that the sim
handler is given: the handler asks for the names of the variables of the model only, for
which the call returns; where it does not return the predicate is false. -/
def NeuronGroup.isVarQueueRequiredByName (ng : NeuronGroup) (var : String) : Bool :=
  (ng.isVarQueueRequiredVar var).getD false

/-- Replaces every occurrence of `pattern` in a text, from left to right; `skip` counts the
characters of an occurrence that are still to be dropped. -/
def replaceAllFrom (pattern replacement : List Char) : Nat → List Char → List Char
  | _, [] => []
  | skip + 1, _ :: cs => replaceAllFrom pattern replacement skip cs
  | 0, c :: cs =>
    if pattern.isPrefixOf (c :: cs) then
      replacement ++ replaceAllFrom pattern replacement (pattern.length - 1) cs
    else c :: replaceAllFrom pattern replacement 0 cs

/-- Modelled from the spec: what one call of the substitution layer declares, as pairs of a
placeholder name and its replacement text.  "`addVarNameSubstitution(vars, sourceSuffix,
destPrefix, destSuffix)` — for each `v` declares `$(v.name + sourceSuffix)` ↔
`destPrefix + v.name + destSuffix`"; a value substitution declares the literal text of the
value, which `print` stands for.  The field of a heterogeneous parameter and the
function-form placeholders are left out. -/
def Substitution.declarations (print : Double → String) :
    Substitution → List (String × String)
  | .addVarSubstitution source destination => [(source, destination)]
  | .addVarNameSubstitution names sourceSuffix destPrefix destSuffix =>
    names.map (fun n => (n ++ sourceSuffix, destPrefix ++ n ++ destSuffix))
  | .addParamValues paramNames values =>
    (paramNames.zip values).map (fun nv => (nv.1, print nv.2))
  | .addVarValues names values => (names.zip values).map (fun nv => (nv.1, print nv.2))
  | .addParamValueSubstitution paramNames values isHeterogeneous sourceSuffix _ _ =>
    ((paramNames.zip values).zip isHeterogeneous).filterMap (fun nvh =>
      if nvh.2 then none else some (nvh.1.1 ++ sourceSuffix, print nvh.1.2))
  | .addVarValueSubstitution names values isHeterogeneous sourceSuffix _ _ =>
    ((names.zip values).zip isHeterogeneous).filterMap (fun nvh =>
      if nvh.2 then none else some (nvh.1.1 ++ sourceSuffix, print nvh.1.2))
  | .addFuncSubstitution _ _ _ => []

/-- Modelled from the spec: `apply(code)`, which replaces every `$(name)` by the text that
the innermost scope declares for `name`. -/
def specApply (print : Double → String) (subs : Substitutions) (code : String) : String :=
  String.mk ((subs.flatMap (fun s => s.declarations print)).foldl
    (fun text d => replaceAllFrom ("$(" ++ d.1 ++ ")").data d.2.data 0 text) code.data)

/-- Modelled from the spec: the substitution layer of section 4.5.  The lookup finds what the
innermost scope declares; "`applyCheckUnreplaced(code, context)` walks the final text and
fails … if any `$(…)` remains"; `ensureFtype` is left out. -/
def specLayer (print : Double → String) : SubstitutionLayer :=
  { getVarSubstitution := fun subs name =>
      ((subs.flatMap (fun s => s.declarations print)).find? (fun d => d.1 == name)).map
        (fun d => d.2)
    applyCheckUnreplaced := fun subs code _ =>
      if (stringFind (specApply print subs code) "$(").isSome then none
      else some (specApply print subs code)
    ensureFtype := fun code _ => code
    apply := specApply print }

/-- A stand-in for the literal text of a value: the decimal text of its bit pattern. -/
def examplePrint (x : Double) : String := toString x.bits

/-- A single-precision model. -/
def exampleModelSpec : ModelSpecInternal :=
  { getPrecision := "float", getDT := { bits := 0 }, scalarExpr := fun _ => "0.0f" }

/-- The scope that a backend hands to the handlers: the index of the element is `lid`. -/
def examplePopSubs : Substitutions := [Substitution.addVarSubstitution "id" "lid"]

/-- An incoming synapse group with an individual postsynaptic variable `g`. -/
def exampleIndividualSyn : SynapseGroupInternal :=
  { exampleSyn "SynI" 5 [] with
    matrixType := { INDIVIDUAL_PSM := true }
    psModel :=
      { applyInputCode := "$(Isyn) += $(inSyn) * $(g);"
        decayCode := "$(inSyn) *= 0.5;"
        vars := [{ name := "g", type := "scalar", access := .READ_WRITE }] } }

/-- The merged update group whose archetype is the delayed example group with queued `V`:
6 delay slots, no spike times, a threshold with the automatic refractory test, and one
merged incoming entry with an individual postsynaptic variable. -/
def exampleUpdateGroup : NeuronGroupMerged :=
  { index := 0
    archetype :=
      { exampleDelayedGroup with
        m_NeuronModel := { exampleModel with resetCode := "$(V) = 0;" }
        m_MergedInSyn := [(exampleIndividualSyn, [exampleIndividualSyn])] } }

/-- The merged update group whose archetype needs spike times and a delay of 5 steps; the
sim code of its model reads the spike time. -/
def exampleSpikeTimeUpdateGroup : NeuronGroupMerged :=
  { index := 1
    archetype :=
      { exampleSpikeTimeMergedInit.archetype with
        m_NeuronModel :=
          { exampleModel with
            simCode := "$(V) += $(sT);"
            resetCode := "$(V) = 0;" } } }


/-- Like `exampleUpdateGroup`, with support code in the neuron model. -/
def exampleSupportCodeUpdateGroup : NeuronGroupMerged :=
  { exampleUpdateGroup with
    archetype :=
      { exampleUpdateGroup.archetype with
        m_NeuronModel :=
          { exampleUpdateGroup.archetype.m_NeuronModel with
            supportCode := "#define SQ(x) ((x) * (x))" } } }


/-- Like `exampleUpdateGroup`, with a neuron model that does not ask for the automatic
refractory test and has no reset code. -/
def exampleNoRefractoryUpdateGroup : NeuronGroupMerged :=
  { exampleUpdateGroup with
    archetype :=
      { exampleUpdateGroup.archetype with
        m_NeuronModel :=
          { exampleUpdateGroup.archetype.m_NeuronModel with
            isAutoRefractoryRequired := false
            resetCode := "" } } }


/-- A substitution layer that hands back the context it is given in place of the code, so
that what is written shows the context of each call of `applyCheckUnreplaced`; every lookup
finds `lid`. -/
def contextLayer : SubstitutionLayer :=
  { getVarSubstitution := fun _ _ => some "lid"
    applyCheckUnreplaced := fun _ _ context => some context
    ensureFtype := fun code _ => code
    apply := fun _ code => code }


/-- The scope that a backend hands to the handlers of the synapse update. -/
def exampleSynapseSubs : Substitutions :=
  [Substitution.addVarSubstitution "id_syn" "synAddress",
   Substitution.addVarSubstitution "id_post" "ipost",
   Substitution.addVarSubstitution "id_pre" "preInd"]

/-- A synapse group with an axonal delay of 5 steps and no back-propagation delay, with
individual weights `g`, a presynaptic variable `x` and a postsynaptic variable `y`; its sim
code uses a placeholder that no scope defines. -/
def exampleWeightSyn : SynapseGroupInternal :=
  { exampleSyn "SynW" 5 [] with
    matrixType := { INDIVIDUAL := true }
    delaySteps := 5
    backPropDelaySteps := NO_DELAY
    wuModel :=
      { exampleWUM with
        vars := [{ name := "g", type := "scalar", access := .READ_WRITE }]
        preVars := [{ name := "x", type := "scalar", access := .READ_WRITE }]
        postVars := [{ name := "y", type := "scalar", access := .READ_WRITE }]
        simCode := "$(g) += $(undefined);" }
    wuVarInitialisers :=
      [{ snippet := "Kernel", params := [], code := "$(value) = $(undefined);",
         requiresKernel := true }] }

/-- The merged synapse group of `exampleWeightSyn`. -/
def exampleSynapseGroupMerged : SynapseGroupMerged :=
  { index := 0, archetype := exampleWeightSyn }

/-- The merged connectivity init group of `exampleWeightSyn`. -/
def exampleKernelGroupMerged : SynapseConnectivityInitGroupMerged :=
  { index := 0
    archetype := exampleWeightSyn
    isWUVarInitParamHeterogeneous := fun _ _ => false
    isWUVarInitDerivedParamHeterogeneous := fun _ _ => false }

/-- A stand-in for `neuronSubstitutionsInSynapticCode` that installs nothing. -/
def exampleNeuronSubstitutionsInSynapticCode :
    Substitutions → SynapseGroupInternal → String → String → String → Double → Substitutions :=
  fun synapseSubs _ _ _ _ _ => synapseSubs


/-- An incoming synapse group whose apply-input code uses a placeholder that no scope
defines. -/
def exampleUnresolvedSyn : SynapseGroupInternal :=
  { exampleSyn "SynX" 5 [] with
    psModel := { applyInputCode := "$(Isyn) += $(undefined);", decayCode := "" } }

/-- Like `exampleSupportCodeUpdateGroup`, with a merged incoming entry whose apply-input
code uses a placeholder that no scope defines. -/
def exampleSupportCodeUnresolvedGroup : NeuronGroupMerged :=
  { exampleSupportCodeUpdateGroup with
    archetype :=
      { exampleSupportCodeUpdateGroup.archetype with
        m_MergedInSyn := [(exampleUnresolvedSyn, [exampleUnresolvedSyn])] } }


/-- Like `exampleGroup`, with a neuron model that has the parameter `Vrest`, whose value is
`+0.0`. -/
def examplePositiveZeroGroup : NeuronGroup :=
  { exampleGroup with
    m_Name := "PopP"
    m_NeuronModel := { exampleModel with paramNames := ["Vrest"] }
    m_Params := [{ bits := 0 }] }

/-- Like `examplePositiveZeroGroup`, with the value `-0.0` of the parameter `Vrest`: only the
sign bit is set. -/
def exampleNegativeZeroGroup : NeuronGroup :=
  { examplePositiveZeroGroup with
    m_Name := "PopN"
    m_Params := [{ bits := 9223372036854775808 }] }

end GeNN

/-! # Results -/

namespace GeNN

/-! ## Substring search -/

theorem findFrom_isSome_iff (needle : List Char) (s : List Char) (pos : Nat) :
    (findFrom needle s pos).isSome = true ↔ needle <:+: s := by
  induction s generalizing pos with
  | nil =>
    cases needle <;> simp [findFrom]
  | cons c cs ih =>
    by_cases hp : needle.isPrefixOf (c :: cs) = true
    · have hpre : needle <+: c :: cs := List.isPrefixOf_iff_prefix.mp hp
      simp [findFrom, hp, hpre.isInfix]
    · have hpre : ¬ needle <+: c :: cs := fun h => hp (List.isPrefixOf_iff_prefix.mpr h)
      rw [findFrom, if_neg hp, ih, List.infix_cons_iff]
      constructor
      · intro h; exact Or.inr h
      · rintro (h | h)
        · exact absurd h hpre
        · exact h

theorem stringFind_isSome_iff (s needle : String) :
    (stringFind s needle).isSome = true ↔ needle.data <:+: s.data :=
  findFrom_isSome_iff needle.data s.data 0

/-! ## Variable queues -/

namespace NeuronGroup

theorem updateVarQueuesLoop_length (code suffix : String) (vs : List Var) (i : Nat)
    (flags : List Bool) : (updateVarQueuesLoop code suffix vs i flags).length = flags.length := by
  induction vs generalizing i flags with
  | nil => rfl
  | cons v vs ih =>
    unfold updateVarQueuesLoop
    split
    · rw [ih]; simp
    · rw [ih]

/-- Flag `j` after the loop: set before, or the variable at `j` was visited and found. -/
theorem updateVarQueuesLoop_getElem? (code suffix : String) (vs : List Var) (i : Nat)
    (flags : List Bool) (j : Nat) (hj : j < flags.length) :
    (updateVarQueuesLoop code suffix vs i flags)[j]? =
      some (flags[j]?.getD false ||
        (decide (i ≤ j) &&
          (vs[j - i]?.any (fun v => (stringFind code (v.name ++ suffix)).isSome)))) := by
  induction vs generalizing i flags with
  | nil => simp [updateVarQueuesLoop, List.getElem?_eq_getElem hj]
  | cons v vs ih =>
    unfold updateVarQueuesLoop
    rcases Nat.lt_trichotomy j i with hlt | heq | hgt
    · have h1 : ¬ i ≤ j := by omega
      have h2 : ¬ i + 1 ≤ j := by omega
      have h3 : ¬ i = j := by omega
      split
      · rw [ih _ _ (by simpa using hj)]
        simp [h1, h2, List.getElem?_set, h3]
      · rw [ih _ _ hj]
        simp [h1, h2]
    · subst heq
      have h2 : ¬ j + 1 ≤ j := by omega
      split
      · rename_i hc
        rw [ih _ _ (by simpa using hj)]
        simp [h2, List.getElem?_set, hj, hc]
      · rename_i hc
        rw [ih _ _ hj]
        simp [h2, hc]
    · have h1 : i ≤ j := by omega
      have h2 : i + 1 ≤ j := by omega
      have h3 : ¬ i = j := by omega
      have h4 : j - i = (j - (i + 1)) + 1 := by omega
      split
      · rw [ih _ _ (by simpa using hj)]
        simp [h1, h2, List.getElem?_set, h3, h4]
      · rw [ih _ _ hj]
        simp [h1, h2, h4]

end NeuronGroup

namespace NeuronGroup

theorem applyQueueUpdate_model (ng : NeuronGroup) (c : QueueUpdate) :
    (ng.applyQueueUpdate c).getNeuronModel = ng.getNeuronModel := by
  cases c <;> rfl

theorem applyQueueUpdate_length (ng : NeuronGroup) (c : QueueUpdate) :
    (ng.applyQueueUpdate c).m_VarQueueRequired.length = ng.m_VarQueueRequired.length := by
  cases c <;>
    simp [applyQueueUpdate, updatePreVarQueues, updatePostVarQueues, updateVarQueues,
      updateVarQueuesLoop_length]

theorem applyQueueUpdate_getElem? (ng : NeuronGroup) (c : QueueUpdate) (j : Nat)
    (hj : j < ng.m_VarQueueRequired.length) :
    (ng.applyQueueUpdate c).m_VarQueueRequired[j]? =
      some (ng.m_VarQueueRequired[j]?.getD false ||
        (ng.getNeuronModel.vars[j]?.any (fun v => c.refersTo v))) := by
  cases c <;>
    simp [applyQueueUpdate, updatePreVarQueues, updatePostVarQueues, updateVarQueues,
      updateVarQueuesLoop_getElem? _ _ _ _ _ _ hj, QueueUpdate.refersTo]

theorem applyQueueUpdates_model (ng : NeuronGroup) (calls : List QueueUpdate) :
    (ng.applyQueueUpdates calls).getNeuronModel = ng.getNeuronModel := by
  induction calls generalizing ng with
  | nil => rfl
  | cons c cs ih =>
    show ((ng.applyQueueUpdate c).applyQueueUpdates cs).getNeuronModel = _
    rw [ih, applyQueueUpdate_model]

theorem applyQueueUpdates_length (ng : NeuronGroup) (calls : List QueueUpdate) :
    (ng.applyQueueUpdates calls).m_VarQueueRequired.length = ng.m_VarQueueRequired.length := by
  induction calls generalizing ng with
  | nil => rfl
  | cons c cs ih =>
    show ((ng.applyQueueUpdate c).applyQueueUpdates cs).m_VarQueueRequired.length = _
    rw [ih, applyQueueUpdate_length]

/-- Flag `j` after a sequence of calls: set before, or some call refers to variable `j`. -/
theorem applyQueueUpdates_getElem? (ng : NeuronGroup) (calls : List QueueUpdate) (j : Nat)
    (hj : j < ng.m_VarQueueRequired.length) :
    (ng.applyQueueUpdates calls).m_VarQueueRequired[j]? =
      some (ng.m_VarQueueRequired[j]?.getD false ||
        calls.any (fun c => ng.getNeuronModel.vars[j]?.any (fun v => c.refersTo v))) := by
  induction calls generalizing ng with
  | nil => simp [applyQueueUpdates, List.getElem?_eq_getElem hj]
  | cons c cs ih =>
    show ((ng.applyQueueUpdate c).applyQueueUpdates cs).m_VarQueueRequired[j]? = _
    rw [ih _ (by rw [applyQueueUpdate_length]; exact hj), applyQueueUpdate_getElem? _ _ _ hj,
      applyQueueUpdate_model]
    simp [Bool.or_assoc]

/-- **C1.** Starting from a neuron group whose queue-required flags are all false (one flag
per model variable), after any finite sequence of `updatePreVarQueues` and
`updatePostVarQueues` calls there is still one flag per variable, and flag `i` is set if and
only if the code of some `updatePreVarQueues` call contains `vars[i].name + "_pre"` as a
substring or the code of some `updatePostVarQueues` call contains `vars[i].name + "_post"`. -/
theorem queue_flag_set_iff (ng : NeuronGroup) (calls : List QueueUpdate)
    (hinit : ng.m_VarQueueRequired = List.replicate ng.getNeuronModel.vars.length false)
    (i : Nat) (hi : i < ng.getNeuronModel.vars.length) :
    (ng.applyQueueUpdates calls).m_VarQueueRequired.length = ng.getNeuronModel.vars.length ∧
    ((ng.applyQueueUpdates calls).m_VarQueueRequired[i]? = some true ↔
      (∃ code, QueueUpdate.pre code ∈ calls ∧
          ((ng.getNeuronModel.vars[i]).name ++ "_pre").data <:+: code.data) ∨
      (∃ code, QueueUpdate.post code ∈ calls ∧
          ((ng.getNeuronModel.vars[i]).name ++ "_post").data <:+: code.data)) := by
  have hlen : ng.m_VarQueueRequired.length = ng.getNeuronModel.vars.length := by
    rw [hinit]; simp
  have hj : i < ng.m_VarQueueRequired.length := by rw [hlen]; exact hi
  refine ⟨by rw [applyQueueUpdates_length, hlen], ?_⟩
  rw [applyQueueUpdates_getElem? ng calls i hj]
  have h0 : ng.m_VarQueueRequired[i]?.getD false = false := by
    rw [hinit]; simp [List.getElem?_replicate, hi]
  rw [h0, List.getElem?_eq_getElem hi]
  simp only [Bool.false_or, Option.some.injEq, List.any_eq_true, Option.any_some]
  constructor
  · rintro ⟨c, hc, hr⟩
    cases c with
    | pre code =>
      left
      exact ⟨code, hc, (stringFind_isSome_iff _ _).mp hr⟩
    | post code =>
      right
      exact ⟨code, hc, (stringFind_isSome_iff _ _).mp hr⟩
  · rintro (⟨code, hc, hr⟩ | ⟨code, hc, hr⟩)
    · exact ⟨_, hc, (stringFind_isSome_iff _ _).mpr hr⟩
    · exact ⟨_, hc, (stringFind_isSome_iff _ _).mpr hr⟩

/-- Witness of C1: after a presynaptic update whose code mentions `V_pre` and a postsynaptic
update that mentions no variable, flag 0 of the example group is set. -/
theorem queue_flag_set_iff_witness :
    (exampleGroup.applyQueueUpdates [.pre "$(addToInSyn, $(g) * $(V_pre));", .post "x"]
        ).m_VarQueueRequired.length = exampleGroup.getNeuronModel.vars.length ∧
    ((exampleGroup.applyQueueUpdates [.pre "$(addToInSyn, $(g) * $(V_pre));", .post "x"]
        ).m_VarQueueRequired[0]? = some true ↔
      (∃ code, QueueUpdate.pre code ∈
            [QueueUpdate.pre "$(addToInSyn, $(g) * $(V_pre));", QueueUpdate.post "x"] ∧
          ((exampleGroup.getNeuronModel.vars[0]).name ++ "_pre").data <:+: code.data) ∨
      (∃ code, QueueUpdate.post code ∈
            [QueueUpdate.pre "$(addToInSyn, $(g) * $(V_pre));", QueueUpdate.post "x"] ∧
          ((exampleGroup.getNeuronModel.vars[0]).name ++ "_post").data <:+: code.data)) :=
  queue_flag_set_iff exampleGroup [.pre "$(addToInSyn, $(g) * $(V_pre));", .post "x"]
    (by decide) 0 (by decide)

end NeuronGroup

/-! ## Delay slots -/

namespace NeuronGroup

theorem checkNumDelaySlots_ge (ng : NeuronGroup) (d : Nat) (hd : d < 2 ^ 32 - 1) :
    ng.getNumDelaySlots ≤ (ng.checkNumDelaySlots d).getNumDelaySlots ∧
      d < (ng.checkNumDelaySlots d).getNumDelaySlots := by
  unfold checkNumDelaySlots
  split
  · rename_i h
    have hmod : (d + 1) % 2 ^ 32 = d + 1 := Nat.mod_eq_of_lt (by omega)
    simp only [getNumDelaySlots, hmod] at h ⊢
    omega
  · rename_i h
    simp only [getNumDelaySlots] at h ⊢
    omega

theorem checkAllNumDelaySlots_ge (ng : NeuronGroup) (delays : List Nat)
    (hd : ∀ d ∈ delays, d < 2 ^ 32 - 1) :
    ng.getNumDelaySlots ≤ (ng.checkAllNumDelaySlots delays).getNumDelaySlots := by
  induction delays generalizing ng with
  | nil => exact Nat.le_refl _
  | cons d ds ih =>
    show _ ≤ ((ng.checkNumDelaySlots d).checkAllNumDelaySlots ds).getNumDelaySlots
    exact Nat.le_trans (checkNumDelaySlots_ge ng d (hd d (List.mem_cons_self _ _))).1
      (ih _ (fun x hx => hd x (List.mem_cons_of_mem _ hx)))

/-- **C2 (as stated, refuted).** A delay of `2^32 - 1` is an unsigned 32-bit value, and
after `checkNumDelaySlots(2^32 - 1)` the number of delay slots has wrapped to 0, which is
not greater than that delay. -/
theorem delay_slots_wrap_counterexample :
    (4294967295 : Nat) < 2 ^ 32 ∧
    (exampleGroup.checkAllNumDelaySlots [4294967295]).getNumDelaySlots = 0 ∧
    ¬ (∀ d ∈ [(4294967295 : Nat)],
        d < (exampleGroup.checkAllNumDelaySlots [4294967295]).getNumDelaySlots) := by
  refine ⟨by norm_num, by decide, ?_⟩
  intro h
  have h0 := h 4294967295 (List.mem_singleton.mpr rfl)
  have hz : (exampleGroup.checkAllNumDelaySlots [4294967295]).getNumDelaySlots = 0 := by decide
  rw [hz] at h0
  exact Nat.not_lt_zero _ h0

/-- **C2 (amended).** For every neuron group and every list of delays that are all smaller
than `2^32 - 1`, after `checkNumDelaySlots(d)` has been called once for each delay `d` of the
list, in order, `getNumDelaySlots()` is strictly greater than every `d` of the list. -/
theorem delay_slots_exceed_delays (ng : NeuronGroup) (delays : List Nat)
    (hd : ∀ d ∈ delays, d < 2 ^ 32 - 1) :
    ∀ d ∈ delays, d < (ng.checkAllNumDelaySlots delays).getNumDelaySlots := by
  induction delays generalizing ng with
  | nil => intro d hmem; cases hmem
  | cons x xs ih =>
    have hx : x < 2 ^ 32 - 1 := hd x (List.mem_cons_self _ _)
    have hxs : ∀ d ∈ xs, d < 2 ^ 32 - 1 := fun d h => hd d (List.mem_cons_of_mem _ h)
    intro d hmem
    show d < ((ng.checkNumDelaySlots x).checkAllNumDelaySlots xs).getNumDelaySlots
    rcases List.mem_cons.mp hmem with rfl | hin
    · exact Nat.lt_of_lt_of_le (checkNumDelaySlots_ge ng d hx).2
        (checkAllNumDelaySlots_ge _ xs hxs)
    · exact ih _ hxs d hin

/-- Witness of the amended C2: axonal delays 5 and 2 and a back-propagation delay 7 on a
group that starts with one delay slot. -/
theorem delay_slots_exceed_delays_witness :
    (∀ d ∈ [5, 2, 7], d < 2 ^ 32 - 1) ∧
    (∀ d ∈ [5, 2, 7], d < (exampleGroup.checkAllNumDelaySlots [5, 2, 7]).getNumDelaySlots) :=
  ⟨by decide, delay_slots_exceed_delays exampleGroup [5, 2, 7] (by decide)⟩

end NeuronGroup

/-! ## Comparison of doubles and of vectors -/

theorem Double.opEq_symm (x y : Double) (h : Double.opEq x y = true) :
    Double.opEq y x = true := by
  simp only [Double.opEq, Bool.and_eq_true, Bool.or_eq_true, Bool.not_eq_true',
    beq_iff_eq] at h ⊢
  obtain ⟨⟨hx, hy⟩, hz⟩ := h
  refine ⟨⟨hy, hx⟩, ?_⟩
  rcases hz with ⟨h1, h2⟩ | h3
  · exact Or.inl ⟨h2, h1⟩
  · exact Or.inr h3.symm

theorem Double.isZero_congr (x y : Double) (h : x.pattern = y.pattern) :
    x.isZero = y.isZero := by
  simp only [Double.isZero, h]

theorem Double.opEq_trans (x y z : Double) (hxy : Double.opEq x y = true)
    (hyz : Double.opEq y z = true) : Double.opEq x z = true := by
  simp only [Double.opEq, Bool.and_eq_true, Bool.or_eq_true, Bool.not_eq_true',
    beq_iff_eq] at hxy hyz ⊢
  obtain ⟨⟨hx, _⟩, h1⟩ := hxy
  obtain ⟨⟨_, hz⟩, h2⟩ := hyz
  refine ⟨⟨hx, hz⟩, ?_⟩
  rcases h1 with ⟨zx, zy⟩ | pxy
  · rcases h2 with ⟨_, zz⟩ | pyz
    · exact Or.inl ⟨zx, zz⟩
    · exact Or.inl ⟨zx, by rw [← Double.isZero_congr y z pyz]; exact zy⟩
  · rcases h2 with ⟨zy, zz⟩ | pyz
    · exact Or.inl ⟨by rw [Double.isZero_congr x y pxy]; exact zy, zz⟩
    · exact Or.inr (pxy.trans pyz)

theorem vectorEq_iff_forall₂ {α : Type} (eq : α → α → Bool) (xs ys : List α) :
    vectorEq eq xs ys = true ↔ List.Forall₂ (fun x y => eq x y = true) xs ys := by
  induction xs generalizing ys with
  | nil => cases ys <;> simp [vectorEq]
  | cons x xs ih => cases ys <;> simp [vectorEq, ih]

theorem vectorEq_refl {α : Type} (eq : α → α → Bool) (xs : List α)
    (h : ∀ x ∈ xs, eq x x = true) : vectorEq eq xs xs = true := by
  induction xs with
  | nil => rfl
  | cons x xs ih =>
    simp only [vectorEq, Bool.and_eq_true]
    exact ⟨h x (List.mem_cons_self _ _), ih (fun y hy => h y (List.mem_cons_of_mem _ hy))⟩

theorem vectorEq_symm {α : Type} (eq : α → α → Bool)
    (hs : ∀ x y, eq x y = true → eq y x = true) (xs ys : List α)
    (h : vectorEq eq xs ys = true) : vectorEq eq ys xs = true := by
  induction xs generalizing ys with
  | nil => cases ys <;> simp_all [vectorEq]
  | cons x xs ih =>
    cases ys with
    | nil => simp [vectorEq] at h
    | cons y ys =>
      simp only [vectorEq, Bool.and_eq_true] at h ⊢
      exact ⟨hs _ _ h.1, ih _ h.2⟩

theorem vectorEq_trans {α : Type} (eq : α → α → Bool)
    (ht : ∀ x y z, eq x y = true → eq y z = true → eq x z = true) (xs ys zs : List α)
    (h1 : vectorEq eq xs ys = true) (h2 : vectorEq eq ys zs = true) :
    vectorEq eq xs zs = true := by
  induction xs generalizing ys zs with
  | nil =>
    cases ys with
    | nil => exact h2
    | cons y ys => simp [vectorEq] at h1
  | cons x xs ih =>
    cases ys with
    | nil => simp [vectorEq] at h1
    | cons y ys =>
      cases zs with
      | nil => simp [vectorEq] at h2
      | cons z zs =>
        simp only [vectorEq, Bool.and_eq_true] at h1 h2 ⊢
        exact ⟨ht _ _ _ h1.1 h2.1, ih _ _ h1.2 h2.2⟩

/-- Element-wise reading of `vectorEq`. -/
theorem vectorEq_getElem {α : Type} (eq : α → α → Bool) (xs ys : List α)
    (h : vectorEq eq xs ys = true) :
    xs.length = ys.length ∧
      ∀ k (hk : k < xs.length), ∃ v, ys[k]? = some v ∧ eq xs[k] v = true := by
  induction xs generalizing ys with
  | nil => cases ys <;> simp_all [vectorEq]
  | cons x xs ih =>
    cases ys with
    | nil => simp [vectorEq] at h
    | cons y ys =>
      simp only [vectorEq, Bool.and_eq_true] at h
      obtain ⟨hlen, hk⟩ := ih ys h.2
      refine ⟨by simp [hlen], ?_⟩
      intro k hk'
      cases k with
      | zero => exact ⟨y, by simp, h.1⟩
      | succ k =>
        obtain ⟨v, hv, he⟩ := hk k (by simpa using hk')
        exact ⟨v, by simpa using hv, by simpa using he⟩

/-! ## The find-and-erase loop -/

theorem find_if_none {α : Type} (p : α → Bool) (l : List α) (h : find_if p l = none) :
    ∀ y ∈ l, p y = false := by
  induction l with
  | nil => intro y hy; cases hy
  | cons x xs ih =>
    unfold find_if at h
    split at h
    · cases h
    · rename_i hp
      have hn : find_if p xs = none := by
        cases hf : find_if p xs with
        | none => rfl
        | some i => rw [hf] at h; cases h
      intro y hy
      rcases List.mem_cons.mp hy with rfl | hin
      · simpa using hp
      · exact ih hn y hin

/-- The element that `std::find_if` returns satisfies the test, and erasing it leaves the
other elements. -/
theorem find_if_some {α : Type} (p : α → Bool) (l : List α) (i : Nat)
    (h : find_if p l = some i) :
    ∃ y, p y = true ∧ l.Perm (y :: l.eraseIdx i) := by
  induction l generalizing i with
  | nil => cases h
  | cons x xs ih =>
    unfold find_if at h
    split at h
    · rename_i hp
      cases h
      exact ⟨x, hp, by simp⟩
    · cases hf : find_if p xs with
      | none => rw [hf] at h; cases h
      | some j =>
        rw [hf] at h
        simp only [Option.map_some', Option.some.injEq] at h
        subst h
        obtain ⟨y, hy, hperm⟩ := ih j hf
        refine ⟨y, hy, ?_⟩
        rw [List.eraseIdx_cons_succ]
        exact (List.Perm.cons x hperm).trans (List.Perm.swap y x _)

/-- When the loop succeeds, the own elements are paired, in order, with distinct elements of
the other list, each pair passing the test. -/
theorem findAndEraseAll_sound {α β : Type} (canMerge : α → β → Bool) (xs : List α)
    (ys : List β) (h : findAndEraseAll canMerge xs ys = true) :
    ∃ l r, (l ++ r).Perm ys ∧ List.Forall₂ (fun x y => canMerge x y = true) xs l := by
  induction xs generalizing ys with
  | nil => exact ⟨[], ys, by simp, List.Forall₂.nil⟩
  | cons x xs ih =>
    unfold findAndEraseAll at h
    split at h
    · rename_i pos hpos
      obtain ⟨y, hy, hperm⟩ := find_if_some _ _ _ hpos
      obtain ⟨l, r, hlr, hall⟩ := ih _ h
      exact ⟨y :: l, r, (List.Perm.cons y hlr).trans hperm.symm, List.Forall₂.cons hy hall⟩
    · cases h

/-- With lists of the same size, a successful loop pairs off all of the other list. -/
theorem findAndEraseAll_perm {α β : Type} (canMerge : α → β → Bool) (xs : List α)
    (ys : List β) (hlen : xs.length = ys.length)
    (h : findAndEraseAll canMerge xs ys = true) :
    ∃ l, l.Perm ys ∧ List.Forall₂ (fun x y => canMerge x y = true) xs l := by
  obtain ⟨l, r, hlr, hall⟩ := findAndEraseAll_sound canMerge xs ys h
  have h1 : xs.length = l.length := hall.length_eq
  have h2 : (l ++ r).length = ys.length := hlr.length_eq
  have hr : r = [] := by
    apply List.length_eq_zero.mp
    simp only [List.length_append] at h2
    omega
  subst hr
  exact ⟨l, by simpa using hlr, hall⟩

/-- Lists that are element-wise related by an equivalence have, for every `z`, the same
number of elements related to `z`. -/
theorem countP_eq_of_forall₂ {α : Type} (r : α → α → Bool) (hr : IsEquivalence r)
    (xs l : List α) (h : List.Forall₂ (fun x y => r x y = true) xs l) (z : α) :
    List.countP (fun o => r z o) xs = List.countP (fun o => r z o) l := by
  induction h with
  | nil => rfl
  | @cons x y xs' l' hxy _ ih =>
    have hb : r z x = r z y := by
      cases hzx : r z x with
      | true => exact (hr.2.2 z x y hzx hxy).symm
      | false =>
        cases hzy : r z y with
        | true =>
          have := hr.2.2 z y x hzy (hr.2.1 x y hxy)
          rw [hzx] at this
          exact this
        | false => rfl
    rw [List.countP_cons, List.countP_cons, ih, hb]

/-- For an equivalence the greedy choice never hurts: the loop succeeds as soon as, class by
class, the other list has at least as many elements as the own list. -/
theorem findAndEraseAll_complete {α : Type} (r : α → α → Bool) (hr : IsEquivalence r)
    (xs ys : List α)
    (h : ∀ z, List.countP (fun o => r z o) xs ≤ List.countP (fun o => r z o) ys) :
    findAndEraseAll r xs ys = true := by
  induction xs generalizing ys with
  | nil => rfl
  | cons x xs ih =>
    unfold findAndEraseAll
    cases hf : find_if (fun o => r x o) ys with
    | none =>
      exfalso
      have hnone := find_if_none _ _ hf
      have h0 : List.countP (fun o => r x o) ys = 0 := by
        rw [List.countP_eq_zero]
        intro a ha
        simp [hnone a ha]
      have hx := h x
      rw [h0, List.countP_cons] at hx
      simp [hr.1 x] at hx
    | some pos =>
      obtain ⟨y, hy, hperm⟩ := find_if_some _ _ _ hf
      apply ih
      intro z
      have hz := h z
      rw [List.Perm.countP_eq _ hperm, List.countP_cons, List.countP_cons] at hz
      have hb : r z x = r z y := by
        cases hzx : r z x with
        | true => exact (hr.2.2 z x y hzx hy).symm
        | false =>
          cases hzy : r z y with
          | true =>
            have := hr.2.2 z y x hzy (hr.2.1 x y hy)
            rw [hzx] at this
            exact this
          | false => rfl
      rw [hb] at hz
      omega

/-- For an equivalence and lists of the same size, the loop succeeds exactly when both lists
have the same number of elements in every class. -/
theorem findAndEraseAll_iff_counts {α : Type} (r : α → α → Bool) (hr : IsEquivalence r)
    (xs ys : List α) (hlen : xs.length = ys.length) :
    findAndEraseAll r xs ys = true ↔
      ∀ z, List.countP (fun o => r z o) xs = List.countP (fun o => r z o) ys := by
  constructor
  · intro h z
    obtain ⟨l, hperm, hall⟩ := findAndEraseAll_perm r xs ys hlen h
    rw [countP_eq_of_forall₂ r hr xs l hall z, List.Perm.countP_eq _ hperm]
  · intro h
    exact findAndEraseAll_complete r hr xs ys (fun z => Nat.le_of_eq (h z))

theorem isEquivalence_on_archetypes
    (canPSBeMerged : SynapseGroupInternal → SynapseGroupInternal → Bool)
    (h : IsEquivalence canPSBeMerged) :
    IsEquivalence (fun (syn m : MergedInSynEntry) => canPSBeMerged syn.1 m.1) :=
  ⟨fun a => h.1 a.1, fun a b hab => h.2.1 a.1 b.1 hab,
    fun a b c hab hbc => h.2.2 a.1 b.1 c.1 hab hbc⟩

namespace NeuronGroup

/-- The conditions under which `canBeMerged` returns `true`, one by one. -/
theorem canBeMerged_iff (nmCanBeMerged : NeuronModel → NeuronModel → Bool)
    (csCanBeMerged : CurrentSourceInternal → CurrentSourceInternal → Bool)
    (canPSBeMerged : SynapseGroupInternal → SynapseGroupInternal → Bool)
    (a b : NeuronGroup) :
    canBeMerged nmCanBeMerged csCanBeMerged canPSBeMerged a b = true ↔
      nmCanBeMerged a.getNeuronModel b.getNeuronModel = true ∧
      vectorEq Double.opEq a.getParams b.getParams = true ∧
      vectorEq Double.opEq a.getDerivedParams b.getDerivedParams = true ∧
      a.isSpikeTimeRequired = b.isSpikeTimeRequired ∧
      a.getSpikeEventCondition = b.getSpikeEventCondition ∧
      a.m_VarQueueRequired = b.m_VarQueueRequired ∧
      a.getCurrentSources.length = b.getCurrentSources.length ∧
      findAndEraseAll csCanBeMerged a.getCurrentSources b.getCurrentSources = true ∧
      a.getMergedInSyn.length = b.getMergedInSyn.length ∧
      findAndEraseAll (fun syn m => canPSBeMerged syn.1 m.1)
        a.getMergedInSyn b.getMergedInSyn = true := by
  unfold canBeMerged
  simp only [Bool.and_eq_true, beq_iff_eq, Bool.if_false_right, Bool.if_true_left,
    Bool.and_true, Bool.decide_eq_true, ite_eq_left_iff, Bool.not_eq_true,
    decide_eq_true_eq, and_assoc]

end NeuronGroup
/-! ## Update merging -/

namespace NeuronGroup

/-- **C3 (as stated, refuted).** Two groups whose only parameter is `+0.0` in the one and
`-0.0` in the other: `canBeMerged` returns true, yet the two values differ (in the sign
bit), and the value that `addNeuronModelSubstitutions` installs for the archetype is not the
value of the other member. -/
theorem canBeMerged_signed_zero_counterexample :
    canBeMerged NeuronModel.canBeMerged CurrentSourceInternal.canBeMerged
        SynapseGroupInternal.canPSBeMerged examplePositiveZeroGroup exampleNegativeZeroGroup
      = true ∧
    examplePositiveZeroGroup.getParams.map Double.pattern = [0] ∧
    exampleNegativeZeroGroup.getParams.map Double.pattern = [2 ^ 63] ∧
    examplePositiveZeroGroup.getParams ≠ exampleNegativeZeroGroup.getParams ∧
    Substitution.addParamValues ["Vrest"] [{ bits := 0 }]
      ∈ addNeuronModelSubstitutions [] examplePositiveZeroGroup "" "" ∧
    Substitution.addParamValues ["Vrest"] [{ bits := 2 ^ 63 }]
      ∉ addNeuronModelSubstitutions [] examplePositiveZeroGroup "" "" := by
  decide

/-- Two doubles that `operator==` takes as equal: neither is a NaN, and they have the same
bit pattern or are both zeros. -/
theorem Double.opEq_bits (x y : Double) (h : Double.opEq x y = true) :
    x.isNaN = false ∧ y.isNaN = false ∧
      (x.pattern = y.pattern ∨ (x.isZero = true ∧ y.isZero = true)) := by
  unfold Double.opEq at h
  simp only [Bool.and_eq_true, Bool.not_eq_true', Bool.or_eq_true, beq_iff_eq] at h
  exact ⟨h.1.1, h.1.2, h.2.symm⟩

/-- Element by element, two vectors of doubles that compare equal hold values that are not
NaN and have the same bit pattern or are both zeros. -/
theorem vectorEq_opEq_bits (xs ys : List Double) (h : vectorEq Double.opEq xs ys = true) :
    xs.length = ys.length ∧
    ∀ k (hk : k < xs.length),
      ∃ v, ys[k]? = some v ∧ Double.opEq xs[k] v = true ∧
        xs[k].isNaN = false ∧ v.isNaN = false ∧
        (xs[k].pattern = v.pattern ∨ (xs[k].isZero = true ∧ v.isZero = true)) := by
  obtain ⟨hlen, hall⟩ := vectorEq_getElem _ _ _ h
  refine ⟨hlen, fun k hk => ?_⟩
  obtain ⟨v, hv, heq⟩ := hall k hk
  obtain ⟨h1, h2, h3⟩ := Double.opEq_bits _ _ heq
  exact ⟨v, hv, heq, h1, h2, h3⟩

/-- **C3 (amended).** If `a.canBeMerged(b)` returns true then the neuron models are
mergeable, the parameter sequences and the derived-parameter sequences compare equal,
`isSpikeTimeRequired` agrees, and the spike-event conditions and the queue-required masks
are equal.  Consequently the sequences have the same sizes and every parameter and derived
parameter of `a`, which is what the neuron-update emitter installs from the archetype,
compares equal (`operator==` on `double`) to the value of `b` at the same index: neither is
a NaN, and the two have the same bit pattern or are both zeros, possibly of opposite
sign. -/
theorem canBeMerged_shared (nmCanBeMerged : NeuronModel → NeuronModel → Bool)
    (csCanBeMerged : CurrentSourceInternal → CurrentSourceInternal → Bool)
    (canPSBeMerged : SynapseGroupInternal → SynapseGroupInternal → Bool)
    (a b : NeuronGroup)
    (h : canBeMerged nmCanBeMerged csCanBeMerged canPSBeMerged a b = true) :
    (nmCanBeMerged a.getNeuronModel b.getNeuronModel = true ∧
      vectorEq Double.opEq a.getParams b.getParams = true ∧
      vectorEq Double.opEq a.getDerivedParams b.getDerivedParams = true ∧
      a.isSpikeTimeRequired = b.isSpikeTimeRequired ∧
      a.getSpikeEventCondition = b.getSpikeEventCondition ∧
      a.m_VarQueueRequired = b.m_VarQueueRequired) ∧
    (a.getParams.length = b.getParams.length ∧
      ∀ k (hk : k < a.getParams.length),
        ∃ v, b.getParams[k]? = some v ∧ Double.opEq a.getParams[k] v = true ∧
          a.getParams[k].isNaN = false ∧ v.isNaN = false ∧
          (a.getParams[k].pattern = v.pattern
            ∨ (a.getParams[k].isZero = true ∧ v.isZero = true))) ∧
    (a.getDerivedParams.length = b.getDerivedParams.length ∧
      ∀ k (hk : k < a.getDerivedParams.length),
        ∃ v, b.getDerivedParams[k]? = some v ∧ Double.opEq a.getDerivedParams[k] v = true ∧
          a.getDerivedParams[k].isNaN = false ∧ v.isNaN = false ∧
          (a.getDerivedParams[k].pattern = v.pattern
            ∨ (a.getDerivedParams[k].isZero = true ∧ v.isZero = true))) ∧
    (∀ (substitution : Substitutions) (sourceSuffix destSuffix : String),
      Substitution.addParamValues a.getNeuronModel.paramNames a.getParams
        ∈ addNeuronModelSubstitutions substitution a sourceSuffix destSuffix ∧
      Substitution.addVarValues a.getNeuronModel.derivedParamNames a.getDerivedParams
        ∈ addNeuronModelSubstitutions substitution a sourceSuffix destSuffix) := by
  obtain ⟨h1, h2, h3, h4, h5, h6, _⟩ := (canBeMerged_iff _ _ _ a b).mp h
  refine ⟨⟨h1, h2, h3, h4, h5, h6⟩, vectorEq_opEq_bits _ _ h2, vectorEq_opEq_bits _ _ h3, ?_⟩
  intro substitution sourceSuffix destSuffix
  unfold addNeuronModelSubstitutions
  simp only [List.mem_cons, true_or, or_true, and_self]

/-- Witness of the amended C3: for the two groups with the parameters `+0.0` and `-0.0`
the values at index 0 compare equal and are both zeros. -/
theorem canBeMerged_shared_witness :
    canBeMerged NeuronModel.canBeMerged CurrentSourceInternal.canBeMerged
        SynapseGroupInternal.canPSBeMerged examplePositiveZeroGroup exampleNegativeZeroGroup
      = true ∧
    ∀ k (hk : k < examplePositiveZeroGroup.getParams.length),
      ∃ v, exampleNegativeZeroGroup.getParams[k]? = some v ∧
        Double.opEq examplePositiveZeroGroup.getParams[k] v = true ∧
        examplePositiveZeroGroup.getParams[k].isNaN = false ∧ v.isNaN = false ∧
        (examplePositiveZeroGroup.getParams[k].pattern = v.pattern
          ∨ (examplePositiveZeroGroup.getParams[k].isZero = true ∧ v.isZero = true)) :=
  ⟨by decide,
    (canBeMerged_shared NeuronModel.canBeMerged CurrentSourceInternal.canBeMerged
      SynapseGroupInternal.canPSBeMerged examplePositiveZeroGroup exampleNegativeZeroGroup
      (by decide)).2.1.2⟩

/-- **C5.** If `a.canBeMerged(b)` returns true then `a` and `b` have the same number of
current sources, and the current sources of `b` can be rearranged into a list `l` (each
current source of `b` is used exactly once) such that every current source of `a`
`canBeMerged` with the element of `l` at its position. -/
theorem canBeMerged_currentSources (nmCanBeMerged : NeuronModel → NeuronModel → Bool)
    (csCanBeMerged : CurrentSourceInternal → CurrentSourceInternal → Bool)
    (canPSBeMerged : SynapseGroupInternal → SynapseGroupInternal → Bool)
    (a b : NeuronGroup)
    (h : canBeMerged nmCanBeMerged csCanBeMerged canPSBeMerged a b = true) :
    a.getCurrentSources.length = b.getCurrentSources.length ∧
    ∃ l : List CurrentSourceInternal, l.Perm b.getCurrentSources ∧
      List.Forall₂ (fun cs otherCS => csCanBeMerged cs otherCS = true) a.getCurrentSources l := by
  obtain ⟨_, _, _, _, _, _, hlen, hcs, _⟩ := (canBeMerged_iff _ _ _ a b).mp h
  exact ⟨hlen, findAndEraseAll_perm csCanBeMerged _ _ hlen hcs⟩

/-- Witness of C5: the current sources of the two groups are attached in different orders,
so that position by position they are not mergeable. -/
theorem canBeMerged_currentSources_witness :
    canBeMerged NeuronModel.canBeMerged CurrentSourceInternal.canBeMerged
        SynapseGroupInternal.canPSBeMerged exampleGroupA exampleGroupB = true ∧
    (exampleGroupA.getCurrentSources.zip exampleGroupB.getCurrentSources).all
        (fun p => CurrentSourceInternal.canBeMerged p.1 p.2) = false ∧
    exampleGroupA.getCurrentSources.length = exampleGroupB.getCurrentSources.length ∧
    ∃ l : List CurrentSourceInternal, l.Perm exampleGroupB.getCurrentSources ∧
      List.Forall₂ (fun cs otherCS => CurrentSourceInternal.canBeMerged cs otherCS = true)
        exampleGroupA.getCurrentSources l :=
  ⟨by decide, by decide,
    canBeMerged_currentSources NeuronModel.canBeMerged CurrentSourceInternal.canBeMerged
      SynapseGroupInternal.canPSBeMerged exampleGroupA exampleGroupB (by decide)⟩

end NeuronGroup
/-! ## Update merging is an equivalence -/

theorem findAndEraseAll_refl {α : Type} (r : α → α → Bool) (hr : IsEquivalence r)
    (xs : List α) : findAndEraseAll r xs xs = true :=
  (findAndEraseAll_iff_counts r hr xs xs rfl).mpr (fun _ => rfl)

theorem findAndEraseAll_symm {α : Type} (r : α → α → Bool) (hr : IsEquivalence r)
    (xs ys : List α) (hlen : xs.length = ys.length) (h : findAndEraseAll r xs ys = true) :
    findAndEraseAll r ys xs = true :=
  (findAndEraseAll_iff_counts r hr ys xs hlen.symm).mpr
    (fun z => ((findAndEraseAll_iff_counts r hr xs ys hlen).mp h z).symm)

theorem findAndEraseAll_trans {α : Type} (r : α → α → Bool) (hr : IsEquivalence r)
    (xs ys zs : List α) (h1len : xs.length = ys.length) (h2len : ys.length = zs.length)
    (h1 : findAndEraseAll r xs ys = true) (h2 : findAndEraseAll r ys zs = true) :
    findAndEraseAll r xs zs = true :=
  (findAndEraseAll_iff_counts r hr xs zs (h1len.trans h2len)).mpr
    (fun z => ((findAndEraseAll_iff_counts r hr xs ys h1len).mp h1 z).trans
      ((findAndEraseAll_iff_counts r hr ys zs h2len).mp h2 z))

namespace NeuronGroup

theorem canBeMerged_symm_of_true (nmCanBeMerged : NeuronModel → NeuronModel → Bool)
    (csCanBeMerged : CurrentSourceInternal → CurrentSourceInternal → Bool)
    (canPSBeMerged : SynapseGroupInternal → SynapseGroupInternal → Bool)
    (hnm : IsEquivalence nmCanBeMerged) (hcs : IsEquivalence csCanBeMerged)
    (hps : IsEquivalence canPSBeMerged) (a b : NeuronGroup)
    (h : canBeMerged nmCanBeMerged csCanBeMerged canPSBeMerged a b = true) :
    canBeMerged nmCanBeMerged csCanBeMerged canPSBeMerged b a = true := by
  obtain ⟨h1, h2, h3, h4, h5, h6, hl, hc, hl2, hp⟩ := (canBeMerged_iff _ _ _ a b).mp h
  exact (canBeMerged_iff _ _ _ b a).mpr
    ⟨hnm.2.1 _ _ h1, vectorEq_symm _ Double.opEq_symm _ _ h2,
      vectorEq_symm _ Double.opEq_symm _ _ h3, h4.symm, h5.symm, h6.symm, hl.symm,
      findAndEraseAll_symm _ hcs _ _ hl hc, hl2.symm,
      findAndEraseAll_symm _ (isEquivalence_on_archetypes _ hps) _ _ hl2 hp⟩

/-- **C4.** Given that neuron-model `canBeMerged`, current-source `canBeMerged` and
`canPSBeMerged` are equivalence relations, `NeuronGroup::canBeMerged` is reflexive on every
group whose parameters and derived parameters compare equal to themselves, it returns the
same answer whichever of the two groups is the receiver, and it is transitive. -/
theorem canBeMerged_equivalence (nmCanBeMerged : NeuronModel → NeuronModel → Bool)
    (csCanBeMerged : CurrentSourceInternal → CurrentSourceInternal → Bool)
    (canPSBeMerged : SynapseGroupInternal → SynapseGroupInternal → Bool)
    (hnm : IsEquivalence nmCanBeMerged) (hcs : IsEquivalence csCanBeMerged)
    (hps : IsEquivalence canPSBeMerged) :
    (∀ a : NeuronGroup, a.paramsSelfEqual →
      canBeMerged nmCanBeMerged csCanBeMerged canPSBeMerged a a = true) ∧
    (∀ a b : NeuronGroup,
      canBeMerged nmCanBeMerged csCanBeMerged canPSBeMerged a b =
        canBeMerged nmCanBeMerged csCanBeMerged canPSBeMerged b a) ∧
    (∀ a b c : NeuronGroup,
      canBeMerged nmCanBeMerged csCanBeMerged canPSBeMerged a b = true →
      canBeMerged nmCanBeMerged csCanBeMerged canPSBeMerged b c = true →
      canBeMerged nmCanBeMerged csCanBeMerged canPSBeMerged a c = true) := by
  refine ⟨?_, ?_, ?_⟩
  · intro a ha
    exact (canBeMerged_iff _ _ _ a a).mpr
      ⟨hnm.1 _, vectorEq_refl _ _ ha.1, vectorEq_refl _ _ ha.2, rfl, rfl, rfl, rfl,
        findAndEraseAll_refl _ hcs _, rfl,
        findAndEraseAll_refl _ (isEquivalence_on_archetypes _ hps) _⟩
  · intro a b
    rw [Bool.eq_iff_iff]
    exact ⟨canBeMerged_symm_of_true _ _ _ hnm hcs hps a b,
      canBeMerged_symm_of_true _ _ _ hnm hcs hps b a⟩
  · intro a b c hab hbc
    obtain ⟨h1, h2, h3, h4, h5, h6, hl, hc, hl2, hp⟩ := (canBeMerged_iff _ _ _ a b).mp hab
    obtain ⟨k1, k2, k3, k4, k5, k6, kl, kc, kl2, kp⟩ := (canBeMerged_iff _ _ _ b c).mp hbc
    exact (canBeMerged_iff _ _ _ a c).mpr
      ⟨hnm.2.2 _ _ _ h1 k1, vectorEq_trans _ Double.opEq_trans _ _ _ h2 k2,
        vectorEq_trans _ Double.opEq_trans _ _ _ h3 k3, h4.trans k4, h5.trans k5,
        h6.trans k6, hl.trans kl, findAndEraseAll_trans _ hcs _ _ _ hl kl hc kc,
        hl2.trans kl2,
        findAndEraseAll_trans _ (isEquivalence_on_archetypes _ hps) _ _ _ hl2 kl2 hp kp⟩

end NeuronGroup
theorem isEquivalence_of_key {α β : Type} [DecidableEq β] (f : α → β) :
    IsEquivalence (fun a b => decide (f a = f b)) := by
  refine ⟨?_, ?_, ?_⟩
  · intro a; simp
  · intro a b h
    simp only [decide_eq_true_eq] at h ⊢
    exact h.symm
  · intro a b c h1 h2
    simp only [decide_eq_true_eq] at h1 h2 ⊢
    exact h1.trans h2

theorem NeuronModel.canBeMerged_isEquivalence : IsEquivalence NeuronModel.canBeMerged :=
  isEquivalence_of_key (fun m : NeuronModel => m)

theorem CurrentSourceInternal.sameModel_isEquivalence :
    IsEquivalence CurrentSourceInternal.sameModel :=
  isEquivalence_of_key (fun cs : CurrentSourceInternal => cs.model)

theorem SynapseGroupInternal.samePSModel_isEquivalence :
    IsEquivalence SynapseGroupInternal.samePSModel :=
  isEquivalence_of_key (fun sg : SynapseGroupInternal => sg.psModel)

namespace NeuronGroup

/-- Witness of C4: three groups whose current sources are attached in different orders. -/
theorem canBeMerged_equivalence_witness :
    canBeMerged NeuronModel.canBeMerged CurrentSourceInternal.sameModel
        SynapseGroupInternal.samePSModel exampleGroupA exampleGroupA = true ∧
    canBeMerged NeuronModel.canBeMerged CurrentSourceInternal.sameModel
        SynapseGroupInternal.samePSModel exampleGroupA exampleGroupB =
      canBeMerged NeuronModel.canBeMerged CurrentSourceInternal.sameModel
        SynapseGroupInternal.samePSModel exampleGroupB exampleGroupA ∧
    canBeMerged NeuronModel.canBeMerged CurrentSourceInternal.sameModel
        SynapseGroupInternal.samePSModel exampleGroupA exampleGroupC = true :=
  ⟨(canBeMerged_equivalence NeuronModel.canBeMerged CurrentSourceInternal.sameModel
      SynapseGroupInternal.samePSModel NeuronModel.canBeMerged_isEquivalence
      CurrentSourceInternal.sameModel_isEquivalence
      SynapseGroupInternal.samePSModel_isEquivalence).1 exampleGroupA
      ⟨by decide, by decide⟩,
    (canBeMerged_equivalence NeuronModel.canBeMerged CurrentSourceInternal.sameModel
      SynapseGroupInternal.samePSModel NeuronModel.canBeMerged_isEquivalence
      CurrentSourceInternal.sameModel_isEquivalence
      SynapseGroupInternal.samePSModel_isEquivalence).2.1 exampleGroupA exampleGroupB,
    (canBeMerged_equivalence NeuronModel.canBeMerged CurrentSourceInternal.sameModel
      SynapseGroupInternal.samePSModel NeuronModel.canBeMerged_isEquivalence
      CurrentSourceInternal.sameModel_isEquivalence
      SynapseGroupInternal.samePSModel_isEquivalence).2.2 exampleGroupA exampleGroupB
      exampleGroupC (by decide) (by decide)⟩

end NeuronGroup
/-! ## Delay and update merging -/

namespace NeuronGroup

/-- `canBeMerged` does not look at the number of delay slots of either group. -/
theorem canBeMerged_numDelaySlots_irrelevant
    (nmCanBeMerged : NeuronModel → NeuronModel → Bool)
    (csCanBeMerged : CurrentSourceInternal → CurrentSourceInternal → Bool)
    (canPSBeMerged : SynapseGroupInternal → SynapseGroupInternal → Bool)
    (a b : NeuronGroup) (n m : Nat) :
    canBeMerged nmCanBeMerged csCanBeMerged canPSBeMerged
        { a with m_NumDelaySlots := n } { b with m_NumDelaySlots := m } =
      canBeMerged nmCanBeMerged csCanBeMerged canPSBeMerged a b := rfl

/-- **C6 (the code at the failing input).** Two groups with the same model and parameters
whose variable `V` is queued, one with an outgoing axonal delay of 5 steps and one without
delay: `canBeMerged` returns true in both directions although delay is required for the
first group only. -/
theorem canBeMerged_delay_mismatch :
    canBeMerged NeuronModel.canBeMerged CurrentSourceInternal.canBeMerged
        SynapseGroupInternal.canPSBeMerged exampleDelayedGroup exampleUndelayedGroup = true ∧
    canBeMerged NeuronModel.canBeMerged CurrentSourceInternal.canBeMerged
        SynapseGroupInternal.canPSBeMerged exampleUndelayedGroup exampleDelayedGroup = true ∧
    exampleDelayedGroup.m_VarQueueRequired = [true, false] ∧
    exampleUndelayedGroup.m_VarQueueRequired = [true, false] ∧
    exampleDelayedGroup.getNumDelaySlots = 6 ∧
    exampleUndelayedGroup.getNumDelaySlots = 1 ∧
    exampleDelayedGroup.isDelayRequired = true ∧
    exampleUndelayedGroup.isDelayRequired = false := by
  decide

/-! ## Init merging -/

/-- The conditions under which `canInitBeMerged` returns `true`, one by one. -/
theorem canInitBeMerged_iff (viCanBeMerged : VarInit → VarInit → Bool) (a b : NeuronGroup) :
    canInitBeMerged viCanBeMerged a b = true ↔
      a.isSpikeTimeRequired = b.isSpikeTimeRequired ∧
      a.isSpikeEventRequired = b.isSpikeEventRequired ∧
      a.getNumDelaySlots = b.getNumDelaySlots ∧
      a.m_VarQueueRequired = b.m_VarQueueRequired ∧
      a.getVarInitialisers.length = b.getVarInitialisers.length ∧
      findAndEraseAll viCanBeMerged a.getVarInitialisers b.getVarInitialisers = true := by
  unfold canInitBeMerged
  simp only [Bool.and_eq_true, beq_iff_eq, Bool.if_false_right, Bool.if_true_left,
    Bool.and_true, Bool.decide_eq_true, ite_eq_left_iff, Bool.not_eq_true,
    decide_eq_true_eq, and_assoc]

/-- **C7 (the code at the failing input).** Two groups that initialise their two variables
with the snippets `Constant, Uniform` and `Uniform, Constant`: `canInitBeMerged` returns
true, yet the initialiser that the init emitter takes from the archetype for variable 0 is
not mergeable with the initialiser of variable 0 of the other group. -/
theorem canInitBeMerged_swapped_initialisers :
    canInitBeMerged VarInit.canBeMerged exampleGroup exampleSwappedInitGroup = true ∧
    archetypeVarInitialiser exampleGroup 0 = some { snippet := "Constant", params := [] } ∧
    exampleSwappedInitGroup.getVarInitialisers[0]? =
      some { snippet := "Uniform", params := [] } ∧
    VarInit.canBeMerged { snippet := "Constant", params := [] }
      { snippet := "Uniform", params := [] } = false := by
  decide

/-- **C8 (the code at the failing input).** Two groups with different neuron models, whose
variables have different names and types: `canInitBeMerged` returns true, although the init
emitter takes the names and the types of the variables from the neuron model of the
archetype alone. -/
theorem canInitBeMerged_other_model_counterexample :
    canInitBeMerged VarInit.canBeMerged exampleGroup exampleOtherModelGroup = true ∧
    exampleGroup.getNeuronModel ≠ exampleOtherModelGroup.getNeuronModel ∧
    NeuronModel.canBeMerged exampleGroup.getNeuronModel
      exampleOtherModelGroup.getNeuronModel = false ∧
    exampleGroup.getNeuronModel.vars.map Var.name = ["V", "U"] ∧
    exampleOtherModelGroup.getNeuronModel.vars.map Var.name = ["X", "Y"] ∧
    exampleGroup.getNeuronModel.vars.map Var.type = ["scalar", "scalar"] ∧
    exampleOtherModelGroup.getNeuronModel.vars.map Var.type = ["unsigned int", "scalar"] := by
  decide

/-- What `canInitBeMerged` does compare: if `a.canInitBeMerged(b)` returns true then `a` and
`b` have the same `isSpikeTimeRequired` and `isSpikeEventRequired` values, the same number
of delay slots, equal queue-required masks and the same number of variable initialisers. -/
theorem canInitBeMerged_shared (viCanBeMerged : VarInit → VarInit → Bool) (a b : NeuronGroup)
    (h : canInitBeMerged viCanBeMerged a b = true) :
    a.isSpikeTimeRequired = b.isSpikeTimeRequired ∧
    a.isSpikeEventRequired = b.isSpikeEventRequired ∧
    a.getNumDelaySlots = b.getNumDelaySlots ∧
    a.m_VarQueueRequired = b.m_VarQueueRequired ∧
    a.getVarInitialisers.length = b.getVarInitialisers.length := by
  obtain ⟨h1, h2, h3, h4, h5, _⟩ := (canInitBeMerged_iff viCanBeMerged a b).mp h
  exact ⟨h1, h2, h3, h4, h5⟩

/-- The two groups with different neuron models agree in all that `canInitBeMerged`
compares. -/
theorem canInitBeMerged_shared_witness :
    canInitBeMerged VarInit.canBeMerged exampleGroup exampleOtherModelGroup = true ∧
    (exampleGroup.isSpikeTimeRequired = exampleOtherModelGroup.isSpikeTimeRequired ∧
      exampleGroup.isSpikeEventRequired = exampleOtherModelGroup.isSpikeEventRequired ∧
      exampleGroup.getNumDelaySlots = exampleOtherModelGroup.getNumDelaySlots ∧
      exampleGroup.m_VarQueueRequired = exampleOtherModelGroup.m_VarQueueRequired ∧
      exampleGroup.getVarInitialisers.length =
        exampleOtherModelGroup.getVarInitialisers.length) :=
  ⟨by decide,
    canInitBeMerged_shared VarInit.canBeMerged exampleGroup exampleOtherModelGroup (by decide)⟩

end NeuronGroup
/-! ## Merging of incoming postsynaptic models -/

/-- With merging disabled the outer loop appends one single-member entry per incoming
synapse group, last group first, and makes no call. -/
theorem mergeIncomingPSMLoop_no_merge
    (canPSBeLinearlyCombined : SynapseGroupInternal → SynapseGroupInternal → Bool)
    (groupName : String) (fuel i : Nat) (inSyn : List SynapseGroupInternal) (st : MergeState)
    (hfuel : inSyn.length ≤ fuel) :
    mergeIncomingPSMLoop canPSBeLinearlyCombined groupName false fuel i inSyn st =
      some { m_MergedInSyn := st.m_MergedInSyn ++ inSyn.reverse.map (fun a => (a, [a])),
             calls := st.calls } := by
  induction fuel generalizing i inSyn st with
  | zero =>
    have hnil : inSyn = [] := List.length_eq_zero.mp (Nat.le_zero.mp hfuel)
    subst hnil
    simp [mergeIncomingPSMLoop]
  | succ fuel ih =>
    rcases List.eq_nil_or_concat inSyn with hnil | ⟨ys, a, hcat⟩
    · subst hnil
      simp [mergeIncomingPSMLoop]
    · rw [List.concat_eq_append] at hcat
      subst hcat
      have hys : ys.length ≤ fuel := by
        simp only [List.length_append, List.length_singleton] at hfuel
        omega
      simp only [mergeIncomingPSMLoop, List.getLast?_concat, List.dropLast_concat,
        Bool.not_false, if_true]
      rw [ih _ _ _ hys]
      simp

namespace NeuronGroup

/-- **C9.** For every neuron group whose merged incoming list is empty beforehand,
`mergeIncomingPSM(false)` returns, and afterwards the merged incoming list has exactly one
entry per incoming synapse group (in reverse order of the incoming list), every entry's
member list consists of its archetype alone, and no call of `setPSModelMergeTarget` has been
made. -/
theorem mergeIncomingPSM_disabled
    (canPSBeLinearlyCombined : SynapseGroupInternal → SynapseGroupInternal → Bool)
    (ng : NeuronGroup) (hempty : ng.m_MergedInSyn = []) :
    ng.mergeIncomingPSM canPSBeLinearlyCombined false =
      some ({ ng with m_MergedInSyn := ng.getInSyn.reverse.map (fun a => (a, [a])) }, []) := by
  unfold mergeIncomingPSM
  rw [mergeIncomingPSMLoop_no_merge _ _ _ _ _ _ (Nat.le_refl _), hempty]
  simp

/-- Witness of C9: the example group with three incoming synapse groups. -/
theorem mergeIncomingPSM_disabled_witness :
    exampleTargetGroup.mergeIncomingPSM SynapseGroupInternal.canPSBeLinearlyCombined false =
      some ({ exampleTargetGroup with
              m_MergedInSyn := exampleTargetGroup.getInSyn.reverse.map (fun a => (a, [a])) },
            []) :=
  mergeIncomingPSM_disabled SynapseGroupInternal.canPSBeLinearlyCombined exampleTargetGroup rfl

end NeuronGroup
theorem mergeWithRemainder_merged
    (canPSBeLinearlyCombined : SynapseGroupInternal → SynapseGroupInternal → Bool)
    (a : SynapseGroupInternal) (mergedPSMName : String) (inSyn : List SynapseGroupInternal) :
    ∀ b ∈ (mergeWithRemainder canPSBeLinearlyCombined a mergedPSMName inSyn).merged,
      canPSBeLinearlyCombined a b = true := by
  induction inSyn with
  | nil => intro b hb; simp [mergeWithRemainder] at hb
  | cons x xs ih =>
    intro b hb
    unfold mergeWithRemainder at hb
    by_cases hx : canPSBeLinearlyCombined a x = true
    · simp only [hx, if_true, List.mem_cons] at hb
      rcases hb with rfl | hb
      · exact hx
      · exact ih b hb
    · simp only [hx] at hb
      exact ih b hb

theorem mergeWithRemainder_length
    (canPSBeLinearlyCombined : SynapseGroupInternal → SynapseGroupInternal → Bool)
    (a : SynapseGroupInternal) (mergedPSMName : String) (inSyn : List SynapseGroupInternal) :
    (mergeWithRemainder canPSBeLinearlyCombined a mergedPSMName inSyn).inSyn.length
      ≤ inSyn.length := by
  induction inSyn with
  | nil => simp [mergeWithRemainder]
  | cons x xs ih =>
    unfold mergeWithRemainder
    by_cases hx : canPSBeLinearlyCombined a x = true
    · simp only [hx, if_true]
      exact Nat.le_succ_of_le ih
    · simp only [hx]
      simpa using ih

/-- The outer loop returns when the fuel covers the temporary vector, and every entry of the
merged list afterwards either was there before or is well formed. -/
theorem mergeIncomingPSMLoop_entries
    (canPSBeLinearlyCombined : SynapseGroupInternal → SynapseGroupInternal → Bool)
    (groupName : String) (merge : Bool) (fuel i : Nat) (inSyn : List SynapseGroupInternal)
    (st : MergeState) (hfuel : inSyn.length ≤ fuel) :
    ∃ st', mergeIncomingPSMLoop canPSBeLinearlyCombined groupName merge fuel i inSyn st
        = some st' ∧
      ∀ e ∈ st'.m_MergedInSyn,
        e ∈ st.m_MergedInSyn ∨ MergedEntryOK canPSBeLinearlyCombined e := by
  induction fuel generalizing i inSyn st with
  | zero =>
    have hnil : inSyn = [] := List.length_eq_zero.mp (Nat.le_zero.mp hfuel)
    subst hnil
    exact ⟨st, by simp [mergeIncomingPSMLoop], fun e he => Or.inl he⟩
  | succ fuel ih =>
    rcases List.eq_nil_or_concat inSyn with hnil | ⟨ys, a, hcat⟩
    · subst hnil
      exact ⟨st, by simp [mergeIncomingPSMLoop], fun e he => Or.inl he⟩
    · rw [List.concat_eq_append] at hcat
      subst hcat
      have hys : ys.length ≤ fuel := by
        simp only [List.length_append, List.length_singleton] at hfuel
        omega
      have hsingle : MergedEntryOK canPSBeLinearlyCombined (a, [a]) :=
        ⟨[], rfl, fun b hb => by cases hb⟩
      simp only [mergeIncomingPSMLoop, List.getLast?_concat, List.dropLast_concat]
      split
      · obtain ⟨st', hst', hall⟩ := ih ((i + 1) % 2 ^ 32) ys
          { st with m_MergedInSyn := st.m_MergedInSyn ++ [(a, [a])] } hys
        refine ⟨st', hst', ?_⟩
        intro e he
        rcases hall e he with hold | hok
        · rcases List.mem_append.mp hold with h1 | h2
          · exact Or.inl h1
          · rw [List.mem_singleton.mp h2]; exact Or.inr hsingle
        · exact Or.inr hok
      · split
        · obtain ⟨st', hst', hall⟩ := ih ((i + 1) % 2 ^ 32) ys
            { st with m_MergedInSyn := st.m_MergedInSyn ++ [(a, [a])] } hys
          refine ⟨st', hst', ?_⟩
          intro e he
          rcases hall e he with hold | hok
          · rcases List.mem_append.mp hold with h1 | h2
            · exact Or.inl h1
            · rw [List.mem_singleton.mp h2]; exact Or.inr hsingle
          · exact Or.inr hok
        · obtain ⟨st', hst', hall⟩ := ih ((i + 1) % 2 ^ 32) _ _
            (Nat.le_trans (mergeWithRemainder_length canPSBeLinearlyCombined a
              ("Merged" ++ toString i ++ "_" ++ groupName) ys) hys)
          refine ⟨st', hst', ?_⟩
          intro e he
          rcases hall e he with hold | hok
          · rcases List.mem_append.mp hold with h1 | h2
            · exact Or.inl h1
            · rw [List.mem_singleton.mp h2]
              exact Or.inr ⟨_, rfl, mergeWithRemainder_merged _ _ _ _⟩
          · exact Or.inr hok

namespace NeuronGroup

/-- **C10.** On a neuron group whose merged incoming list holds only well-formed entries
beforehand (in particular on one whose list is empty), `mergeIncomingPSM(true)` returns,
and afterwards, for every entry `(a, members)` of the merged incoming list, the first member
is the archetype `a` itself and every other member `b` satisfies
`a.canPSBeLinearlyCombined(b)`. -/
theorem mergeIncomingPSM_entries
    (canPSBeLinearlyCombined : SynapseGroupInternal → SynapseGroupInternal → Bool)
    (ng : NeuronGroup)
    (hbefore : ∀ e ∈ ng.getMergedInSyn, MergedEntryOK canPSBeLinearlyCombined e) :
    ∃ ng' calls, ng.mergeIncomingPSM canPSBeLinearlyCombined true = some (ng', calls) ∧
      ∀ e ∈ ng'.getMergedInSyn,
        ∃ rest, e.2 = e.1 :: rest ∧ ∀ b ∈ rest, canPSBeLinearlyCombined e.1 b = true := by
  obtain ⟨st', hst', hall⟩ := mergeIncomingPSMLoop_entries canPSBeLinearlyCombined ng.getName
    true ng.getInSyn.length 0 ng.getInSyn { m_MergedInSyn := ng.m_MergedInSyn, calls := [] }
    (Nat.le_refl _)
  refine ⟨{ ng with m_MergedInSyn := st'.m_MergedInSyn }, st'.calls, ?_, ?_⟩
  · unfold mergeIncomingPSM
    rw [hst']
    rfl
  · intro e he
    rcases hall e he with hold | hok
    · exact hbefore e hold
    · exact hok

/-- Witness of C10: of three incoming synapse groups, the last one is the first archetype and
absorbs the first one, which has the same postsynaptic parameter; the middle one stays
alone. -/
theorem mergeIncomingPSM_entries_witness :
    exampleTargetGroup.mergeIncomingPSM SynapseGroupInternal.canPSBeLinearlyCombined true =
      some ({ exampleTargetGroup with
              m_MergedInSyn :=
                [(exampleSyn "SynB" 5 [], [exampleSyn "SynB" 5 [], exampleSyn "SynA" 5 []]),
                 (exampleSyn "SynC" 7 [], [exampleSyn "SynC" 7 []])] },
            [(exampleSyn "SynA" 5 [], "Merged0_Target"),
             (exampleSyn "SynB" 5 [], "Merged0_Target")]) ∧
    ∃ ng' calls,
      exampleTargetGroup.mergeIncomingPSM SynapseGroupInternal.canPSBeLinearlyCombined true =
        some (ng', calls) ∧
      ∀ e ∈ ng'.getMergedInSyn,
        ∃ rest, e.2 = e.1 :: rest ∧
          ∀ b ∈ rest, SynapseGroupInternal.canPSBeLinearlyCombined e.1 b = true :=
  ⟨by decide,
    mergeIncomingPSM_entries SynapseGroupInternal.canPSBeLinearlyCombined exampleTargetGroup
      (fun e he => absurd he (List.not_mem_nil e))⟩

end NeuronGroup
/-! ## Decimal representation -/

/-- The inner loop splits the remaining groups into those merged and those kept. -/
theorem mergeWithRemainder_perm
    (canPSBeLinearlyCombined : SynapseGroupInternal → SynapseGroupInternal → Bool)
    (a : SynapseGroupInternal) (mergedPSMName : String) (inSyn : List SynapseGroupInternal) :
    inSyn.Perm
      ((mergeWithRemainder canPSBeLinearlyCombined a mergedPSMName inSyn).merged ++
        (mergeWithRemainder canPSBeLinearlyCombined a mergedPSMName inSyn).inSyn) := by
  induction inSyn with
  | nil => simp [mergeWithRemainder]
  | cons x xs ih =>
    unfold mergeWithRemainder
    by_cases hx : canPSBeLinearlyCombined a x = true
    · simp only [hx, if_true, List.cons_append]
      exact List.Perm.cons x ih
    · simp only [hx]
      exact (List.Perm.cons x ih).trans List.perm_middle.symm
namespace NeuronGroup

end NeuronGroup
/-! ## Groups with postsynaptic variable initialisers -/

/-- The outer loop keeps the entries it finds, puts every group of the temporary vector into
an entry, and leaves an archetype with postsynaptic variable initialisers alone in the entry
it creates for it. -/
theorem mergeIncomingPSMLoop_cover
    (canPSBeLinearlyCombined : SynapseGroupInternal → SynapseGroupInternal → Bool)
    (groupName : String) (merge : Bool) (fuel i : Nat) (inSyn : List SynapseGroupInternal)
    (st : MergeState) (hfuel : inSyn.length ≤ fuel) :
    ∃ st', mergeIncomingPSMLoop canPSBeLinearlyCombined groupName merge fuel i inSyn st
        = some st' ∧
      (∀ e ∈ st.m_MergedInSyn, e ∈ st'.m_MergedInSyn) ∧
      (∀ m ∈ inSyn, ∃ e ∈ st'.m_MergedInSyn, m ∈ e.2) ∧
      (∀ e ∈ st'.m_MergedInSyn, e ∈ st.m_MergedInSyn ∨
        (e.1.psVarInitialisers.isEmpty = false → e.2 = [e.1])) := by
  induction fuel generalizing i inSyn st with
  | zero =>
    have hnil : inSyn = [] := List.length_eq_zero.mp (Nat.le_zero.mp hfuel)
    subst hnil
    exact ⟨st, by simp [mergeIncomingPSMLoop], fun e he => he, by simp, fun e he => Or.inl he⟩
  | succ fuel ih =>
    rcases List.eq_nil_or_concat inSyn with hnil | ⟨ys, a, hcat⟩
    · subst hnil
      exact ⟨st, by simp [mergeIncomingPSMLoop], fun e he => he, by simp,
        fun e he => Or.inl he⟩
    · rw [List.concat_eq_append] at hcat
      subst hcat
      have hys : ys.length ≤ fuel := by
        simp only [List.length_append, List.length_singleton] at hfuel
        omega
      -- what both branches that leave the archetype alone have in common
      have halone : ∃ st', mergeIncomingPSMLoop canPSBeLinearlyCombined groupName merge fuel
            ((i + 1) % 2 ^ 32) ys { st with m_MergedInSyn := st.m_MergedInSyn ++ [(a, [a])] }
            = some st' ∧
          (∀ e ∈ st.m_MergedInSyn, e ∈ st'.m_MergedInSyn) ∧
          (∀ m ∈ ys ++ [a], ∃ e ∈ st'.m_MergedInSyn, m ∈ e.2) ∧
          (∀ e ∈ st'.m_MergedInSyn, e ∈ st.m_MergedInSyn ∨
            (e.1.psVarInitialisers.isEmpty = false → e.2 = [e.1])) := by
        obtain ⟨st', hst', hkeep, hcover, hnew⟩ := ih ((i + 1) % 2 ^ 32) ys
          { st with m_MergedInSyn := st.m_MergedInSyn ++ [(a, [a])] } hys
        refine ⟨st', hst', fun e he => hkeep e (List.mem_append_left _ he), ?_, ?_⟩
        · intro m hm
          rcases List.mem_append.mp hm with h1 | h2
          · exact hcover m h1
          · rw [List.mem_singleton.mp h2]
            exact ⟨(a, [a]), hkeep _ (List.mem_append_right _ (List.mem_singleton.mpr rfl)),
              List.mem_singleton.mpr rfl⟩
        · intro e he
          rcases hnew e he with hold | hok
          · rcases List.mem_append.mp hold with h1 | h2
            · exact Or.inl h1
            · rw [List.mem_singleton.mp h2]; exact Or.inr (fun _ => rfl)
          · exact Or.inr hok
      simp only [mergeIncomingPSMLoop, List.getLast?_concat, List.dropLast_concat]
      split
      · exact halone
      · split
        · exact halone
        · rename_i hvars
          have hperm := mergeWithRemainder_perm canPSBeLinearlyCombined a
            ("Merged" ++ toString i ++ "_" ++ groupName) ys
          obtain ⟨st', hst', hkeep, hcover, hnew⟩ := ih ((i + 1) % 2 ^ 32) _ _
            (Nat.le_trans (mergeWithRemainder_length canPSBeLinearlyCombined a
              ("Merged" ++ toString i ++ "_" ++ groupName) ys) hys)
          refine ⟨st', hst', fun e he => hkeep e (List.mem_append_left _ he), ?_, ?_⟩
          · intro m hm
            rcases List.mem_append.mp hm with h1 | h2
            · rcases List.mem_append.mp (hperm.mem_iff.mp h1) with hmerged | hkept
              · exact ⟨_, hkeep _ (List.mem_append_right _ (List.mem_singleton.mpr rfl)),
                  List.mem_cons_of_mem _ hmerged⟩
              · exact hcover m hkept
            · rw [List.mem_singleton.mp h2]
              exact ⟨_, hkeep _ (List.mem_append_right _ (List.mem_singleton.mpr rfl)),
                List.mem_cons_self _ _⟩
          · intro e he
            rcases hnew e he with hold | hok
            · rcases List.mem_append.mp hold with h1 | h2
              · exact Or.inl h1
              · rw [List.mem_singleton.mp h2]
                refine Or.inr (fun hne => ?_)
                simp only [Bool.not_eq_true', Bool.not_eq_false] at hvars
                simp [hvars] at hne
            · exact Or.inr hok

namespace NeuronGroup

/-- What `mergeIncomingPSM` guarantees about groups with postsynaptic variable initialisers
whenever the linear-combination test rejects them as candidates. -/
theorem mergeIncomingPSM_initialised_alone_of
    (canPSBeLinearlyCombined : SynapseGroupInternal → SynapseGroupInternal → Bool)
    (hcandidate : ∀ a b, canPSBeLinearlyCombined a b = true → b.psVarInitialisers = [])
    (ng : NeuronGroup) (merge : Bool)
    (hbefore : ∀ e ∈ ng.getMergedInSyn, ∀ m ∈ e.2, m.psVarInitialisers ≠ [] → e.2 = [m]) :
    ∃ ng' calls, ng.mergeIncomingPSM canPSBeLinearlyCombined merge = some (ng', calls) ∧
      ∀ sg ∈ ng.getInSyn, sg.psVarInitialisers ≠ [] →
        (∃ e ∈ ng'.getMergedInSyn, sg ∈ e.2) ∧
        (∀ e ∈ ng'.getMergedInSyn, sg ∈ e.2 → e.2 = [sg]) := by
  obtain ⟨st', hst', _, hcover, hnew⟩ := mergeIncomingPSMLoop_cover canPSBeLinearlyCombined
    ng.getName merge ng.getInSyn.length 0 ng.getInSyn
    { m_MergedInSyn := ng.m_MergedInSyn, calls := [] } (Nat.le_refl _)
  obtain ⟨st'', hst'', hok⟩ := mergeIncomingPSMLoop_entries canPSBeLinearlyCombined
    ng.getName merge ng.getInSyn.length 0 ng.getInSyn
    { m_MergedInSyn := ng.m_MergedInSyn, calls := [] } (Nat.le_refl _)
  have hsame : st'' = st' := Option.some.inj (hst''.symm.trans hst')
  subst hsame
  refine ⟨{ ng with m_MergedInSyn := st''.m_MergedInSyn }, st''.calls, ?_, ?_⟩
  · unfold mergeIncomingPSM
    rw [hst']
    rfl
  · intro sg hsg hvars
    refine ⟨hcover sg hsg, ?_⟩
    intro e he hmem
    rcases hok e he with hold | ⟨rest, hshape, hrest⟩
    · exact hbefore e hold sg hmem hvars
    · rw [hshape] at hmem
      rcases List.mem_cons.mp hmem with hhead | htail
      · rcases hnew e he with hold | halone
        · exact hbefore e hold sg (by rw [hshape, hhead]; exact List.mem_cons_self _ _) hvars
        · rw [hhead]
          apply halone
          rw [← hhead]
          cases hv : sg.psVarInitialisers with
          | nil => exact absurd hv hvars
          | cons v vs => rfl
      · exact absurd (hcandidate e.1 sg (hrest sg htail)) hvars

end NeuronGroup

theorem SynapseGroupInternal.canPSBeLinearlyCombined_candidate (a b : SynapseGroupInternal)
    (h : SynapseGroupInternal.canPSBeLinearlyCombined a b = true) :
    b.psVarInitialisers = [] := by
  simp only [SynapseGroupInternal.canPSBeLinearlyCombined, Bool.and_eq_true] at h
  exact List.isEmpty_iff.mp h.2

namespace NeuronGroup

/-- **C12.** With `canPSBeLinearlyCombined` as the spec describes it, on a neuron group whose
merged incoming list holds no entry beforehand in which a group with postsynaptic variable
initialisers has company (in particular on an empty list), `mergeIncomingPSM(true)` returns,
and afterwards every incoming synapse group with at least one postsynaptic variable
initialiser is in an entry and is alone in every entry it is in. -/
theorem mergeIncomingPSM_initialised_alone (ng : NeuronGroup)
    (hbefore : ∀ e ∈ ng.getMergedInSyn, ∀ m ∈ e.2, m.psVarInitialisers ≠ [] → e.2 = [m]) :
    ∃ ng' calls,
      ng.mergeIncomingPSM SynapseGroupInternal.canPSBeLinearlyCombined true =
        some (ng', calls) ∧
      ∀ sg ∈ ng.getInSyn, sg.psVarInitialisers ≠ [] →
        (∃ e ∈ ng'.getMergedInSyn, sg ∈ e.2) ∧
        (∀ e ∈ ng'.getMergedInSyn, sg ∈ e.2 → e.2 = [sg]) :=
  mergeIncomingPSM_initialised_alone_of SynapseGroupInternal.canPSBeLinearlyCombined
    SynapseGroupInternal.canPSBeLinearlyCombined_candidate ng true hbefore

/-- Witness of C12: `SynV` has a postsynaptic variable initialiser and the same postsynaptic
model and parameters as `SynA` and `SynB`; the latter two share an entry, `SynV` is alone. -/
theorem mergeIncomingPSM_initialised_alone_witness :
    exampleInitialisedTargetGroup.mergeIncomingPSM
        SynapseGroupInternal.canPSBeLinearlyCombined true =
      some ({ exampleInitialisedTargetGroup with
              m_MergedInSyn :=
                [(exampleSyn "SynB" 5 [], [exampleSyn "SynB" 5 [], exampleSyn "SynA" 5 []]),
                 (exampleSyn "SynV" 5 [{ snippet := "Constant", params := [] }],
                  [exampleSyn "SynV" 5 [{ snippet := "Constant", params := [] }]])] },
            [(exampleSyn "SynA" 5 [], "Merged0_Target"),
             (exampleSyn "SynB" 5 [], "Merged0_Target")]) ∧
    ∃ ng' calls,
      exampleInitialisedTargetGroup.mergeIncomingPSM
          SynapseGroupInternal.canPSBeLinearlyCombined true = some (ng', calls) ∧
      ∀ sg ∈ exampleInitialisedTargetGroup.getInSyn, sg.psVarInitialisers ≠ [] →
        (∃ e ∈ ng'.getMergedInSyn, sg ∈ e.2) ∧
        (∀ e ∈ ng'.getMergedInSyn, sg ∈ e.2 → e.2 = [sg]) :=
  ⟨by decide,
    mergeIncomingPSM_initialised_alone exampleInitialisedTargetGroup
      (fun e he => absurd he (List.not_mem_nil e))⟩

end NeuronGroup
/-! ## Repeated merging -/

/-- The outer loop appends to the state it starts from: what it appends is what it builds
from an empty state, and does not depend on the entries and calls already there. -/
theorem mergeIncomingPSMLoop_append
    (canPSBeLinearlyCombined : SynapseGroupInternal → SynapseGroupInternal → Bool)
    (groupName : String) (merge : Bool) (fuel i : Nat) (inSyn : List SynapseGroupInternal)
    (st : MergeState) :
    mergeIncomingPSMLoop canPSBeLinearlyCombined groupName merge fuel i inSyn st =
      (mergeIncomingPSMLoop canPSBeLinearlyCombined groupName merge fuel i inSyn
        { m_MergedInSyn := [], calls := [] }).map (fun r => st.extend r) := by
  induction fuel generalizing i inSyn st with
  | zero =>
    unfold mergeIncomingPSMLoop
    split <;> simp [MergeState.extend]
  | succ fuel ih =>
    rcases List.eq_nil_or_concat inSyn with hnil | ⟨ys, a, hcat⟩
    · subst hnil
      simp [mergeIncomingPSMLoop, MergeState.extend]
    · rw [List.concat_eq_append] at hcat
      subst hcat
      simp only [mergeIncomingPSMLoop, List.getLast?_concat, List.dropLast_concat,
        List.nil_append]
      split
      · rw [ih _ _ { st with m_MergedInSyn := st.m_MergedInSyn ++ [(a, [a])] },
          ih _ _ { m_MergedInSyn := [(a, [a])], calls := [] }, Option.map_map]
        congr 1
        funext r
        simp [MergeState.extend]
      · split
        · rw [ih _ _ { st with m_MergedInSyn := st.m_MergedInSyn ++ [(a, [a])] },
            ih _ _ { m_MergedInSyn := [(a, [a])], calls := [] }, Option.map_map]
          congr 1
          funext r
          simp [MergeState.extend]
        · rw [ih _ _ { m_MergedInSyn := st.m_MergedInSyn ++ _, calls := st.calls ++ _ ++ _ },
            ih _ _ { m_MergedInSyn := [_], calls := _ ++ _ }, Option.map_map]
          congr 1
          funext r
          simp [MergeState.extend]

namespace NeuronGroup

/-- **C14 (as stated, refuted).** On the example group with three incoming synapse groups
and an empty merged incoming list, the first call of `mergeIncomingPSM(false)` leaves three
entries and the second call leaves six. -/
theorem mergeIncomingPSM_twice_counterexample :
    (exampleTargetGroup.mergeIncomingPSM SynapseGroupInternal.canPSBeLinearlyCombined false
      ).map (fun r => r.1.getMergedInSyn.length) = some 3 ∧
    (exampleTargetGroup.mergeIncomingPSMTwice SynapseGroupInternal.canPSBeLinearlyCombined false
      ).map (fun r => r.1.getMergedInSyn.length) = some 6 ∧
    (exampleTargetGroup.mergeIncomingPSMTwice SynapseGroupInternal.canPSBeLinearlyCombined false
      ).map (fun r => r.1.getMergedInSyn) ≠
    (exampleTargetGroup.mergeIncomingPSM SynapseGroupInternal.canPSBeLinearlyCombined false
      ).map (fun r => r.1.getMergedInSyn) := by
  decide

/-- **C14 (amended).** For every neuron group and either value of `merge`, a call of
`mergeIncomingPSM(merge)` returns and appends to the merged incoming list the entries it
builds from the incoming synapse groups; a second call appends the same entries once more,
so that the list is then its value after the first call followed by these entries; there
are no such entries exactly when the group has no incoming synapse group. -/
theorem mergeIncomingPSM_twice
    (canPSBeLinearlyCombined : SynapseGroupInternal → SynapseGroupInternal → Bool)
    (ng : NeuronGroup) (merge : Bool) :
    ∃ entries calls,
      ng.mergeIncomingPSM canPSBeLinearlyCombined merge =
        some ({ ng with m_MergedInSyn := ng.m_MergedInSyn ++ entries }, calls) ∧
      ng.mergeIncomingPSMTwice canPSBeLinearlyCombined merge =
        some ({ ng with m_MergedInSyn := (ng.m_MergedInSyn ++ entries) ++ entries }, calls) ∧
      (entries = [] ↔ ng.getInSyn = []) := by
  obtain ⟨r, hr, _, hcover, _⟩ := mergeIncomingPSMLoop_cover canPSBeLinearlyCombined
    ng.getName merge ng.getInSyn.length 0 ng.getInSyn
    { m_MergedInSyn := [], calls := [] } (Nat.le_refl _)
  have hfirst : ng.mergeIncomingPSM canPSBeLinearlyCombined merge =
      some ({ ng with m_MergedInSyn := ng.m_MergedInSyn ++ r.m_MergedInSyn }, r.calls) := by
    unfold mergeIncomingPSM
    rw [mergeIncomingPSMLoop_append, hr]
    simp [MergeState.extend]
  refine ⟨r.m_MergedInSyn, r.calls, hfirst, ?_, ?_⟩
  · unfold mergeIncomingPSMTwice
    rw [hfirst]
    simp only [Option.some_bind]
    unfold mergeIncomingPSM
    rw [mergeIncomingPSMLoop_append]
    simp only [getName, getInSyn] at hr ⊢
    rw [hr]
    simp [MergeState.extend]
  · constructor
    · intro hnone
      cases hin : ng.getInSyn with
      | nil => rfl
      | cons x xs =>
        obtain ⟨e, he, _⟩ := hcover x (by rw [hin]; exact List.mem_cons_self _ _)
        rw [hnone] at he
        cases he
    · intro hin
      rw [hin] at hr
      simp [mergeIncomingPSMLoop] at hr
      rw [← hr]

end NeuronGroup
/-! ## Derived parameters -/

namespace NeuronGroup

theorem foldl_push_back {α β : Type} (f : α → β) (xs : List α) (acc : List β) :
    xs.foldl (fun m d => m ++ [f d]) acc = acc ++ xs.map f := by
  induction xs generalizing acc with
  | nil => simp
  | cons x xs ih => simp [ih]

/-- What one call of `initDerivedParams` does to the derived parameters and the parameters. -/
theorem initDerivedParams_getDerivedParams (modelDerivedParams : NeuronModel → List DerivedParam)
    (varInitDerivedParams : VarInit → Double → VarInit) (ng : NeuronGroup) (dt : Double) :
    (ng.initDerivedParams modelDerivedParams varInitDerivedParams dt).getDerivedParams =
        ng.getDerivedParams ++
          (modelDerivedParams ng.getNeuronModel).map (fun d => d.func ng.getParams dt) ∧
    (ng.initDerivedParams modelDerivedParams varInitDerivedParams dt).getParams = ng.getParams ∧
    (ng.initDerivedParams modelDerivedParams varInitDerivedParams dt).getNeuronModel =
        ng.getNeuronModel := by
  refine ⟨?_, rfl, rfl⟩
  simp only [initDerivedParams, getDerivedParams, getParams]
  exact foldl_push_back _ _ _

/-- **C13 (as stated, refuted).** On the example group with a model that has one derived
parameter, `getDerivedParams()` has one entry after the first call of `initDerivedParams`
and two entries after the second call. -/
theorem initDerivedParams_twice_counterexample :
    (exampleGroup.initDerivedParams exampleDerivedParams exampleVarInitDerivedParams
        { bits := 3 }).getDerivedParams = [{ bits := 4626322717216342016 * 3 }] ∧
    ((exampleGroup.initDerivedParams exampleDerivedParams exampleVarInitDerivedParams
        { bits := 3 }).initDerivedParams exampleDerivedParams exampleVarInitDerivedParams
        { bits := 3 }).getDerivedParams =
      [{ bits := 4626322717216342016 * 3 }, { bits := 4626322717216342016 * 3 }] ∧
    ((exampleGroup.initDerivedParams exampleDerivedParams exampleVarInitDerivedParams
        { bits := 3 }).initDerivedParams exampleDerivedParams exampleVarInitDerivedParams
        { bits := 3 }).getDerivedParams ≠
      (exampleGroup.initDerivedParams exampleDerivedParams exampleVarInitDerivedParams
        { bits := 3 }).getDerivedParams := by
  decide

/-- **C13 (amended).** For every neuron group whose derived-parameter list is empty
beforehand and every timestep `dt`, after `initDerivedParams(dt)` `getDerivedParams()` is the
sequence with one entry per derived parameter of the neuron model whose `i`-th entry is
`derivedParams[i].func(params, dt)`; a second call appends that sequence once more. -/
theorem initDerivedParams_once_and_twice (modelDerivedParams : NeuronModel → List DerivedParam)
    (varInitDerivedParams : VarInit → Double → VarInit) (ng : NeuronGroup) (dt : Double)
    (hempty : ng.getDerivedParams = []) :
    (ng.initDerivedParams modelDerivedParams varInitDerivedParams dt).getDerivedParams =
        (modelDerivedParams ng.getNeuronModel).map (fun d => d.func ng.getParams dt) ∧
    ((ng.initDerivedParams modelDerivedParams varInitDerivedParams dt).initDerivedParams
        modelDerivedParams varInitDerivedParams dt).getDerivedParams =
      (modelDerivedParams ng.getNeuronModel).map (fun d => d.func ng.getParams dt) ++
        (modelDerivedParams ng.getNeuronModel).map (fun d => d.func ng.getParams dt) := by
  have h1 := initDerivedParams_getDerivedParams modelDerivedParams varInitDerivedParams ng dt
  have h2 := initDerivedParams_getDerivedParams modelDerivedParams varInitDerivedParams
    (ng.initDerivedParams modelDerivedParams varInitDerivedParams dt) dt
  rw [h1.2.1, h1.2.2, h1.1, hempty, List.nil_append] at h2
  rw [h1.1, hempty, List.nil_append]
  exact ⟨rfl, h2.1⟩

/-- Witness of the amended C13: the example group, whose derived-parameter list is empty. -/
theorem initDerivedParams_once_and_twice_witness :
    (exampleGroup.initDerivedParams exampleDerivedParams exampleVarInitDerivedParams
        { bits := 3 }).getDerivedParams =
        (exampleDerivedParams exampleGroup.getNeuronModel).map
          (fun d => d.func exampleGroup.getParams { bits := 3 }) ∧
    ((exampleGroup.initDerivedParams exampleDerivedParams exampleVarInitDerivedParams
        { bits := 3 }).initDerivedParams exampleDerivedParams exampleVarInitDerivedParams
        { bits := 3 }).getDerivedParams =
      (exampleDerivedParams exampleGroup.getNeuronModel).map
          (fun d => d.func exampleGroup.getParams { bits := 3 }) ++
        (exampleDerivedParams exampleGroup.getNeuronModel).map
          (fun d => d.func exampleGroup.getParams { bits := 3 }) :=
  initDerivedParams_once_and_twice exampleDerivedParams exampleVarInitDerivedParams
    exampleGroup { bits := 3 } rfl

/-! ## Spike times -/

/-- **C15.** `isSpikeTimeRequired()` returns true if and only if the weight update model of
some incoming synapse group has `isPostSpikeTimeRequired()` or that of some outgoing
synapse group has `isPreSpikeTimeRequired()`; it is false for a group without synapse
groups. -/
theorem isSpikeTimeRequired_iff (ng : NeuronGroup) :
    (ng.isSpikeTimeRequired = true ↔
      (∃ sg ∈ ng.getInSyn, sg.wuModel.isPostSpikeTimeRequired = true) ∨
      (∃ sg ∈ ng.getOutSyn, sg.wuModel.isPreSpikeTimeRequired = true)) ∧
    ({ ng with m_InSyn := [], m_OutSyn := [] } : NeuronGroup).isSpikeTimeRequired = false := by
  constructor
  · unfold isSpikeTimeRequired
    split
    · rename_i h1
      exact ⟨fun _ => Or.inl (List.any_eq_true.mp h1), fun _ => rfl⟩
    · rename_i h1
      split
      · rename_i h2
        exact ⟨fun _ => Or.inr (List.any_eq_true.mp h2), fun _ => rfl⟩
      · rename_i h2
        constructor
        · intro h
          cases h
        · rintro (h | h)
          · exact absurd (List.any_eq_true.mpr h) h1
          · exact absurd (List.any_eq_true.mpr h) h2
  · rfl

end NeuronGroup
/-! ## Random number generators and locations -/

namespace NeuronGroup

/-- **C16.** `isSimRNGRequired()` returns true if and only if the RNG test holds for the sim
code, the threshold-condition code or the reset code of the neuron model, or some attached
current source reports `isSimRNGRequired()`, or the RNG test holds for the apply-input code
or the decay code of the postsynaptic model of some incoming synapse group. -/
theorem isSimRNGRequired_iff (isRNGRequired : String → Bool) (ng : NeuronGroup) :
    ng.isSimRNGRequired isRNGRequired = true ↔
      (isRNGRequired ng.getNeuronModel.simCode = true ∨
        isRNGRequired ng.getNeuronModel.thresholdConditionCode = true ∨
        isRNGRequired ng.getNeuronModel.resetCode = true) ∨
      (∃ cs ∈ ng.getCurrentSources, cs.isSimRNGRequired = true) ∨
      (∃ sg ∈ ng.getInSyn, isRNGRequired sg.psModel.applyInputCode = true ∨
        isRNGRequired sg.psModel.decayCode = true) := by
  unfold isSimRNGRequired
  split
  · rename_i h1
    simp only [Bool.or_eq_true] at h1
    refine ⟨fun _ => Or.inl ?_, fun _ => rfl⟩
    rcases h1 with (h | h) | h
    · exact Or.inl h
    · exact Or.inr (Or.inl h)
    · exact Or.inr (Or.inr h)
  · rename_i h1
    simp only [Bool.or_eq_true] at h1
    split
    · rename_i h2
      exact ⟨fun _ => Or.inr (Or.inl (List.any_eq_true.mp h2)), fun _ => rfl⟩
    · rename_i h2
      constructor
      · intro h3
        obtain ⟨sg, hsg, hcode⟩ := List.any_eq_true.mp h3
        simp only [Bool.or_eq_true] at hcode
        exact Or.inr (Or.inr ⟨sg, hsg, hcode⟩)
      · rintro ((h | h | h) | h | ⟨sg, hsg, hcode⟩)
        · exact absurd (Or.inl (Or.inl h)) h1
        · exact absurd (Or.inl (Or.inr h)) h1
        · exact absurd (Or.inr h) h1
        · exact absurd (List.any_eq_true.mpr h) h2
        · apply List.any_eq_true.mpr
          exact ⟨sg, hsg, by simpa only [Bool.or_eq_true] using hcode⟩

end NeuronGroup

theorem find_if_getElem? {α : Type} (p : α → Bool) (l : List α) (i : Nat)
    (h : find_if p l = some i) : ∃ y, l[i]? = some y ∧ p y = true := by
  induction l generalizing i with
  | nil => cases h
  | cons x xs ih =>
    unfold find_if at h
    split at h
    · rename_i hp
      cases h
      exact ⟨x, by simp, hp⟩
    · cases hf : find_if p xs with
      | none => rw [hf] at h; cases h
      | some j =>
        rw [hf] at h
        simp only [Option.map_some', Option.some.injEq] at h
        subst h
        obtain ⟨y, hy, hpy⟩ := ih j hf
        exact ⟨y, by simpa using hy, hpy⟩

theorem find_if_isSome {α : Type} (p : α → Bool) (l : List α) (h : ∃ y ∈ l, p y = true) :
    ∃ i, find_if p l = some i := by
  cases hf : find_if p l with
  | some i => exact ⟨i, rfl⟩
  | none =>
    obtain ⟨y, hy, hpy⟩ := h
    rw [find_if_none p l hf y hy] at hpy
    cases hpy

namespace NeuronGroup

/-- **C17.** For a group with one stored location per extra global parameter and a name
that one of the extra global parameters of its neuron model has,
`setExtraGlobalParamLocation(name, loc)` throws exactly when the parameter with that name
does not have a pointer type; when it throws the group, with all its stored locations, is
unchanged; when it does not throw the location at the index of that parameter becomes
`loc`, all other extra-global-parameter locations and all variable locations are
unchanged, and so is the rest of the group. -/
theorem setExtraGlobalParamLocation_spec (isTypePointer : String → Bool) (ng : NeuronGroup)
    (paramName : String) (loc : VarLocation)
    (hsize : ng.m_ExtraGlobalParamLocation.length = ng.getNeuronModel.extraGlobalParams.length)
    (hname : ∃ egp ∈ ng.getNeuronModel.extraGlobalParams, egp.name = paramName) :
    ∃ idx egp,
      ng.getNeuronModel.getExtraGlobalParamIndex paramName = some idx ∧
      ng.getNeuronModel.extraGlobalParams[idx]? = some egp ∧ egp.name = paramName ∧
      ((ng.setExtraGlobalParamLocation isTypePointer paramName loc).thrown.isSome = true ↔
        isTypePointer egp.type = false) ∧
      ((ng.setExtraGlobalParamLocation isTypePointer paramName loc).thrown.isSome = true →
        (ng.setExtraGlobalParamLocation isTypePointer paramName loc).group = ng) ∧
      ((ng.setExtraGlobalParamLocation isTypePointer paramName loc).thrown = none →
        (ng.setExtraGlobalParamLocation isTypePointer paramName loc).group =
            { ng with m_ExtraGlobalParamLocation :=
                        ng.m_ExtraGlobalParamLocation.set idx loc } ∧
        (ng.setExtraGlobalParamLocation isTypePointer paramName loc
          ).group.m_ExtraGlobalParamLocation[idx]? = some loc ∧
        (∀ j, j ≠ idx →
          (ng.setExtraGlobalParamLocation isTypePointer paramName loc
            ).group.m_ExtraGlobalParamLocation[j]? = ng.m_ExtraGlobalParamLocation[j]?) ∧
        (ng.setExtraGlobalParamLocation isTypePointer paramName loc).group.m_VarLocation =
          ng.m_VarLocation) := by
  obtain ⟨idx, hidx⟩ := find_if_isSome (fun egp : EGP => egp.name == paramName)
    ng.getNeuronModel.extraGlobalParams
    (by obtain ⟨egp, hegp, hn⟩ := hname; exact ⟨egp, hegp, by simp [hn]⟩)
  obtain ⟨egp, hget, hp⟩ := find_if_getElem? _ _ _ hidx
  have hlt : idx < ng.m_ExtraGlobalParamLocation.length := by
    rw [hsize]
    exact (List.getElem?_eq_some.mp hget).1
  refine ⟨idx, egp, hidx, hget, by simpa using hp, ?_⟩
  have hidx' : ng.getNeuronModel.getExtraGlobalParamIndex paramName = some idx := hidx
  unfold setExtraGlobalParamLocation
  simp only [hidx', hget]
  cases hptr : isTypePointer egp.type with
  | false => simp
  | true =>
    simp only [Bool.not_true, Bool.false_eq_true, if_false]
    refine ⟨by simp, by simp, fun _ => ⟨trivial, ?_, ?_, trivial⟩⟩
    · simp [List.getElem?_set, hlt]
    · intro j hj
      simp [List.getElem?_set, Ne.symm hj]

/-- Witness of C17: the second extra global parameter of the example model has a pointer
type, so its location can be set; the first one has not, so the call throws. -/
theorem setExtraGlobalParamLocation_spec_witness :
    (exampleGroup.setExtraGlobalParamLocation exampleIsTypePointer "spikeTimes" .DEVICE
      ).thrown = none ∧
    (exampleGroup.setExtraGlobalParamLocation exampleIsTypePointer "spikeTimes" .DEVICE
      ).group.m_ExtraGlobalParamLocation = [.HOST_AND_DEVICE, .DEVICE] ∧
    (exampleGroup.setExtraGlobalParamLocation exampleIsTypePointer "Vthresh" .DEVICE
      ).thrown.isSome = true ∧
    ∃ idx egp,
      exampleGroup.getNeuronModel.getExtraGlobalParamIndex "spikeTimes" = some idx ∧
      exampleGroup.getNeuronModel.extraGlobalParams[idx]? = some egp ∧
      egp.name = "spikeTimes" ∧
      ((exampleGroup.setExtraGlobalParamLocation exampleIsTypePointer "spikeTimes" .DEVICE
          ).thrown.isSome = true ↔ exampleIsTypePointer egp.type = false) ∧
      ((exampleGroup.setExtraGlobalParamLocation exampleIsTypePointer "spikeTimes" .DEVICE
          ).thrown.isSome = true →
        (exampleGroup.setExtraGlobalParamLocation exampleIsTypePointer "spikeTimes" .DEVICE
          ).group = exampleGroup) ∧
      ((exampleGroup.setExtraGlobalParamLocation exampleIsTypePointer "spikeTimes" .DEVICE
          ).thrown = none →
        (exampleGroup.setExtraGlobalParamLocation exampleIsTypePointer "spikeTimes" .DEVICE
          ).group =
            { exampleGroup with m_ExtraGlobalParamLocation :=
                        exampleGroup.m_ExtraGlobalParamLocation.set idx .DEVICE } ∧
        (exampleGroup.setExtraGlobalParamLocation exampleIsTypePointer "spikeTimes" .DEVICE
          ).group.m_ExtraGlobalParamLocation[idx]? = some .DEVICE ∧
        (∀ j, j ≠ idx →
          (exampleGroup.setExtraGlobalParamLocation exampleIsTypePointer "spikeTimes" .DEVICE
            ).group.m_ExtraGlobalParamLocation[j]? =
              exampleGroup.m_ExtraGlobalParamLocation[j]?) ∧
        (exampleGroup.setExtraGlobalParamLocation exampleIsTypePointer "spikeTimes" .DEVICE
          ).group.m_VarLocation = exampleGroup.m_VarLocation) :=
  ⟨by decide, by decide, by decide,
    setExtraGlobalParamLocation_spec exampleIsTypePointer exampleGroup "spikeTimes" .DEVICE
      (by decide) ⟨{ name := "spikeTimes", type := "scalar*" }, by decide, rfl⟩⟩

end NeuronGroup
/-! ## The init emitter: spike counts, spike times and the queue pointer -/

theorem genInitSpikes_eq (layer : SubstitutionLayer) (backend : Backend)
    (popSubs : Substitutions) (ng : NeuronInitGroupMerged) (spikeEvent : Bool) (id : String)
    (hid : layer.getVarSubstitution
      (backend.genVariableInitSubs popSubs "group->numNeurons" "id") "id" = some id) :
    ∃ out, genInitSpikes layer backend popSubs ng spikeEvent = some out ∧
      ∀ x ∈ out, ∃ body, x = Code.genVariableInit "group->numNeurons" "id" body ∧
        (ng.getArchetype.isDelayRequired = false → ∃ text, body = [Code.line text]) := by
  unfold genInitSpikes
  by_cases hreq : (if spikeEvent = true then ng.getArchetype.isSpikeEventRequired else true)
      = true
  · simp only [hreq, if_true, hid, Option.bind_eq_bind, Option.some_bind, Option.pure_def]
    refine ⟨_, rfl, ?_⟩
    intro x hx
    simp only [List.mem_singleton] at hx
    refine ⟨_, hx, ?_⟩
    intro hdelay
    cases spikeEvent <;> simp [hdelay]
  · simp only [hreq, Bool.false_eq_true, if_false, Option.pure_def]
    exact ⟨[], rfl, by simp⟩

theorem genInitSpikeTime_eq (layer : SubstitutionLayer) (backend : Backend)
    (popSubs : Substitutions) (ng : NeuronInitGroupMerged) (varName id : String)
    (hid : layer.getVarSubstitution
      (backend.genVariableInitSubs popSubs "group->numNeurons" "id") "id" = some id) :
    genInitSpikeTime layer backend popSubs ng varName =
      some [Code.genVariableInit "group->numNeurons" "id"
        (if ng.getArchetype.isDelayRequired = true then
          [Code.scope
            ("for (unsigned int d = 0; d < " ++ toString ng.getArchetype.getNumDelaySlots
              ++ "; d++)")
            [Code.line ("group->" ++ varName ++ "[(d * group->numNeurons) + " ++ id
              ++ "] = -TIME_MAX;")]]
        else
          [Code.line ("group->" ++ varName ++ "[" ++ id ++ "] = -TIME_MAX;")])] := by
  unfold genInitSpikeTime
  simp only [hid, Option.bind_eq_bind, Option.some_bind, Option.pure_def]
theorem genInitSpikeCount_false (ng : NeuronInitGroupMerged) :
    genInitSpikeCount ng false =
      [Code.genPopVariableInit
        (if ng.getArchetype.isTrueSpikeRequired = true ∧ ng.getArchetype.isDelayRequired = true
        then
          [Code.scope
            ("for (unsigned int d = 0; d < " ++ toString ng.getArchetype.getNumDelaySlots
              ++ "; d++)")
            [Code.line "group->spkCnt[d] = 0;"]]
        else [Code.line "group->spkCnt[0] = 0;"])] := by
  unfold genInitSpikeCount
  simp only [Bool.false_eq_true, if_false, if_true, Bool.and_eq_true]
  rfl

theorem genInitSpikeCount_true (ng : NeuronInitGroupMerged) :
    genInitSpikeCount ng true =
      (if ng.getArchetype.isSpikeEventRequired = true then
        [Code.genPopVariableInit
          (if ng.getArchetype.isDelayRequired = true then
            [Code.scope
              ("for (unsigned int d = 0; d < " ++ toString ng.getArchetype.getNumDelaySlots
                ++ "; d++)")
              [Code.line "group->spkCntEvnt[d] = 0;"]]
          else [Code.line "group->spkCntEvnt[0] = 0;"])]
      else []) := by
  unfold genInitSpikeCount
  simp only [if_true]
  split
  · rfl
  · rfl

theorem genInitSpikeCount_mem (ng : NeuronInitGroupMerged) (spikeEvent : Bool) :
    ∀ x ∈ genInitSpikeCount ng spikeEvent,
      ∃ body, x = Code.genPopVariableInit body ∧
        body ≠ [Code.line "*group->spkQuePtr = 0;"] := by
  intro x hx
  cases spikeEvent
  · rw [genInitSpikeCount_false] at hx
    simp only [List.mem_singleton] at hx
    refine ⟨_, hx, ?_⟩
    split
    · simp
    · simp only [ne_eq, List.cons.injEq, Code.line.injEq, and_true]
      decide
  · rw [genInitSpikeCount_true] at hx
    split at hx
    · simp only [List.mem_singleton] at hx
      refine ⟨_, hx, ?_⟩
      split
      · simp
      · simp only [ne_eq, List.cons.injEq, Code.line.injEq, and_true]
        decide
    · cases hx

/-- **C18.** `genInitSpikeCount` emits the zeroing of `spkCnt` always and that of
`spkCntEvnt` if and only if the archetype requires spike events; the emitted code zeroes
every slot `d` below the number of delay slots when delay is required for the counted kind
(for `spkCnt`: true spikes required and delay required; for `spkCntEvnt`: delay required)
and slot 0 only otherwise.  The neuron init handler starts with these two pieces. -/
theorem genInitSpikeCount_spec (ng : NeuronInitGroupMerged) :
    genInitSpikeCount ng false =
      [Code.genPopVariableInit
        (if ng.getArchetype.isTrueSpikeRequired = true ∧ ng.getArchetype.isDelayRequired = true
        then
          [Code.scope
            ("for (unsigned int d = 0; d < " ++ toString ng.getArchetype.getNumDelaySlots
              ++ "; d++)")
            [Code.line "group->spkCnt[d] = 0;"]]
        else [Code.line "group->spkCnt[0] = 0;"])] ∧
    genInitSpikeCount ng true =
      (if ng.getArchetype.isSpikeEventRequired = true then
        [Code.genPopVariableInit
          (if ng.getArchetype.isDelayRequired = true then
            [Code.scope
              ("for (unsigned int d = 0; d < " ++ toString ng.getArchetype.getNumDelaySlots
                ++ "; d++)")
              [Code.line "group->spkCntEvnt[d] = 0;"]]
          else [Code.line "group->spkCntEvnt[0] = 0;"])]
      else []) ∧
    ∀ (layer : SubstitutionLayer) (backend : Backend)
      (isPrevSpikeTimeRequired isSpikeEventTimeRequired isPrevSpikeEventTimeRequired :
        NeuronGroup → Bool) (popSubs : Substitutions),
      ∃ rest : Option (List Code),
        neuronInitHandlerHead layer backend isPrevSpikeTimeRequired isSpikeEventTimeRequired
            isPrevSpikeEventTimeRequired ng popSubs =
          rest.map (fun r => genInitSpikeCount ng false ++ genInitSpikeCount ng true ++ r) := by
  refine ⟨genInitSpikeCount_false ng, genInitSpikeCount_true ng, ?_⟩
  intro layer backend q1 q2 q3 popSubs
  refine ⟨(do
    let spikes ← genInitSpikes layer backend popSubs ng false
    let spikeEvents ← genInitSpikes layer backend popSubs ng true
    let sT ←
      (if ng.getArchetype.isSpikeTimeRequired then
        genInitSpikeTime layer backend popSubs ng "sT"
      else pure [])
    let prevST ←
      (if q1 ng.getArchetype then genInitSpikeTime layer backend popSubs ng "prevST"
      else pure [])
    let seT ←
      (if q2 ng.getArchetype then genInitSpikeTime layer backend popSubs ng "seT"
      else pure [])
    let prevSET ←
      (if q3 ng.getArchetype then genInitSpikeTime layer backend popSubs ng "prevSET"
      else pure [])
    pure (spikes ++ spikeEvents ++ sT ++ prevST ++ seT ++ prevSET ++
      (if ng.getArchetype.isDelayRequired then [spkQuePtrInit] else []))), ?_⟩
  unfold neuronInitHandlerHead
  generalize genInitSpikes layer backend popSubs ng false = o1
  generalize genInitSpikes layer backend popSubs ng true = o2
  generalize (if ng.getArchetype.isSpikeTimeRequired = true then
      genInitSpikeTime layer backend popSubs ng "sT" else pure []) = o3
  generalize (if q1 ng.getArchetype = true then
      genInitSpikeTime layer backend popSubs ng "prevST" else pure []) = o4
  generalize (if q2 ng.getArchetype = true then
      genInitSpikeTime layer backend popSubs ng "seT" else pure []) = o5
  generalize (if q3 ng.getArchetype = true then
      genInitSpikeTime layer backend popSubs ng "prevSET" else pure []) = o6
  generalize genInitSpikeCount ng false = c1
  generalize genInitSpikeCount ng true = c2
  cases o1 with
  | none => rfl
  | some s1 =>
  cases o2 with
  | none => rfl
  | some s2 =>
  cases o3 with
  | none => rfl
  | some s3 =>
  cases o4 with
  | none => rfl
  | some s4 =>
  cases o5 with
  | none => rfl
  | some s5 =>
  cases o6 with
  | none => rfl
  | some s6 =>
    simp only [Option.bind_eq_bind, Option.some_bind, Option.pure_def, Option.map_some',
      List.append_assoc]
theorem genInitSpikeTime_eq_spikeTimeInit (layer : SubstitutionLayer) (backend : Backend)
    (popSubs : Substitutions) (ng : NeuronInitGroupMerged) (varName id : String)
    (hid : layer.getVarSubstitution
      (backend.genVariableInitSubs popSubs "group->numNeurons" "id") "id" = some id) :
    genInitSpikeTime layer backend popSubs ng varName =
      some [spikeTimeInit ng.getArchetype.isDelayRequired ng.getArchetype.getNumDelaySlots
        varName id] :=
  genInitSpikeTime_eq layer backend popSubs ng varName id hid

/-- The output of the head of the neuron init handler when the lookup of `id` succeeds. -/
theorem neuronInitHandlerHead_eq (layer : SubstitutionLayer) (backend : Backend)
    (q1 q2 q3 : NeuronGroup → Bool) (ng : NeuronInitGroupMerged) (popSubs : Substitutions)
    (id : String)
    (hid : layer.getVarSubstitution
      (backend.genVariableInitSubs popSubs "group->numNeurons" "id") "id" = some id) :
    ∃ spikes spikeEvents,
      genInitSpikes layer backend popSubs ng false = some spikes ∧
      genInitSpikes layer backend popSubs ng true = some spikeEvents ∧
      neuronInitHandlerHead layer backend q1 q2 q3 ng popSubs =
        some (genInitSpikeCount ng false ++ genInitSpikeCount ng true ++ spikes ++ spikeEvents
          ++ (if ng.getArchetype.isSpikeTimeRequired = true then
                [spikeTimeInit ng.getArchetype.isDelayRequired
                  ng.getArchetype.getNumDelaySlots "sT" id] else [])
          ++ (if q1 ng.getArchetype = true then
                [spikeTimeInit ng.getArchetype.isDelayRequired
                  ng.getArchetype.getNumDelaySlots "prevST" id] else [])
          ++ (if q2 ng.getArchetype = true then
                [spikeTimeInit ng.getArchetype.isDelayRequired
                  ng.getArchetype.getNumDelaySlots "seT" id] else [])
          ++ (if q3 ng.getArchetype = true then
                [spikeTimeInit ng.getArchetype.isDelayRequired
                  ng.getArchetype.getNumDelaySlots "prevSET" id] else [])
          ++ (if ng.getArchetype.isDelayRequired = true then [spkQuePtrInit] else [])) := by
  obtain ⟨spikes, hspikes, _⟩ := genInitSpikes_eq layer backend popSubs ng false id hid
  obtain ⟨spikeEvents, hspikeEvents, _⟩ := genInitSpikes_eq layer backend popSubs ng true id hid
  refine ⟨spikes, spikeEvents, hspikes, hspikeEvents, ?_⟩
  have htime : ∀ (c : Bool) (varName : String),
      (if c = true then genInitSpikeTime layer backend popSubs ng varName else some []) =
        some (if c = true then
          [spikeTimeInit ng.getArchetype.isDelayRequired ng.getArchetype.getNumDelaySlots
            varName id] else []) := by
    intro c varName
    cases c
    · rfl
    · simp only [if_true]
      exact genInitSpikeTime_eq_spikeTimeInit layer backend popSubs ng varName id hid
  unfold neuronInitHandlerHead
  simp only [hspikes, hspikeEvents, Option.bind_eq_bind, Option.some_bind, Option.pure_def]
  simp only [htime, Option.some_bind]

/-- **C19.** When the backend binds the element index to the text `id`, the head of the
neuron init handler returns, and in what it emits: the statement that zeroes `spkQuePtr` is
present exactly when the archetype requires delay; if the archetype requires spike times and
delay, there is, for each element, the assignment of `-TIME_MAX` to `sT` at index
`(d * numNeurons) + id` in a loop over all `d` below the number of delay slots; if it
requires spike times and no delay, the assignment is at index `id`; and without delay every
per-element piece is a single statement, without a loop over delay slots. -/
theorem neuronInitHandlerHead_spike_times (layer : SubstitutionLayer) (backend : Backend)
    (isPrevSpikeTimeRequired isSpikeEventTimeRequired isPrevSpikeEventTimeRequired :
      NeuronGroup → Bool)
    (ng : NeuronInitGroupMerged) (popSubs : Substitutions) (id : String)
    (hid : layer.getVarSubstitution
      (backend.genVariableInitSubs popSubs "group->numNeurons" "id") "id" = some id) :
    ∃ out,
      neuronInitHandlerHead layer backend isPrevSpikeTimeRequired isSpikeEventTimeRequired
        isPrevSpikeEventTimeRequired ng popSubs = some out ∧
      (Code.genPopVariableInit [Code.line "*group->spkQuePtr = 0;"] ∈ out ↔
        ng.getArchetype.isDelayRequired = true) ∧
      (ng.getArchetype.isSpikeTimeRequired = true → ng.getArchetype.isDelayRequired = true →
        Code.genVariableInit "group->numNeurons" "id"
          [Code.scope
            ("for (unsigned int d = 0; d < " ++ toString ng.getArchetype.getNumDelaySlots
              ++ "; d++)")
            [Code.line ("group->" ++ "sT" ++ "[(d * group->numNeurons) + " ++ id
              ++ "] = -TIME_MAX;")]] ∈ out) ∧
      (ng.getArchetype.isSpikeTimeRequired = true → ng.getArchetype.isDelayRequired = false →
        Code.genVariableInit "group->numNeurons" "id"
          [Code.line ("group->" ++ "sT" ++ "[" ++ id ++ "] = -TIME_MAX;")] ∈ out) ∧
      (ng.getArchetype.isDelayRequired = false →
        ∀ count indexVarName body, Code.genVariableInit count indexVarName body ∈ out →
          ∃ text, body = [Code.line text]) := by
  obtain ⟨spikes, spikeEvents, hspikes, hspikeEvents, hout⟩ := neuronInitHandlerHead_eq layer
    backend isPrevSpikeTimeRequired isSpikeEventTimeRequired isPrevSpikeEventTimeRequired ng
    popSubs id hid
  obtain ⟨s1, hs1, hmem1⟩ := genInitSpikes_eq layer backend popSubs ng false id hid
  obtain ⟨s2, hs2, hmem2⟩ := genInitSpikes_eq layer backend popSubs ng true id hid
  have e1 : s1 = spikes := Option.some.inj (hs1.symm.trans hspikes)
  have e2 : s2 = spikeEvents := Option.some.inj (hs2.symm.trans hspikeEvents)
  subst e1 e2
  refine ⟨_, hout, ?_, ?_, ?_, ?_⟩
  · constructor
    · intro hmem
      simp only [List.mem_append] at hmem
      rcases hmem with (((((((h | h) | h) | h) | h) | h) | h) | h) | h
      · obtain ⟨body, hx, hne⟩ := genInitSpikeCount_mem ng false _ h
        exact absurd (Code.genPopVariableInit.inj hx).symm hne
      · obtain ⟨body, hx, hne⟩ := genInitSpikeCount_mem ng true _ h
        exact absurd (Code.genPopVariableInit.inj hx).symm hne
      · obtain ⟨body, hx, _⟩ := hmem1 _ h
        cases hx
      · obtain ⟨body, hx, _⟩ := hmem2 _ h
        cases hx
      · split at h
        · simp only [List.mem_singleton, spikeTimeInit] at h
          cases h
        · cases h
      · split at h
        · simp only [List.mem_singleton, spikeTimeInit] at h
          cases h
        · cases h
      · split at h
        · simp only [List.mem_singleton, spikeTimeInit] at h
          cases h
        · cases h
      · split at h
        · simp only [List.mem_singleton, spikeTimeInit] at h
          cases h
        · cases h
      · split at h
        · assumption
        · cases h
    · intro hdelay
      apply List.mem_append_right
      rw [if_pos hdelay]
      exact List.mem_singleton.mpr rfl
  · intro hst hdelay
    apply List.mem_append_left
    apply List.mem_append_left
    apply List.mem_append_left
    apply List.mem_append_left
    apply List.mem_append_right
    rw [if_pos hst, hdelay]
    exact List.mem_singleton.mpr rfl
  · intro hst hdelay
    apply List.mem_append_left
    apply List.mem_append_left
    apply List.mem_append_left
    apply List.mem_append_left
    apply List.mem_append_right
    rw [if_pos hst, hdelay]
    exact List.mem_singleton.mpr rfl
  · intro hdelay count indexVarName body hmem
    simp only [List.mem_append] at hmem
    rcases hmem with (((((((h | h) | h) | h) | h) | h) | h) | h) | h
    · obtain ⟨b, hx, _⟩ := genInitSpikeCount_mem ng false _ h
      cases hx
    · obtain ⟨b, hx, _⟩ := genInitSpikeCount_mem ng true _ h
      cases hx
    · obtain ⟨b, hx, hb⟩ := hmem1 _ h
      obtain ⟨text, ht⟩ := hb hdelay
      cases hx
      exact ⟨text, ht⟩
    · obtain ⟨b, hx, hb⟩ := hmem2 _ h
      obtain ⟨text, ht⟩ := hb hdelay
      cases hx
      exact ⟨text, ht⟩
    · split at h
      · simp only [List.mem_singleton, spikeTimeInit, hdelay, Bool.false_eq_true, if_false,
          Code.genVariableInit.injEq] at h
        exact ⟨_, h.2.2⟩
      · cases h
    · split at h
      · simp only [List.mem_singleton, spikeTimeInit, hdelay, Bool.false_eq_true, if_false,
          Code.genVariableInit.injEq] at h
        exact ⟨_, h.2.2⟩
      · cases h
    · split at h
      · simp only [List.mem_singleton, spikeTimeInit, hdelay, Bool.false_eq_true, if_false,
          Code.genVariableInit.injEq] at h
        exact ⟨_, h.2.2⟩
      · cases h
    · split at h
      · simp only [List.mem_singleton, spikeTimeInit, hdelay, Bool.false_eq_true, if_false,
          Code.genVariableInit.injEq] at h
        exact ⟨_, h.2.2⟩
      · cases h
    · rw [hdelay] at h
      simp only [Bool.false_eq_true, if_false] at h
      cases h
/-! ## The init emitter: neuron variables -/

/-- The loop of `genInitNeuronVarCode` visits the variables in order, each with its index:
what it emits is what it emits for the variables before `var`, then for `var`, then for the
variables after it. -/
theorem genInitNeuronVarCodeLoop_append (layer : SubstitutionLayer) (backend : Backend)
    (popSubs : Substitutions) (fieldSuffix count : String) (numDelaySlots groupIndex : Nat)
    (ftype : String) (getVarInitialiser : Nat → Option VarInit)
    (isVarQueueRequired : Nat → Bool)
    (isParamHeterogeneousFn isDerivedParamHeterogeneousFn : Nat → Nat → Bool)
    (k : Nat) (before : List Var) (var : Var) (after : List Var) :
    genInitNeuronVarCodeLoop layer backend popSubs fieldSuffix count numDelaySlots groupIndex
        ftype getVarInitialiser isVarQueueRequired isParamHeterogeneousFn
        isDerivedParamHeterogeneousFn k (before ++ var :: after) =
      (genInitNeuronVarCodeLoop layer backend popSubs fieldSuffix count numDelaySlots
        groupIndex ftype getVarInitialiser isVarQueueRequired isParamHeterogeneousFn
        isDerivedParamHeterogeneousFn k before).bind (fun a =>
      (genInitNeuronVarCodeVar layer backend popSubs fieldSuffix count numDelaySlots
        groupIndex ftype getVarInitialiser isVarQueueRequired isParamHeterogeneousFn
        isDerivedParamHeterogeneousFn (k + before.length) var).bind (fun e =>
      (genInitNeuronVarCodeLoop layer backend popSubs fieldSuffix count numDelaySlots
        groupIndex ftype getVarInitialiser isVarQueueRequired isParamHeterogeneousFn
        isDerivedParamHeterogeneousFn (k + before.length + 1) after).map
          (fun b => a ++ e ++ b))) := by
  induction before generalizing k with
  | nil =>
    simp only [List.nil_append, genInitNeuronVarCodeLoop, List.length_nil, Nat.add_zero,
      Option.some_bind, Option.bind_eq_bind, Option.pure_def]
    cases genInitNeuronVarCodeVar layer backend popSubs fieldSuffix count numDelaySlots
        groupIndex ftype getVarInitialiser isVarQueueRequired isParamHeterogeneousFn
        isDerivedParamHeterogeneousFn k var with
    | none => rfl
    | some e =>
      cases genInitNeuronVarCodeLoop layer backend popSubs fieldSuffix count numDelaySlots
          groupIndex ftype getVarInitialiser isVarQueueRequired isParamHeterogeneousFn
          isDerivedParamHeterogeneousFn (k + 1) after with
      | none => rfl
      | some b => rfl
  | cons x xs ih =>
    have hk : k + 1 + xs.length = k + (xs.length + 1) := by omega
    rw [List.cons_append]
    simp only [genInitNeuronVarCodeLoop, List.length_cons, Option.bind_eq_bind,
      Option.pure_def]
    rw [ih (k + 1), hk]
    cases genInitNeuronVarCodeVar layer backend popSubs fieldSuffix count numDelaySlots
        groupIndex ftype getVarInitialiser isVarQueueRequired isParamHeterogeneousFn
        isDerivedParamHeterogeneousFn k x with
    | none => rfl
    | some e0 =>
      cases genInitNeuronVarCodeLoop layer backend popSubs fieldSuffix count numDelaySlots
          groupIndex ftype getVarInitialiser isVarQueueRequired isParamHeterogeneousFn
          isDerivedParamHeterogeneousFn (k + 1) xs with
      | none => rfl
      | some a =>
        cases genInitNeuronVarCodeVar layer backend popSubs fieldSuffix count numDelaySlots
            groupIndex ftype getVarInitialiser isVarQueueRequired isParamHeterogeneousFn
            isDerivedParamHeterogeneousFn (k + (xs.length + 1)) var with
        | none => rfl
        | some e =>
          cases genInitNeuronVarCodeLoop layer backend popSubs fieldSuffix count
              numDelaySlots groupIndex ftype getVarInitialiser isVarQueueRequired
              isParamHeterogeneousFn isDerivedParamHeterogeneousFn
              (k + (xs.length + 1) + 1) after with
          | none => rfl
          | some b =>
            simp only [Option.some_bind, Option.map_some', List.append_assoc]

/-- **C20.** In `genInitNeuronVarCode`, for the variable `var` at index `k` with initialiser
`varInit`: nothing is emitted when the code of the initialiser is empty; otherwise, if the
variable is queue-required, a local `initVal` is declared, the code is applied in the scope
that binds `$(value)` to `initVal`, and `initVal` is stored at index `(d * count) + id` in a
loop over all `d` below `numDelaySlots`; if it is not queue-required, the code is applied in
the scope that binds `$(value)` to the array element at index `id`, and no loop is emitted.
The variables are visited in order, each with its index, and the overload without a queue
predicate runs the same loop with a predicate that is false everywhere. -/
theorem genInitNeuronVarCodeVar_spec (layer : SubstitutionLayer) (backend : Backend)
    (popSubs : Substitutions) (fieldSuffix countMember : String)
    (numDelaySlots groupIndex : Nat) (ftype : String)
    (getVarInitialiser : Nat → Option VarInit) (isVarQueueRequired : Nat → Bool)
    (isParamHeterogeneousFn isDerivedParamHeterogeneousFn : Nat → Nat → Bool)
    (k : Nat) (var : Var) (varInit : VarInit) (hinit : getVarInitialiser k = some varInit) :
    (varInit.code.isEmpty = true →
      genInitNeuronVarCodeVar layer backend popSubs fieldSuffix ("group->" ++ countMember)
        numDelaySlots groupIndex ftype getVarInitialiser isVarQueueRequired
        isParamHeterogeneousFn isDerivedParamHeterogeneousFn k var = some []) ∧
    (varInit.code.isEmpty = false → isVarQueueRequired k = true →
      ∀ code id,
        layer.applyCheckUnreplaced
          (Substitution.addVarSubstitution "value" "initVal" ::
            initVarSubs backend popSubs var fieldSuffix ("group->" ++ countMember) varInit
              isParamHeterogeneousFn isDerivedParamHeterogeneousFn k)
          varInit.code ("initVar : " ++ var.name ++ "merged" ++ toString groupIndex)
          = some code →
        layer.getVarSubstitution
          (Substitution.addVarSubstitution "value" "initVal" ::
            initVarSubs backend popSubs var fieldSuffix ("group->" ++ countMember) varInit
              isParamHeterogeneousFn isDerivedParamHeterogeneousFn k) "id" = some id →
        genInitNeuronVarCodeVar layer backend popSubs fieldSuffix ("group->" ++ countMember)
          numDelaySlots groupIndex ftype getVarInitialiser isVarQueueRequired
          isParamHeterogeneousFn isDerivedParamHeterogeneousFn k var =
        some [Code.scope "" [Code.genVariableInit ("group->" ++ countMember) "id"
          [Code.line (var.type ++ " initVal;"),
           Code.line (layer.ensureFtype code ftype),
           Code.scope ("for (unsigned int d = 0; d < " ++ toString numDelaySlots ++ "; d++)")
             [Code.line ("group->" ++ var.name ++ fieldSuffix ++ "[(d * "
               ++ ("group->" ++ countMember) ++ ") + " ++ id ++ "] = initVal;")]]]]) ∧
    (varInit.code.isEmpty = false → isVarQueueRequired k = false →
      ∀ code id,
        layer.getVarSubstitution
          (initVarSubs backend popSubs var fieldSuffix ("group->" ++ countMember) varInit
            isParamHeterogeneousFn isDerivedParamHeterogeneousFn k) "id" = some id →
        layer.applyCheckUnreplaced
          (Substitution.addVarSubstitution "value"
              ("group->" ++ var.name ++ fieldSuffix ++ "[" ++ id ++ "]") ::
            initVarSubs backend popSubs var fieldSuffix ("group->" ++ countMember) varInit
              isParamHeterogeneousFn isDerivedParamHeterogeneousFn k)
          varInit.code ("initVar : " ++ var.name ++ "merged" ++ toString groupIndex)
          = some code →
        genInitNeuronVarCodeVar layer backend popSubs fieldSuffix ("group->" ++ countMember)
          numDelaySlots groupIndex ftype getVarInitialiser isVarQueueRequired
          isParamHeterogeneousFn isDerivedParamHeterogeneousFn k var =
        some [Code.scope "" [Code.genVariableInit ("group->" ++ countMember) "id"
          [Code.line (layer.ensureFtype code ftype)]]]) ∧
    (∀ before after : List Var, k = before.length →
      genInitNeuronVarCode layer backend popSubs (before ++ var :: after) fieldSuffix
          countMember numDelaySlots groupIndex ftype getVarInitialiser isVarQueueRequired
          isParamHeterogeneousFn isDerivedParamHeterogeneousFn =
        (genInitNeuronVarCodeLoop layer backend popSubs fieldSuffix ("group->" ++ countMember)
          numDelaySlots groupIndex ftype getVarInitialiser isVarQueueRequired
          isParamHeterogeneousFn isDerivedParamHeterogeneousFn 0 before).bind (fun a =>
        (genInitNeuronVarCodeVar layer backend popSubs fieldSuffix ("group->" ++ countMember)
          numDelaySlots groupIndex ftype getVarInitialiser isVarQueueRequired
          isParamHeterogeneousFn isDerivedParamHeterogeneousFn k var).bind (fun e =>
        (genInitNeuronVarCodeLoop layer backend popSubs fieldSuffix ("group->" ++ countMember)
          numDelaySlots groupIndex ftype getVarInitialiser isVarQueueRequired
          isParamHeterogeneousFn isDerivedParamHeterogeneousFn (k + 1) after).map
            (fun b => a ++ e ++ b)))) ∧
    (∀ vars : List Var,
      genInitNeuronVarCodeNoQueue layer backend popSubs vars fieldSuffix countMember
          groupIndex ftype getVarInitialiser isParamHeterogeneousFn
          isDerivedParamHeterogeneousFn =
        genInitNeuronVarCodeLoop layer backend popSubs fieldSuffix ("group->" ++ countMember)
          0 groupIndex ftype getVarInitialiser (fun _ => false) isParamHeterogeneousFn
          isDerivedParamHeterogeneousFn 0 vars) := by
  refine ⟨?_, ?_, ?_, ?_, fun _ => rfl⟩
  · intro hempty
    unfold genInitNeuronVarCodeVar
    simp only [hinit, hempty, Option.bind_eq_bind, Option.some_bind, Bool.not_true,
      Bool.false_eq_true, if_false, Option.pure_def]
  · intro hcode hqueue code id happly hid
    unfold genInitNeuronVarCodeVar
    simp only [hinit, hcode, hqueue, happly, hid, Option.bind_eq_bind, Option.some_bind,
      Bool.not_false, if_true, Option.pure_def]
  · intro hcode hqueue code id hid happly
    unfold genInitNeuronVarCodeVar
    simp only [hinit, hcode, hqueue, happly, hid, Option.bind_eq_bind, Option.some_bind,
      Bool.not_false, if_true, Bool.false_eq_true, if_false, Option.pure_def]
  · intro before after hk
    unfold genInitNeuronVarCode
    rw [genInitNeuronVarCodeLoop_append, hk]
    simp only [Nat.zero_add]

/-- Witness for C19: for the example group with spike times and 6 delay slots, the handler
resets `spkQuePtr` and assigns `-TIME_MAX` to `sT` in every delay slot. -/
theorem neuronInitHandlerHead_spike_times_witness :
    ∃ out,
      neuronInitHandlerHead exampleLayer exampleBackend (fun _ => false) (fun _ => false)
        (fun _ => false) exampleSpikeTimeMergedInit [] = some out ∧
      Code.genPopVariableInit [Code.line "*group->spkQuePtr = 0;"] ∈ out ∧
      Code.genVariableInit "group->numNeurons" "id"
        [Code.scope "for (unsigned int d = 0; d < 6; d++)"
          [Code.line "group->sT[(d * group->numNeurons) + i] = -TIME_MAX;"]] ∈ out :=
  (neuronInitHandlerHead_spike_times exampleLayer exampleBackend (fun _ => false)
    (fun _ => false) (fun _ => false) exampleSpikeTimeMergedInit [] "i" rfl).imp
    (fun _ h => ⟨h.1, h.2.1.mpr (by decide), h.2.2.1 (by decide) (by decide)⟩)

/-- Witness for C20: for the queued variable `V` of the example group with 6 delay slots,
`initVal` is declared, the initialiser code is emitted and `initVal` is stored in every slot. -/
theorem genInitNeuronVarCodeVar_spec_witness :
    genInitNeuronVarCodeVar exampleLayer exampleBackend [] "" ("group->" ++ "numNeurons") 6 0
      "float" (fun i => archetypeVarInitialiser exampleMergedInit.getArchetype i)
      (fun i => exampleMergedInit.getArchetype.isVarQueueRequired i)
      exampleMergedInit.isVarInitParamHeterogeneous
      exampleMergedInit.isVarInitDerivedParamHeterogeneous 0
      { name := "V", type := "scalar", access := .READ_WRITE } =
    some [Code.scope "" [Code.genVariableInit "group->numNeurons" "id"
      [Code.line "scalar initVal;",
       Code.line "$(value) = $(constant);",
       Code.scope "for (unsigned int d = 0; d < 6; d++)"
         [Code.line "group->V[(d * group->numNeurons) + i] = initVal;"]]]] :=
  (genInitNeuronVarCodeVar_spec exampleLayer exampleBackend [] "" "numNeurons" 6 0 "float"
    (fun i => archetypeVarInitialiser exampleMergedInit.getArchetype i)
    (fun i => exampleMergedInit.getArchetype.isVarQueueRequired i)
    exampleMergedInit.isVarInitParamHeterogeneous
    exampleMergedInit.isVarInitDerivedParamHeterogeneous 0
    { name := "V", type := "scalar", access := .READ_WRITE }
    { snippet := "Constant", params := [], code := "$(value) = $(constant);",
      paramNames := ["constant"] } rfl).2.1 (by decide) (by decide)
    "$(value) = $(constant);" "i" rfl rfl
/-! ## The merged incoming list as a partition -/

/-- The groups that the inner loop keeps in the temporary vector are those that the
archetype cannot be linearly combined with. -/
theorem mergeWithRemainder_kept
    (canPSBeLinearlyCombined : SynapseGroupInternal → SynapseGroupInternal → Bool)
    (a : SynapseGroupInternal) (mergedPSMName : String) (inSyn : List SynapseGroupInternal) :
    ∀ b ∈ (mergeWithRemainder canPSBeLinearlyCombined a mergedPSMName inSyn).inSyn,
      canPSBeLinearlyCombined a b = false := by
  induction inSyn with
  | nil => intro b hb; simp [mergeWithRemainder] at hb
  | cons x xs ih =>
    intro b hb
    unfold mergeWithRemainder at hb
    by_cases hx : canPSBeLinearlyCombined a x = true
    · simp only [hx, if_true] at hb
      exact ih b hb
    · simp only [hx] at hb
      rcases List.mem_cons.mp hb with hb' | hb'
      · rw [hb']
        simpa using hx
      · exact ih b hb'

/-- The groups that the inner loop keeps stay in their order. -/
theorem mergeWithRemainder_sublist
    (canPSBeLinearlyCombined : SynapseGroupInternal → SynapseGroupInternal → Bool)
    (a : SynapseGroupInternal) (mergedPSMName : String) (inSyn : List SynapseGroupInternal) :
    (mergeWithRemainder canPSBeLinearlyCombined a mergedPSMName inSyn).inSyn.Sublist inSyn := by
  induction inSyn with
  | nil => simp [mergeWithRemainder]
  | cons x xs ih =>
    unfold mergeWithRemainder
    by_cases hx : canPSBeLinearlyCombined a x = true
    · simp only [hx, if_true]
      exact ih.cons x
    · simp only [hx]
      exact ih.cons₂ x

/-- The entries that the outer loop appends: it returns when the fuel covers the temporary
vector; the member lists of the new entries, one after the other, are a rearrangement of the
temporary vector; every new entry starts with its archetype; with merging enabled, an
archetype without postsynaptic variable initialisers cannot be linearly combined with any
member of an entry appended after its own; and the archetypes of the new entries are taken
from the temporary vector from its last element backwards, starting with the last. -/
theorem mergeIncomingPSMLoop_new_entries
    (canPSBeLinearlyCombined : SynapseGroupInternal → SynapseGroupInternal → Bool)
    (groupName : String) (merge : Bool) (fuel i : Nat) (inSyn : List SynapseGroupInternal)
    (st : MergeState) (hfuel : inSyn.length ≤ fuel) :
    ∃ st' entries,
      mergeIncomingPSMLoop canPSBeLinearlyCombined groupName merge fuel i inSyn st
        = some st' ∧
      st'.m_MergedInSyn = st.m_MergedInSyn ++ entries ∧
      (entries.flatMap (fun e => e.2)).Perm inSyn ∧
      (∀ e ∈ entries, ∃ rest, e.2 = e.1 :: rest) ∧
      (merge = true → entries.Pairwise (fun e e' =>
        e.1.psVarInitialisers.isEmpty = true →
          ∀ m ∈ e'.2, canPSBeLinearlyCombined e.1 m = false)) ∧
      (entries.map (fun e => e.1)).Sublist inSyn.reverse ∧
      entries.head?.map (fun e => e.1) = inSyn.getLast? := by
  induction fuel generalizing i inSyn st with
  | zero =>
    have hnil : inSyn = [] := List.length_eq_zero.mp (Nat.le_zero.mp hfuel)
    subst hnil
    exact ⟨st, [], by simp [mergeIncomingPSMLoop], by simp, by simp, by simp,
      fun _ => List.Pairwise.nil, by simp, by simp⟩
  | succ fuel ih =>
    rcases List.eq_nil_or_concat inSyn with hnil | ⟨ys, a, hcat⟩
    · subst hnil
      exact ⟨st, [], by simp [mergeIncomingPSMLoop], by simp, by simp, by simp,
        fun _ => List.Pairwise.nil, by simp, by simp⟩
    · rw [List.concat_eq_append] at hcat
      subst hcat
      have hys : ys.length ≤ fuel := by
        simp only [List.length_append, List.length_singleton] at hfuel
        omega
      -- the branches that leave the archetype alone
      have halone : (merge = true → a.psVarInitialisers.isEmpty = false) →
          ∃ st' entries,
            mergeIncomingPSMLoop canPSBeLinearlyCombined groupName merge fuel
              ((i + 1) % 2 ^ 32) ys
              { st with m_MergedInSyn := st.m_MergedInSyn ++ [(a, [a])] } = some st' ∧
            st'.m_MergedInSyn = st.m_MergedInSyn ++ entries ∧
            (entries.flatMap (fun e => e.2)).Perm (ys ++ [a]) ∧
            (∀ e ∈ entries, ∃ rest, e.2 = e.1 :: rest) ∧
            (merge = true → entries.Pairwise (fun e e' =>
              e.1.psVarInitialisers.isEmpty = true →
                ∀ m ∈ e'.2, canPSBeLinearlyCombined e.1 m = false)) ∧
            (entries.map (fun e => e.1)).Sublist (ys ++ [a]).reverse ∧
            entries.head?.map (fun e => e.1) = some a := by
        intro hskip
        obtain ⟨st', entries, hst', hmerged, hperm, hfirst, hmax, hsub, _⟩ :=
          ih ((i + 1) % 2 ^ 32) ys
            { st with m_MergedInSyn := st.m_MergedInSyn ++ [(a, [a])] } hys
        refine ⟨st', (a, [a]) :: entries, hst', ?_, ?_, ?_, ?_, ?_, ?_⟩
        · rw [hmerged]; simp
        · simp only [List.flatMap_cons, List.singleton_append]
          exact (List.Perm.cons a hperm).trans (List.perm_append_singleton a ys).symm
        · intro e he
          rcases List.mem_cons.mp he with rfl | he
          · exact ⟨[], rfl⟩
          · exact hfirst e he
        · intro hm
          refine List.Pairwise.cons ?_ (hmax hm)
          intro e' _ hempty
          rw [hskip hm] at hempty
          cases hempty
        · simp only [List.map_cons, List.reverse_append, List.reverse_singleton,
            List.singleton_append]
          exact hsub.cons₂ a
        · simp
      simp only [mergeIncomingPSMLoop, List.getLast?_concat, List.dropLast_concat]
      split
      · rename_i hmerge
        exact halone (fun hm => by simp [hm] at hmerge)
      · split
        · rename_i hvars
          exact halone (fun _ => by simpa using hvars)
        · rename_i hmerge hvars
          have hsplit := mergeWithRemainder_perm canPSBeLinearlyCombined a
            ("Merged" ++ toString i ++ "_" ++ groupName) ys
          have hkept := mergeWithRemainder_kept canPSBeLinearlyCombined a
            ("Merged" ++ toString i ++ "_" ++ groupName) ys
          obtain ⟨st', entries, hst', hmerged, hperm, hfirst, hmax, hsub, _⟩ :=
            ih ((i + 1) % 2 ^ 32) _
              { m_MergedInSyn := st.m_MergedInSyn ++
                  [(a, a :: (mergeWithRemainder canPSBeLinearlyCombined a
                    ("Merged" ++ toString i ++ "_" ++ groupName) ys).merged)],
                calls := st.calls ++
                  (mergeWithRemainder canPSBeLinearlyCombined a
                    ("Merged" ++ toString i ++ "_" ++ groupName) ys).calls ++
                  (if (a :: (mergeWithRemainder canPSBeLinearlyCombined a
                      ("Merged" ++ toString i ++ "_" ++ groupName) ys).merged).length > 1
                    then [(a, "Merged" ++ toString i ++ "_" ++ groupName)] else []) }
              (Nat.le_trans (mergeWithRemainder_length canPSBeLinearlyCombined a
                ("Merged" ++ toString i ++ "_" ++ groupName) ys) hys)
          refine ⟨st', (a, a :: (mergeWithRemainder canPSBeLinearlyCombined a
            ("Merged" ++ toString i ++ "_" ++ groupName) ys).merged) :: entries,
            hst', ?_, ?_, ?_, ?_, ?_, ?_⟩
          · rw [hmerged]; simp
          · simp only [List.flatMap_cons, List.cons_append]
            refine (List.Perm.cons a ?_).trans (List.perm_append_singleton a ys).symm
            exact (List.Perm.append_left _ hperm).trans hsplit.symm
          · intro e he
            rcases List.mem_cons.mp he with rfl | he
            · exact ⟨_, rfl⟩
            · exact hfirst e he
          · intro hm
            refine List.Pairwise.cons ?_ (hmax hm)
            intro e' he' _ m hmem
            refine hkept m (hperm.mem_iff.mp ?_)
            exact List.mem_flatMap.mpr ⟨e', he', hmem⟩
          · simp only [List.map_cons, List.reverse_append, List.reverse_singleton,
              List.singleton_append]
            refine List.Sublist.cons₂ a (hsub.trans ?_)
            refine List.Sublist.reverse ?_
            have hsubperm := mergeWithRemainder_sublist canPSBeLinearlyCombined a
              ("Merged" ++ toString i ++ "_" ++ groupName) ys
            exact hsubperm
          · simp

namespace NeuronGroup

/-- **C28.** On a neuron group whose incoming synapse groups are pairwise distinct and whose
merged incoming list is empty beforehand, `mergeIncomingPSM(merge)` returns for either value
of `merge`, and afterwards the member lists of the entries partition the incoming synapse
groups: every incoming group occurs in the member list of exactly one entry, exactly once;
no entry is empty; and every member of an entry is an incoming group. -/
theorem mergeIncomingPSM_partition
    (canPSBeLinearlyCombined : SynapseGroupInternal → SynapseGroupInternal → Bool)
    (ng : NeuronGroup) (merge : Bool)
    (hdistinct : ng.getInSyn.Nodup) (hempty : ng.getMergedInSyn = []) :
    ∃ ng' calls, ng.mergeIncomingPSM canPSBeLinearlyCombined merge = some (ng', calls) ∧
      (∀ m ∈ ng.getInSyn, ∃ (k : Nat) (e : MergedInSynEntry),
        ng'.getMergedInSyn[k]? = some e ∧ e.2.count m = 1 ∧
        ∀ (k' : Nat) (e' : MergedInSynEntry),
          ng'.getMergedInSyn[k']? = some e' → m ∈ e'.2 → k' = k) ∧
      (∀ e ∈ ng'.getMergedInSyn, e.2 ≠ []) ∧
      (∀ e ∈ ng'.getMergedInSyn, ∀ m ∈ e.2, m ∈ ng.getInSyn) := by
  obtain ⟨st', entries, hst', hmerged, hperm, hfirst, _, _, _⟩ :=
    mergeIncomingPSMLoop_new_entries canPSBeLinearlyCombined ng.getName merge
      ng.getInSyn.length 0 ng.getInSyn { m_MergedInSyn := ng.m_MergedInSyn, calls := [] }
      (Nat.le_refl _)
  have hlist : st'.m_MergedInSyn = entries := by
    have hnil : ng.m_MergedInSyn = [] := hempty
    rw [hmerged]
    simp [hnil]
  have hnodup : (entries.flatMap (fun e => e.2)).Nodup := hperm.nodup_iff.mpr hdistinct
  obtain ⟨heach, hdisjoint⟩ := List.nodup_flatMap.mp hnodup
  have hpair := List.pairwise_iff_getElem.mp hdisjoint
  refine ⟨{ ng with m_MergedInSyn := st'.m_MergedInSyn }, st'.calls, ?_, ?_, ?_, ?_⟩
  · unfold mergeIncomingPSM
    rw [hst']
    rfl
  · intro m hm
    obtain ⟨e, he, hme⟩ := List.mem_flatMap.mp (hperm.mem_iff.mpr hm)
    obtain ⟨k, hk, hke⟩ := List.getElem_of_mem he
    refine ⟨k, e, ?_, List.count_eq_one_of_mem (heach e he) hme, ?_⟩
    · show st'.m_MergedInSyn[k]? = some e
      rw [hlist, List.getElem?_eq_getElem hk, hke]
    · intro k' e' hk' hme'
      have hk'' : entries[k']? = some e' := by
        have h : st'.m_MergedInSyn[k']? = some e' := hk'
        rwa [hlist] at h
      obtain ⟨hlt', hget'⟩ := List.getElem?_eq_some.mp hk''
      by_contra hne
      rcases Nat.lt_or_gt_of_ne hne with hlt | hgt
      · have hd := hpair k' k hlt' hk hlt
        simp only [Function.onFun, hget', hke] at hd
        exact hd hme' hme
      · have hd := hpair k k' hk hlt' hgt
        simp only [Function.onFun, hget', hke] at hd
        exact hd hme hme'
  · intro e he
    have he' : e ∈ entries := by
      have h : e ∈ st'.m_MergedInSyn := he
      rwa [hlist] at h
    obtain ⟨rest, hrest⟩ := hfirst e he'
    rw [hrest]
    exact List.cons_ne_nil _ _
  · intro e he m hm
    have he' : e ∈ entries := by
      have h : e ∈ st'.m_MergedInSyn := he
      rwa [hlist] at h
    exact hperm.mem_iff.mp (List.mem_flatMap.mpr ⟨e, he', hm⟩)

/-- Witness of C28: the three incoming synapse groups of the example group end up in two
entries that partition them. -/
theorem mergeIncomingPSM_partition_witness :
    ∃ ng' calls,
      exampleTargetGroup.mergeIncomingPSM SynapseGroupInternal.canPSBeLinearlyCombined true =
        some (ng', calls) ∧
      (∀ m ∈ exampleTargetGroup.getInSyn, ∃ (k : Nat) (e : MergedInSynEntry),
        ng'.getMergedInSyn[k]? = some e ∧ e.2.count m = 1 ∧
        ∀ (k' : Nat) (e' : MergedInSynEntry),
          ng'.getMergedInSyn[k']? = some e' → m ∈ e'.2 → k' = k) ∧
      (∀ e ∈ ng'.getMergedInSyn, e.2 ≠ []) ∧
      (∀ e ∈ ng'.getMergedInSyn, ∀ m ∈ e.2, m ∈ exampleTargetGroup.getInSyn) :=
  mergeIncomingPSM_partition SynapseGroupInternal.canPSBeLinearlyCombined exampleTargetGroup
    true (by decide) rfl

end NeuronGroup

namespace NeuronGroup

end NeuronGroup

/-! ## The neuron update emitter: loops -/

/-- A successful step followed by the rest of the emitter. -/
theorem Except.ok_bind' {ε α β : Type} (a : α) (f : α → Except ε β) :
    ((Except.ok a : Except ε α) >>= f) = f a := rfl

/-- A failed step stops the emitter. -/
theorem Except.error_bind' {ε α β : Type} (e : ε) (f : α → Except ε β) :
    ((Except.error e : Except ε α) >>= f) = Except.error e := rfl

/-- A loop over a vector visits its elements in order: what it writes for `xs ++ ys` is what
it writes for `xs` followed by what it writes for `ys`. -/
theorem forEach_append {α : Type} (body : α → Except Failure (List Code)) (xs ys : List α) :
    forEach body (xs ++ ys) =
      (forEach body xs >>= fun a => forEach body ys >>= fun b => pure (a ++ b)) := by
  induction xs with
  | nil =>
    simp only [List.nil_append, forEach, Except.ok_bind']
    cases forEach body ys with
    | error e => rfl
    | ok b => rfl
  | cons x xs ih =>
    rw [List.cons_append]
    simp only [forEach, ih]
    cases body x with
    | error e => rfl
    | ok e =>
      simp only [Except.ok_bind']
      cases forEach body xs with
      | error e => rfl
      | ok a =>
        simp only [Except.ok_bind']
        cases forEach body ys with
        | error e => rfl
        | ok b =>
          simp only [Except.ok_bind', pure, Except.pure, List.append_assoc]

/-- A loop whose body succeeds on every element writes the pieces of the elements one after
the other. -/
theorem forEach_ok {α : Type} (body : α → Except Failure (List Code)) (f : α → List Code)
    (xs : List α) (h : ∀ x ∈ xs, body x = .ok (f x)) :
    forEach body xs = .ok (xs.flatMap f) := by
  induction xs with
  | nil => rfl
  | cons x xs ih =>
    simp only [forEach, h x (List.mem_cons_self _ _),
      ih (fun y hy => h y (List.mem_cons_of_mem _ hy)), Except.ok_bind', pure, Except.pure,
      List.flatMap_cons]

/-- The sim handler finishes exactly when each of its sections does, and what it writes is
what the sections write, one after the other in the order of the source. -/
theorem neuronUpdateSimHandler_ok_iff (layer : SubstitutionLayer)
    (isVarQueueRequired : NeuronGroup → String → Bool) (ndebug : Bool)
    (model : ModelSpecInternal) (ng : NeuronGroupMerged) (popSubs : Substitutions)
    (out : List Code) :
    neuronUpdateSimHandler layer isVarQueueRequired ndebug model ng popSubs = .ok out ↔
      ∃ varLoad spikeTime inSyn support threshold sim spikeEvent trueSpike writeBack,
        forEach (neuronVarLoadVar layer isVarQueueRequired ng popSubs)
          ng.getArchetype.getNeuronModel.vars = .ok varLoad ∧
        neuronSpikeTimeLoad ndebug ng = .ok spikeTime ∧
        forEachIndexed (mergedInSynBody layer model popSubs (neuronUpdateSubs ng popSubs)) 0
          ng.getArchetype.getMergedInSyn = .ok inSyn ∧
        neuronSupportCode ndebug ng = .ok support ∧
        neuronThreshold layer model ng (neuronUpdateSubs ng popSubs) = .ok threshold ∧
        neuronSimCode layer model ng (neuronUpdateSubs ng popSubs) = .ok sim ∧
        neuronSpikeEvent layer model ng popSubs = .ok spikeEvent ∧
        neuronTrueSpike layer ndebug model ng (neuronUpdateSubs ng popSubs) threshold.1
          = .ok trueSpike ∧
        forEach (neuronVarWriteBackVar layer isVarQueueRequired ng popSubs)
          ng.getArchetype.getNeuronModel.vars = .ok writeBack ∧
        out = varLoad ++ spikeTime ++ neuronIsynDeclaration model ng
          ++ neuronAdditionalInputVars ng ++ inSyn ++ support ++ threshold.2 ++ sim
          ++ spikeEvent ++ trueSpike ++ writeBack := by
  unfold neuronUpdateSimHandler
  simp only []
  cases forEach (neuronVarLoadVar layer isVarQueueRequired ng popSubs)
      ng.getArchetype.getNeuronModel.vars with
  | error e => simp [Except.error_bind']
  | ok varLoad =>
    cases neuronSpikeTimeLoad ndebug ng with
    | error e => simp [Except.error_bind', Except.ok_bind']
    | ok spikeTime =>
      cases forEachIndexed (mergedInSynBody layer model popSubs (neuronUpdateSubs ng popSubs))
          0 ng.getArchetype.getMergedInSyn with
      | error e => simp [Except.error_bind', Except.ok_bind']
      | ok inSyn =>
        cases neuronSupportCode ndebug ng with
        | error e => simp [Except.error_bind', Except.ok_bind']
        | ok support =>
          cases neuronThreshold layer model ng (neuronUpdateSubs ng popSubs) with
          | error e => simp [Except.error_bind', Except.ok_bind']
          | ok threshold =>
            cases neuronSimCode layer model ng (neuronUpdateSubs ng popSubs) with
            | error e => simp [Except.error_bind', Except.ok_bind']
            | ok sim =>
              cases neuronSpikeEvent layer model ng popSubs with
              | error e => simp [Except.error_bind', Except.ok_bind']
              | ok spikeEvent =>
                simp only [Except.ok_bind', Except.ok.injEq, exists_and_left, exists_eq_left']
                cases neuronTrueSpike layer ndebug model ng (neuronUpdateSubs ng popSubs)
                    threshold.1 with
                | error e => simp [Except.error_bind', Except.ok_bind']
                | ok trueSpike =>
                  cases forEach (neuronVarWriteBackVar layer isVarQueueRequired ng popSubs)
                      ng.getArchetype.getNeuronModel.vars with
                  | error e => simp [Except.error_bind', Except.ok_bind']
                  | ok writeBack =>
                    simp only [Except.ok_bind', pure, Except.pure, Except.ok.injEq,
                      exists_and_left, exists_eq_left']
                    constructor
                    · intro h
                      exact h.symm
                    · intro h
                      exact h.symm

/-! ## The neuron update emitter: neuron variables -/

/-- **C21.** In the body that the sim handler writes, for every variable `v` of the neuron
model: `v` is read from index `readDelayOffset + id` if `v` is queue-required and the
archetype requires delay, and from index `id` otherwise; `v` is written back if and only if
its access is `READ_WRITE` or it is queue-required and the archetype requires delay, at
index `writeDelayOffset + id` in the latter case and at index `id` otherwise; a `READ_ONLY`
variable that is not delayed is declared `const` and not written.  Whenever the handler
finishes, what it writes starts with the reads of the variables, in their order, and ends
with the writes. -/
theorem neuronUpdate_variable_access (layer : SubstitutionLayer)
    (isVarQueueRequired : NeuronGroup → String → Bool) (ndebug : Bool)
    (model : ModelSpecInternal) (ng : NeuronGroupMerged) (popSubs : Substitutions)
    (id : String) (hid : layer.getVarSubstitution popSubs "id" = some id) :
    (∀ v : Var,
      neuronVarLoadVar layer isVarQueueRequired ng popSubs v =
        .ok [Code.line
          ((if v.access = VarAccess.READ_ONLY then "const " else "")
            ++ v.type ++ " l" ++ v.name ++ " = " ++ "neuronGroup." ++ v.name ++ "["
            ++ (if isVarQueueRequired ng.getArchetype v.name = true
                  ∧ ng.getArchetype.isDelayRequired = true
                then "readDelayOffset + " ++ id else id)
            ++ "];")] ∧
      neuronVarWriteBackVar layer isVarQueueRequired ng popSubs v =
        .ok (if v.access = VarAccess.READ_WRITE
                ∨ (isVarQueueRequired ng.getArchetype v.name = true
                  ∧ ng.getArchetype.isDelayRequired = true)
             then
              [Code.line
                ("neuronGroup." ++ v.name ++ "["
                  ++ (if isVarQueueRequired ng.getArchetype v.name = true
                        ∧ ng.getArchetype.isDelayRequired = true
                      then "writeDelayOffset + " ++ id else id)
                  ++ "] = l" ++ v.name ++ ";")]
             else [])) ∧
    (∀ v : Var, v.access = VarAccess.READ_ONLY →
      ¬(isVarQueueRequired ng.getArchetype v.name = true
          ∧ ng.getArchetype.isDelayRequired = true) →
      neuronVarLoadVar layer isVarQueueRequired ng popSubs v =
        .ok [Code.line ("const " ++ v.type ++ " l" ++ v.name ++ " = " ++ "neuronGroup."
          ++ v.name ++ "[" ++ id ++ "];")] ∧
      neuronVarWriteBackVar layer isVarQueueRequired ng popSubs v = .ok []) ∧
    (∀ out, neuronUpdateSimHandler layer isVarQueueRequired ndebug model ng popSubs = .ok out →
      ∃ reads middle writes,
        out = reads ++ middle ++ writes ∧
        forEach (neuronVarLoadVar layer isVarQueueRequired ng popSubs)
          ng.getArchetype.getNeuronModel.vars = .ok reads ∧
        forEach (neuronVarWriteBackVar layer isVarQueueRequired ng popSubs)
          ng.getArchetype.getNeuronModel.vars = .ok writes) ∧
    (∀ (body : Var → Except Failure (List Code)) (before after : List Var) (v : Var),
      forEach body (before ++ v :: after) =
        (forEach body before >>= fun a => body v >>= fun e => forEach body after >>= fun b =>
          pure (a ++ e ++ b))) := by
  have hload : ∀ v : Var,
      neuronVarLoadVar layer isVarQueueRequired ng popSubs v =
        .ok [Code.line
          ((if v.access = VarAccess.READ_ONLY then "const " else "")
            ++ v.type ++ " l" ++ v.name ++ " = " ++ "neuronGroup." ++ v.name ++ "["
            ++ (if isVarQueueRequired ng.getArchetype v.name = true
                  ∧ ng.getArchetype.isDelayRequired = true
                then "readDelayOffset + " ++ id else id)
            ++ "];")] := by
    intro v
    unfold neuronVarLoadVar
    simp only [hid, orThrow, Except.ok_bind', pure, Except.pure, Bool.and_eq_true]
    by_cases hd : isVarQueueRequired ng.getArchetype v.name = true
        ∧ ng.getArchetype.isDelayRequired = true
    · simp only [hd, and_self, if_true, String.append_assoc]
    · simp only [hd, if_false, String.append_assoc, String.empty_append]
  have hwrite : ∀ v : Var,
      neuronVarWriteBackVar layer isVarQueueRequired ng popSubs v =
        .ok (if v.access = VarAccess.READ_WRITE
                ∨ (isVarQueueRequired ng.getArchetype v.name = true
                  ∧ ng.getArchetype.isDelayRequired = true)
             then
              [Code.line
                ("neuronGroup." ++ v.name ++ "["
                  ++ (if isVarQueueRequired ng.getArchetype v.name = true
                        ∧ ng.getArchetype.isDelayRequired = true
                      then "writeDelayOffset + " ++ id else id)
                  ++ "] = l" ++ v.name ++ ";")]
             else []) := by
    intro v
    unfold neuronVarWriteBackVar
    simp only [hid, orThrow, Except.ok_bind', pure, Except.pure, Bool.and_eq_true,
      Bool.or_eq_true, decide_eq_true_eq]
    by_cases hd : isVarQueueRequired ng.getArchetype v.name = true
        ∧ ng.getArchetype.isDelayRequired = true
    · simp only [hd, and_self, or_true, if_true, String.append_assoc]
    · by_cases hrw : v.access = VarAccess.READ_WRITE
      · simp only [hd, hrw, or_false, if_true, if_false, String.append_assoc,
          String.empty_append]
      · simp only [hd, hrw, or_false, if_false]
  refine ⟨fun v => ⟨hload v, hwrite v⟩, ?_, ?_, ?_⟩
  · intro v hro hd
    refine ⟨?_, ?_⟩
    · rw [hload v]
      simp only [hro, hd, if_true, if_false]
    · rw [hwrite v]
      have hne : ¬ v.access = VarAccess.READ_WRITE := by
        rw [hro]
        decide
      simp only [hne, hd, or_false, if_false]
  · intro out hout
    obtain ⟨varLoad, spikeTime, inSyn, support, threshold, sim, spikeEvent, trueSpike,
      writeBack, h1, _, _, _, _, _, _, _, h9, hout'⟩ :=
      (neuronUpdateSimHandler_ok_iff layer isVarQueueRequired ndebug model ng popSubs out).mp
        hout
    refine ⟨varLoad, spikeTime ++ neuronIsynDeclaration model ng
      ++ neuronAdditionalInputVars ng ++ inSyn ++ support ++ threshold.2 ++ sim
      ++ spikeEvent ++ trueSpike, writeBack, ?_, h1, h9⟩
    rw [hout']
    simp only [List.append_assoc]
  · intro body before after v
    rw [forEach_append]
    cases forEach body before with
    | error e => rfl
    | ok a =>
      simp only [Except.ok_bind', forEach]
      cases body v with
      | error e => rfl
      | ok e =>
        simp only [Except.ok_bind']
        cases forEach body after with
        | error e => rfl
        | ok b =>
          simp only [Except.ok_bind', pure, Except.pure, List.append_assoc]

/-- Witness of C21: in the example group with 6 delay slots the queued variable `V` is read
at `readDelayOffset + lid` and written at `writeDelayOffset + lid`, and the handler finishes
with the reads of `V` and `U` first and the write of `V` last. -/
theorem neuronUpdate_variable_access_witness :
    neuronVarLoadVar (specLayer examplePrint) NeuronGroup.isVarQueueRequiredByName
        exampleUpdateGroup examplePopSubs
        { name := "V", type := "scalar", access := .READ_WRITE } =
      .ok [Code.line "scalar lV = neuronGroup.V[readDelayOffset + lid];"] ∧
    neuronVarWriteBackVar (specLayer examplePrint) NeuronGroup.isVarQueueRequiredByName
        exampleUpdateGroup examplePopSubs
        { name := "V", type := "scalar", access := .READ_WRITE } =
      .ok [Code.line "neuronGroup.V[writeDelayOffset + lid] = lV;"] ∧
    ∃ middle,
      neuronUpdateSimHandler (specLayer examplePrint) NeuronGroup.isVarQueueRequiredByName
          false exampleModelSpec exampleUpdateGroup examplePopSubs =
        .ok ([Code.line "scalar lV = neuronGroup.V[readDelayOffset + lid];",
              Code.line "const scalar lU = neuronGroup.U[lid];"]
          ++ middle ++ [Code.line "neuronGroup.V[writeDelayOffset + lid] = lV;"]) :=
  ⟨((neuronUpdate_variable_access (specLayer examplePrint)
      NeuronGroup.isVarQueueRequiredByName false exampleModelSpec exampleUpdateGroup
      examplePopSubs "lid" rfl).1
      { name := "V", type := "scalar", access := .READ_WRITE }).1,
    ((neuronUpdate_variable_access (specLayer examplePrint)
      NeuronGroup.isVarQueueRequiredByName false exampleModelSpec exampleUpdateGroup
      examplePopSubs "lid" rfl).1
      { name := "V", type := "scalar", access := .READ_WRITE }).2,
    ⟨_, rfl⟩⟩

/-! ## The neuron update emitter: assertions -/

theorem NoAssertion.ok {α : Type} (a : α) : NoAssertion (Except.ok a : Except Failure α) := by
  intro line h
  cases h

theorem NoAssertion.pure {α : Type} (a : α) : NoAssertion (pure a : Except Failure α) :=
  NoAssertion.ok a

theorem NoAssertion.orThrow {α : Type} (o : Option α) : NoAssertion (orThrow o) := by
  intro line h
  cases o with
  | none => cases h
  | some a => cases h

theorem NoAssertion.literalPlus (literal : String) (i : Nat) :
    NoAssertion (literalPlus literal i) := by
  intro line h
  unfold GeNN.literalPlus at h
  split at h <;> cases h

theorem NoAssertion.bind {α β : Type} {x : Except Failure α} {f : α → Except Failure β}
    (hx : NoAssertion x) (hf : ∀ a, NoAssertion (f a)) : NoAssertion (x >>= f) := by
  intro line h
  cases x with
  | error e =>
    have he : e = .assertion line := by
      have h' : (Except.error e : Except Failure β) = .error (.assertion line) := h
      exact Except.error.inj h'
    exact hx line (by rw [he])
  | ok a => exact hf a line h

theorem NoAssertion.ite {α : Type} {c : Prop} [Decidable c] {x y : Except Failure α}
    (hx : NoAssertion x) (hy : NoAssertion y) : NoAssertion (if c then x else y) := by
  split
  · exact hx
  · exact hy

theorem NoAssertion.forEach {α : Type} (body : α → Except Failure (List Code))
    (h : ∀ x, NoAssertion (body x)) (xs : List α) : NoAssertion (forEach body xs) := by
  induction xs with
  | nil => exact NoAssertion.ok _
  | cons x xs ih =>
    unfold GeNN.forEach
    exact NoAssertion.bind (h x) (fun _ => NoAssertion.bind ih (fun _ => NoAssertion.pure _))

theorem NoAssertion.forEachIndexed {α : Type} (body : Nat → α → Except Failure (List Code))
    (h : ∀ i x, NoAssertion (body i x)) (i : Nat) (xs : List α) :
    NoAssertion (forEachIndexed body i xs) := by
  induction xs generalizing i with
  | nil => exact NoAssertion.ok _
  | cons x xs ih =>
    unfold GeNN.forEachIndexed
    exact NoAssertion.bind (h i x)
      (fun _ => NoAssertion.bind (ih (i + 1)) (fun _ => NoAssertion.pure _))

/-- The read of a neuron variable throws at most an exception. -/
theorem neuronVarLoadVar_noAssertion (layer : SubstitutionLayer)
    (isVarQueueRequired : NeuronGroup → String → Bool) (ng : NeuronGroupMerged)
    (popSubs : Substitutions) (v : Var) :
    NoAssertion (neuronVarLoadVar layer isVarQueueRequired ng popSubs v) := by
  unfold neuronVarLoadVar
  exact NoAssertion.bind (NoAssertion.orThrow _) (fun _ => NoAssertion.pure _)

/-- The write of a neuron variable throws at most an exception. -/
theorem neuronVarWriteBackVar_noAssertion (layer : SubstitutionLayer)
    (isVarQueueRequired : NeuronGroup → String → Bool) (ng : NeuronGroupMerged)
    (popSubs : Substitutions) (v : Var) :
    NoAssertion (neuronVarWriteBackVar layer isVarQueueRequired ng popSubs v) := by
  unfold neuronVarWriteBackVar
  exact NoAssertion.ite
    (NoAssertion.bind (NoAssertion.orThrow _) (fun _ => NoAssertion.pure _))
    (NoAssertion.pure _)

/-- The body of the loop over the merged incoming synapse groups stops at no assertion. -/
theorem mergedInSynBody_noAssertion (layer : SubstitutionLayer) (model : ModelSpecInternal)
    (popSubs neuronSubs : Substitutions) (i : Nat) (p : MergedInSynEntry) :
    NoAssertion (mergedInSynBody layer model popSubs neuronSubs i p) := by
  unfold mergedInSynBody
  refine NoAssertion.bind (NoAssertion.orThrow _) (fun _ => ?_)
  refine NoAssertion.bind ?_ (fun _ => ?_)
  · refine NoAssertion.ite (NoAssertion.forEach _ (fun v => ?_) _) (NoAssertion.pure _)
    unfold psmVarLoad
    exact NoAssertion.bind (NoAssertion.orThrow _) (fun _ => NoAssertion.pure _)
  refine NoAssertion.bind (NoAssertion.literalPlus _ _) (fun _ => ?_)
  refine NoAssertion.bind (NoAssertion.orThrow _) (fun _ => ?_)
  refine NoAssertion.bind (NoAssertion.literalPlus _ _) (fun _ => ?_)
  refine NoAssertion.bind (NoAssertion.orThrow _) (fun _ => ?_)
  refine NoAssertion.bind (NoAssertion.orThrow _) (fun _ => ?_)
  refine NoAssertion.bind (NoAssertion.forEach _ (fun v => ?_) _) (fun _ => NoAssertion.pure _)
  unfold psmVarWriteBack
  exact NoAssertion.ite
    (NoAssertion.bind (NoAssertion.orThrow _) (fun _ => NoAssertion.pure _))
    (NoAssertion.pure _)

/-- The threshold section stops at no assertion. -/
theorem neuronThreshold_noAssertion (layer : SubstitutionLayer) (model : ModelSpecInternal)
    (ng : NeuronGroupMerged) (neuronSubs : Substitutions) :
    NoAssertion (neuronThreshold layer model ng neuronSubs) := by
  unfold neuronThreshold
  exact NoAssertion.ite
    (NoAssertion.bind (NoAssertion.orThrow _) (fun _ => NoAssertion.pure _))
    (NoAssertion.pure _)

/-- The sim code section stops at no assertion. -/
theorem neuronSimCode_noAssertion (layer : SubstitutionLayer) (model : ModelSpecInternal)
    (ng : NeuronGroupMerged) (neuronSubs : Substitutions) :
    NoAssertion (neuronSimCode layer model ng neuronSubs) := by
  unfold neuronSimCode
  exact NoAssertion.bind (NoAssertion.orThrow _) (fun _ => NoAssertion.pure _)

/-- The spike event section stops at no assertion. -/
theorem neuronSpikeEvent_noAssertion (layer : SubstitutionLayer) (model : ModelSpecInternal)
    (ng : NeuronGroupMerged) (popSubs : Substitutions) :
    NoAssertion (neuronSpikeEvent layer model ng popSubs) := by
  unfold neuronSpikeEvent
  refine NoAssertion.ite (NoAssertion.bind (NoAssertion.forEach _ (fun c => ?_) _)
    (fun _ => NoAssertion.pure _)) (NoAssertion.pure _)
  unfold spikeEventCondition
  exact NoAssertion.bind (NoAssertion.orThrow _) (fun _ => NoAssertion.pure _)

/-- The reset code stops at no assertion. -/
theorem neuronReset_noAssertion (layer : SubstitutionLayer) (model : ModelSpecInternal)
    (ng : NeuronGroupMerged) (neuronSubs : Substitutions) :
    NoAssertion (neuronReset layer model ng neuronSubs) := by
  unfold neuronReset
  exact NoAssertion.ite
    (NoAssertion.bind (NoAssertion.orThrow _) (fun _ => NoAssertion.pure _))
    (NoAssertion.pure _)

/-- Without spike times, the read of the spike time writes the empty line and the branch of
a neuron that does not spike writes nothing, whether assertions are compiled in or not. -/
theorem neuronSpikeTime_sections_of_not_required (ndebug : Bool) (ng : NeuronGroupMerged)
    (hst : ng.getArchetype.isSpikeTimeRequired = false) :
    neuronSpikeTimeLoad ndebug ng = .ok [Code.line ""] ∧ neuronNonSpiking ndebug ng = .ok [] := by
  constructor
  · unfold neuronSpikeTimeLoad
    simp only [hst, Bool.false_eq_true, if_false]
    rfl
  · unfold neuronNonSpiking
    simp only [hst, Bool.false_eq_true, if_false]
    split <;> rfl

/-- With spike times the read of the spike time stops at the assertion on line 126, unless
assertions are compiled out, in which case it writes the empty line only. -/
theorem neuronSpikeTimeLoad_of_required (ndebug : Bool) (ng : NeuronGroupMerged)
    (hst : ng.getArchetype.isSpikeTimeRequired = true) :
    neuronSpikeTimeLoad ndebug ng =
      if ndebug then .ok [Code.line ""] else .error (.assertion 126) := by
  unfold neuronSpikeTimeLoad assertFalse
  cases ndebug <;> simp only [hst, if_true, Bool.false_eq_true, if_false] <;> rfl

/-- The support code section: it stops at the assertion on line 263 when the neuron model
has support code and assertions are compiled in, and writes nothing otherwise. -/
theorem neuronSupportCode_eq (ndebug : Bool) (ng : NeuronGroupMerged) :
    neuronSupportCode ndebug ng =
      if ng.getArchetype.getNeuronModel.supportCode.isEmpty = false ∧ ndebug = false then
        .error (.assertion 263)
      else .ok [] := by
  unfold neuronSupportCode assertFalse
  cases ndebug <;> cases ng.getArchetype.getNeuronModel.supportCode.isEmpty <;> rfl

/-- Without spike times and without support code the sim handler stops at no assertion. -/
theorem neuronUpdateSimHandler_noAssertion (layer : SubstitutionLayer)
    (isVarQueueRequired : NeuronGroup → String → Bool) (ndebug : Bool)
    (model : ModelSpecInternal) (ng : NeuronGroupMerged) (popSubs : Substitutions)
    (hst : ng.getArchetype.isSpikeTimeRequired = false)
    (hsupport : ng.getArchetype.getNeuronModel.supportCode.isEmpty = true) :
    NoAssertion (neuronUpdateSimHandler layer isVarQueueRequired ndebug model ng popSubs) := by
  have hsections := neuronSpikeTime_sections_of_not_required ndebug ng hst
  have hsup : neuronSupportCode ndebug ng = .ok [] := by
    rw [neuronSupportCode_eq]
    simp [hsupport]
  unfold neuronUpdateSimHandler
  simp only []
  refine NoAssertion.bind (NoAssertion.forEach _
    (neuronVarLoadVar_noAssertion layer isVarQueueRequired ng popSubs) _) (fun _ => ?_)
  rw [hsections.1]
  refine NoAssertion.bind (NoAssertion.ok _) (fun _ => ?_)
  refine NoAssertion.bind (NoAssertion.forEachIndexed _
    (mergedInSynBody_noAssertion layer model popSubs _) _ _) (fun _ => ?_)
  rw [hsup]
  refine NoAssertion.bind (NoAssertion.ok _) (fun _ => ?_)
  refine NoAssertion.bind (neuronThreshold_noAssertion _ _ _ _) (fun threshold => ?_)
  refine NoAssertion.bind (neuronSimCode_noAssertion _ _ _ _) (fun _ => ?_)
  refine NoAssertion.bind (neuronSpikeEvent_noAssertion _ _ _ _) (fun _ => ?_)
  refine NoAssertion.bind ?_ (fun _ => ?_)
  · unfold neuronTrueSpike
    rw [hsections.2]
    exact NoAssertion.ite
      (NoAssertion.bind (neuronReset_noAssertion _ _ _ _)
        (fun _ => NoAssertion.bind (NoAssertion.ok _) (fun _ => NoAssertion.pure _)))
      (NoAssertion.pure _)
  · exact NoAssertion.bind (NoAssertion.forEach _
      (neuronVarWriteBackVar_noAssertion layer isVarQueueRequired ng popSubs) _)
      (fun _ => NoAssertion.pure _)

/-- With spike times and assertions compiled in, the sim handler stops at the assertion on
line 126 as soon as the reads of the neuron variables have been written. -/
theorem neuronUpdateSimHandler_assertion_126 (layer : SubstitutionLayer)
    (isVarQueueRequired : NeuronGroup → String → Bool)
    (model : ModelSpecInternal) (ng : NeuronGroupMerged) (popSubs : Substitutions)
    (hst : ng.getArchetype.isSpikeTimeRequired = true) (reads : List Code)
    (hreads : forEach (neuronVarLoadVar layer isVarQueueRequired ng popSubs)
      ng.getArchetype.getNeuronModel.vars = .ok reads) :
    neuronUpdateSimHandler layer isVarQueueRequired false model ng popSubs =
      .error (.assertion 126) := by
  unfold neuronUpdateSimHandler
  simp only []
  rw [hreads, neuronSpikeTimeLoad_of_required false ng hst]
  rfl

/-- Without spike times, with support code and with assertions compiled in, the sim handler
stops at the assertion on line 263 as soon as the reads of the neuron variables and the
code for the merged incoming synapse groups have been written. -/
theorem neuronUpdateSimHandler_assertion_263 (layer : SubstitutionLayer)
    (isVarQueueRequired : NeuronGroup → String → Bool)
    (model : ModelSpecInternal) (ng : NeuronGroupMerged) (popSubs : Substitutions)
    (hst : ng.getArchetype.isSpikeTimeRequired = false)
    (hsupport : ng.getArchetype.getNeuronModel.supportCode.isEmpty = false)
    (reads inSyn : List Code)
    (hreads : forEach (neuronVarLoadVar layer isVarQueueRequired ng popSubs)
      ng.getArchetype.getNeuronModel.vars = .ok reads)
    (hinSyn : forEachIndexed (mergedInSynBody layer model popSubs (neuronUpdateSubs ng popSubs))
      0 ng.getArchetype.getMergedInSyn = .ok inSyn) :
    neuronUpdateSimHandler layer isVarQueueRequired false model ng popSubs =
      .error (.assertion 263) := by
  unfold neuronUpdateSimHandler
  simp only []
  rw [hreads, (neuronSpikeTime_sections_of_not_required false ng hst).1, hinSyn,
    neuronSupportCode_eq]
  simp only [hsupport, and_self, if_true]
  rfl

/-- With spike times or with support code, and with assertions compiled in, the sim handler
does not finish. -/
theorem neuronUpdateSimHandler_not_ok (layer : SubstitutionLayer)
    (isVarQueueRequired : NeuronGroup → String → Bool)
    (model : ModelSpecInternal) (ng : NeuronGroupMerged) (popSubs : Substitutions)
    (h : ng.getArchetype.isSpikeTimeRequired = true
      ∨ ng.getArchetype.getNeuronModel.supportCode.isEmpty = false) (out : List Code) :
    neuronUpdateSimHandler layer isVarQueueRequired false model ng popSubs ≠ .ok out := by
  intro hout
  obtain ⟨_, spikeTime, _, support, _, _, _, _, _, _, h2, _, h4, _⟩ :=
    (neuronUpdateSimHandler_ok_iff layer isVarQueueRequired false model ng popSubs out).mp hout
  rcases h with hst | hsupport
  · rw [neuronSpikeTimeLoad_of_required false ng hst] at h2
    simp at h2
  · rw [neuronSupportCode_eq] at h4
    simp [hsupport] at h4

/-- Every variable is read once the scope of the backend resolves `id`. -/
theorem neuronVarLoad_isOk (layer : SubstitutionLayer)
    (isVarQueueRequired : NeuronGroup → String → Bool) (ng : NeuronGroupMerged)
    (popSubs : Substitutions) (id : String)
    (hid : layer.getVarSubstitution popSubs "id" = some id) (vars : List Var) :
    ∃ reads, forEach (neuronVarLoadVar layer isVarQueueRequired ng popSubs) vars
      = .ok reads := by
  refine ⟨_, forEach_ok _ (fun v => [Code.line
    ((if v.access = VarAccess.READ_ONLY then "const " else "")
      ++ v.type ++ " l" ++ v.name ++ " = " ++ "neuronGroup." ++ v.name ++ "["
      ++ (if isVarQueueRequired ng.getArchetype v.name && ng.getArchetype.isDelayRequired
          then "readDelayOffset + " else "")
      ++ id ++ "];")]) vars (fun v _ => ?_)⟩
  unfold neuronVarLoadVar
  simp only [hid, orThrow, Except.ok_bind', pure, Except.pure]

/-- The reads of the neuron variables are written exactly when there is no variable or the
scope of the backend resolves `id`. -/
theorem neuronVarLoad_isOk_iff (layer : SubstitutionLayer)
    (isVarQueueRequired : NeuronGroup → String → Bool) (ng : NeuronGroupMerged)
    (popSubs : Substitutions) (vars : List Var) :
    (∃ reads, forEach (neuronVarLoadVar layer isVarQueueRequired ng popSubs) vars
      = .ok reads) ↔
      (vars = [] ∨ ∃ id, layer.getVarSubstitution popSubs "id" = some id) := by
  constructor
  · rintro ⟨reads, hreads⟩
    cases vars with
    | nil => exact Or.inl rfl
    | cons v vs =>
      right
      cases hid : layer.getVarSubstitution popSubs "id" with
      | some id => exact ⟨id, rfl⟩
      | none =>
        unfold forEach neuronVarLoadVar at hreads
        rw [hid] at hreads
        cases hreads
  · rintro (hnil | ⟨id, hid⟩)
    · subst hnil
      exact ⟨[], rfl⟩
    · exact neuronVarLoad_isOk layer isVarQueueRequired ng popSubs id hid vars

/-- With assertions compiled in, the sim handler stops at the assertion on line `line`
exactly when the reads of the neuron variables are written and either the archetype requires
spike times and the line is 126, or it does not, the neuron model has support code, the code
for the merged incoming synapse groups is written and the line is 263. -/
theorem neuronUpdateSimHandler_assertion_iff (layer : SubstitutionLayer)
    (isVarQueueRequired : NeuronGroup → String → Bool)
    (model : ModelSpecInternal) (ng : NeuronGroupMerged) (popSubs : Substitutions)
    (line : Nat) :
    neuronUpdateSimHandler layer isVarQueueRequired false model ng popSubs
        = .error (.assertion line) ↔
      (∃ reads, forEach (neuronVarLoadVar layer isVarQueueRequired ng popSubs)
        ng.getArchetype.getNeuronModel.vars = .ok reads) ∧
      ((ng.getArchetype.isSpikeTimeRequired = true ∧ line = 126) ∨
        (ng.getArchetype.isSpikeTimeRequired = false ∧
          ng.getArchetype.getNeuronModel.supportCode.isEmpty = false ∧
          (∃ inSyn, forEachIndexed
            (mergedInSynBody layer model popSubs (neuronUpdateSubs ng popSubs)) 0
            ng.getArchetype.getMergedInSyn = .ok inSyn) ∧
          line = 263)) := by
  constructor
  · intro h
    cases hreads : forEach (neuronVarLoadVar layer isVarQueueRequired ng popSubs)
        ng.getArchetype.getNeuronModel.vars with
    | error e =>
      exfalso
      have hstop : neuronUpdateSimHandler layer isVarQueueRequired false model ng popSubs
          = .error e := by
        unfold neuronUpdateSimHandler
        simp only []
        rw [hreads]
        rfl
      rw [hstop] at h
      have he : e = .assertion line := Except.error.inj h
      rw [he] at hreads
      exact NoAssertion.forEach _
        (neuronVarLoadVar_noAssertion layer isVarQueueRequired ng popSubs) _ line hreads
    | ok reads =>
      refine ⟨⟨reads, rfl⟩, ?_⟩
      cases hst : ng.getArchetype.isSpikeTimeRequired with
      | true =>
        left
        rw [neuronUpdateSimHandler_assertion_126 layer isVarQueueRequired model ng popSubs
          hst reads hreads] at h
        have hline : Failure.assertion 126 = Failure.assertion line := Except.error.inj h
        exact ⟨rfl, (Failure.assertion.inj hline).symm⟩
      | false =>
        right
        cases hsupport : ng.getArchetype.getNeuronModel.supportCode.isEmpty with
        | true =>
          exact absurd h (neuronUpdateSimHandler_noAssertion layer isVarQueueRequired false
            model ng popSubs hst hsupport line)
        | false =>
          cases hinSyn : forEachIndexed
              (mergedInSynBody layer model popSubs (neuronUpdateSubs ng popSubs)) 0
              ng.getArchetype.getMergedInSyn with
          | error e =>
            exfalso
            have hstop : neuronUpdateSimHandler layer isVarQueueRequired false model ng
                popSubs = .error e := by
              unfold neuronUpdateSimHandler
              simp only []
              rw [hreads, (neuronSpikeTime_sections_of_not_required false ng hst).1, hinSyn]
              rfl
            rw [hstop] at h
            have he : e = .assertion line := Except.error.inj h
            rw [he] at hinSyn
            exact NoAssertion.forEachIndexed _
              (mergedInSynBody_noAssertion layer model popSubs _) _ _ line hinSyn
          | ok inSyn =>
            rw [neuronUpdateSimHandler_assertion_263 layer isVarQueueRequired model ng
              popSubs hst hsupport reads inSyn hreads hinSyn] at h
            have hline : Failure.assertion 263 = Failure.assertion line :=
              Except.error.inj h
            exact ⟨rfl, rfl, ⟨inSyn, rfl⟩, (Failure.assertion.inj hline).symm⟩
  · rintro ⟨⟨reads, hreads⟩, ⟨hst, hline⟩ | ⟨hst, hsupport, ⟨inSyn, hinSyn⟩, hline⟩⟩
    · rw [hline]
      exact neuronUpdateSimHandler_assertion_126 layer isVarQueueRequired model ng popSubs
        hst reads hreads
    · rw [hline]
      exact neuronUpdateSimHandler_assertion_263 layer isVarQueueRequired model ng popSubs
        hst hsupport reads inSyn hreads hinSyn

/-- **C30 (as stated, refuted).** The neuron model of the example group has support code,
yet with assertions compiled in the sim handler stops at no assertion: the apply-input code
of its merged incoming entry uses a placeholder that no scope defines, so
`applyCheckUnreplaced` on line 199 throws before the assertion on line 263 is reached.
Likewise the example group with spike times stops at no assertion when the scope of the
backend does not define `id`: the lookup on line 121 throws before line 126. -/
theorem neuronUpdate_assertions_counterexample :
    exampleSupportCodeUnresolvedGroup.getArchetype.getNeuronModel.supportCode.isEmpty = false ∧
    neuronUpdateSimHandler (specLayer examplePrint) NeuronGroup.isVarQueueRequiredByName
        false exampleModelSpec exampleSupportCodeUnresolvedGroup examplePopSubs
      = .error .exception ∧
    (¬ ∃ line, neuronUpdateSimHandler (specLayer examplePrint)
        NeuronGroup.isVarQueueRequiredByName false exampleModelSpec
        exampleSupportCodeUnresolvedGroup examplePopSubs = .error (.assertion line)) ∧
    exampleSpikeTimeUpdateGroup.getArchetype.isSpikeTimeRequired = true ∧
    neuronUpdateSimHandler (specLayer examplePrint) NeuronGroup.isVarQueueRequiredByName
        false exampleModelSpec exampleSpikeTimeUpdateGroup [] = .error .exception ∧
    (¬ ∃ line, neuronUpdateSimHandler (specLayer examplePrint)
        NeuronGroup.isVarQueueRequiredByName false exampleModelSpec
        exampleSpikeTimeUpdateGroup [] = .error (.assertion line)) := by
  have h1 : neuronUpdateSimHandler (specLayer examplePrint)
      NeuronGroup.isVarQueueRequiredByName false exampleModelSpec
      exampleSupportCodeUnresolvedGroup examplePopSubs = .error .exception := rfl
  have h2 : neuronUpdateSimHandler (specLayer examplePrint)
      NeuronGroup.isVarQueueRequiredByName false exampleModelSpec
      exampleSpikeTimeUpdateGroup [] = .error .exception := rfl
  refine ⟨by decide, h1, ?_, by decide, h2, ?_⟩
  · rintro ⟨line, hline⟩
    rw [h1] at hline
    cases hline
  · rintro ⟨line, hline⟩
    rw [h2] at hline
    cases hline

/-- **C30 (amended).** With assertions compiled in, the sim handler of
`generateNeuronUpdate` stops at an `assert(false)` only if the archetype requires spike
times or its neuron model has support code: for a merged group without spike times and
without support code none of the three assertions is reached, and the three sections that
hold them write what they write without stopping.  With spike times or with support code
the handler never finishes: with spike times it stops at the assertion on line 126 once the
reads of the neuron variables are written, and otherwise, with support code, at the
assertion on line 263 once the code for the merged incoming synapse groups is written as
well.  Exactly: the handler stops at the assertion on line `line` if and only if there is no
neuron variable or the scope of the backend resolves `id`, and either spike times are
required and the line is 126, or they are not, the model has support code, the loop over the
merged incoming synapse groups ends without an exception or a read outside an array, and
the line is 263. -/
theorem neuronUpdate_assertions (layer : SubstitutionLayer)
    (isVarQueueRequired : NeuronGroup → String → Bool)
    (model : ModelSpecInternal) (ng : NeuronGroupMerged) (popSubs : Substitutions) :
    ((∃ line, neuronUpdateSimHandler layer isVarQueueRequired false model ng popSubs
        = .error (.assertion line)) →
      ng.getArchetype.isSpikeTimeRequired = true
        ∨ ng.getArchetype.getNeuronModel.supportCode.isEmpty = false) ∧
    (ng.getArchetype.isSpikeTimeRequired = false →
      ng.getArchetype.getNeuronModel.supportCode.isEmpty = true →
      neuronSpikeTimeLoad false ng = .ok [Code.line ""] ∧
      neuronSupportCode false ng = .ok [] ∧
      neuronNonSpiking false ng = .ok [] ∧
      ∀ line, neuronUpdateSimHandler layer isVarQueueRequired false model ng popSubs
        ≠ .error (.assertion line)) ∧
    (ng.getArchetype.isSpikeTimeRequired = true
        ∨ ng.getArchetype.getNeuronModel.supportCode.isEmpty = false →
      ∀ out, neuronUpdateSimHandler layer isVarQueueRequired false model ng popSubs
        ≠ .ok out) ∧
    (ng.getArchetype.isSpikeTimeRequired = true →
      ∀ id, layer.getVarSubstitution popSubs "id" = some id →
        neuronUpdateSimHandler layer isVarQueueRequired false model ng popSubs
          = .error (.assertion 126)) ∧
    (ng.getArchetype.isSpikeTimeRequired = false →
      ng.getArchetype.getNeuronModel.supportCode.isEmpty = false →
      ∀ id inSyn, layer.getVarSubstitution popSubs "id" = some id →
        forEachIndexed (mergedInSynBody layer model popSubs (neuronUpdateSubs ng popSubs))
          0 ng.getArchetype.getMergedInSyn = .ok inSyn →
        neuronUpdateSimHandler layer isVarQueueRequired false model ng popSubs
          = .error (.assertion 263)) ∧
    (∀ line,
      neuronUpdateSimHandler layer isVarQueueRequired false model ng popSubs
          = .error (.assertion line) ↔
        (ng.getArchetype.getNeuronModel.vars = []
          ∨ ∃ id, layer.getVarSubstitution popSubs "id" = some id) ∧
        ((ng.getArchetype.isSpikeTimeRequired = true ∧ line = 126) ∨
          (ng.getArchetype.isSpikeTimeRequired = false ∧
            ng.getArchetype.getNeuronModel.supportCode.isEmpty = false ∧
            (∃ inSyn, forEachIndexed
              (mergedInSynBody layer model popSubs (neuronUpdateSubs ng popSubs)) 0
              ng.getArchetype.getMergedInSyn = .ok inSyn) ∧
            line = 263))) := by
  refine ⟨?_, ?_, ?_, ?_, ?_, ?_⟩
  · rintro ⟨line, hline⟩
    by_contra hnot
    have hst : ng.getArchetype.isSpikeTimeRequired = false := by
      cases h : ng.getArchetype.isSpikeTimeRequired
      · rfl
      · exact absurd (Or.inl h) hnot
    have hsupport : ng.getArchetype.getNeuronModel.supportCode.isEmpty = true := by
      cases h : ng.getArchetype.getNeuronModel.supportCode.isEmpty
      · exact absurd (Or.inr h) hnot
      · rfl
    exact neuronUpdateSimHandler_noAssertion layer isVarQueueRequired false model ng popSubs
      hst hsupport line hline
  · intro hst hsupport
    refine ⟨(neuronSpikeTime_sections_of_not_required false ng hst).1, ?_,
      (neuronSpikeTime_sections_of_not_required false ng hst).2,
      neuronUpdateSimHandler_noAssertion layer isVarQueueRequired false model ng popSubs
        hst hsupport⟩
    rw [neuronSupportCode_eq]
    simp [hsupport]
  · intro h out
    exact neuronUpdateSimHandler_not_ok layer isVarQueueRequired model ng popSubs h out
  · intro hst id hid
    obtain ⟨reads, hreads⟩ := neuronVarLoad_isOk layer isVarQueueRequired ng popSubs id hid
      ng.getArchetype.getNeuronModel.vars
    exact neuronUpdateSimHandler_assertion_126 layer isVarQueueRequired model ng popSubs hst
      reads hreads
  · intro hst hsupport id inSyn hid hinSyn
    obtain ⟨reads, hreads⟩ := neuronVarLoad_isOk layer isVarQueueRequired ng popSubs id hid
      ng.getArchetype.getNeuronModel.vars
    exact neuronUpdateSimHandler_assertion_263 layer isVarQueueRequired model ng popSubs hst
      hsupport reads inSyn hreads hinSyn
  · intro line
    rw [neuronUpdateSimHandler_assertion_iff,
      neuronVarLoad_isOk_iff layer isVarQueueRequired ng popSubs
        ng.getArchetype.getNeuronModel.vars]

/-- Witness of the amended C30: the example group without spike times and without support
code reaches no assertion; the example group with spike times stops at the assertion on line
126; the example group with support code stops at the assertion on line 263. -/
theorem neuronUpdate_assertions_witness :
    (∀ line, neuronUpdateSimHandler (specLayer examplePrint)
        NeuronGroup.isVarQueueRequiredByName false exampleModelSpec exampleUpdateGroup
        examplePopSubs ≠ .error (.assertion line)) ∧
    neuronUpdateSimHandler (specLayer examplePrint) NeuronGroup.isVarQueueRequiredByName
        false exampleModelSpec exampleSpikeTimeUpdateGroup examplePopSubs
      = .error (.assertion 126) ∧
    neuronUpdateSimHandler (specLayer examplePrint) NeuronGroup.isVarQueueRequiredByName
        false exampleModelSpec exampleSupportCodeUpdateGroup examplePopSubs
      = .error (.assertion 263) :=
  ⟨((neuronUpdate_assertions (specLayer examplePrint) NeuronGroup.isVarQueueRequiredByName
      exampleModelSpec exampleUpdateGroup examplePopSubs).2.1 (by decide) (by decide)).2.2.2,
    (neuronUpdate_assertions (specLayer examplePrint) NeuronGroup.isVarQueueRequiredByName
      exampleModelSpec exampleSpikeTimeUpdateGroup examplePopSubs).2.2.2.1 (by decide)
      "lid" rfl,
    (neuronUpdate_assertions (specLayer examplePrint) NeuronGroup.isVarQueueRequiredByName
      exampleModelSpec exampleSupportCodeUpdateGroup examplePopSubs).2.2.2.2.1 (by decide)
      (by decide) "lid" _ rfl rfl⟩

/-! ## The neuron update emitter: spike times -/

/-- **C22 (refuted).** For a merged group whose archetype requires spike times the sim
handler does not write what the claim says.  With assertions compiled in it does not
finish: it stops at the `assert(false)` on line 126 once the reads of the neuron variables
are written.  With assertions compiled out, the section that should read the spike time
writes the empty line only, so no local `lsT` is declared, and the branch of a neuron that
does not spike is an `else` with an empty scope, so `lsT` is not written back. -/
theorem neuronUpdate_spike_time_missing (layer : SubstitutionLayer)
    (isVarQueueRequired : NeuronGroup → String → Bool)
    (model : ModelSpecInternal) (ng : NeuronGroupMerged) (popSubs : Substitutions)
    (hst : ng.getArchetype.isSpikeTimeRequired = true) :
    (∀ out, neuronUpdateSimHandler layer isVarQueueRequired false model ng popSubs
      ≠ .ok out) ∧
    (∀ id, layer.getVarSubstitution popSubs "id" = some id →
      neuronUpdateSimHandler layer isVarQueueRequired false model ng popSubs
        = .error (.assertion 126)) ∧
    neuronSpikeTimeLoad true ng = .ok [Code.line ""] ∧
    neuronNonSpiking true ng =
      .ok (if ng.getArchetype.isDelayRequired = true then [Code.scope "else" []] else []) := by
  refine ⟨?_, ?_, ?_, ?_⟩
  · intro out
    exact neuronUpdateSimHandler_not_ok layer isVarQueueRequired model ng popSubs
      (Or.inl hst) out
  · intro id hid
    obtain ⟨reads, hreads⟩ := neuronVarLoad_isOk layer isVarQueueRequired ng popSubs id hid
      ng.getArchetype.getNeuronModel.vars
    exact neuronUpdateSimHandler_assertion_126 layer isVarQueueRequired model ng popSubs hst
      reads hreads
  · rw [neuronSpikeTimeLoad_of_required true ng hst]
    rfl
  · unfold neuronNonSpiking assertFalse
    simp only [hst, if_true]
    split <;> rfl

/-- Witness of C22: the example group with spike times and 6 delay slots.  With assertions
compiled in the handler stops on line 126; with assertions compiled out it finishes, and
what it writes uses `lsT` in the sim code without declaring it and holds an empty `else`. -/
theorem neuronUpdate_spike_time_missing_witness :
    neuronUpdateSimHandler (specLayer examplePrint) NeuronGroup.isVarQueueRequiredByName
        false exampleModelSpec exampleSpikeTimeUpdateGroup examplePopSubs
      = .error (.assertion 126) ∧
    neuronUpdateSimHandler (specLayer examplePrint) NeuronGroup.isVarQueueRequiredByName
        true exampleModelSpec exampleSpikeTimeUpdateGroup examplePopSubs
      = .ok
        [Code.line "scalar lV = neuronGroup.V[readDelayOffset + lid];",
         Code.line "const scalar lU = neuronGroup.U[lid];",
         Code.line "",
         Code.line "// test whether spike condition was fulfilled previously",
         Code.line "const bool oldSpike= (lV >= neuronGroup.Vthresh);",
         Code.line "// calculate membrane potential",
         Code.line "lV += lsT;",
         Code.line "// test for and register a true spike",
         Code.scope "if ((lV >= neuronGroup.Vthresh) && !(oldSpike))"
           [Code.genEmitTrueSpike,
            Code.line "// spike reset code",
            Code.line "lV = 0;"],
         Code.scope "else" [],
         Code.line "neuronGroup.V[writeDelayOffset + lid] = lV;"] :=
  ⟨(neuronUpdate_spike_time_missing (specLayer examplePrint)
      NeuronGroup.isVarQueueRequiredByName exampleModelSpec exampleSpikeTimeUpdateGroup
      examplePopSubs (by decide)).2.1 "lid" rfl,
    rfl⟩

/-! ## The neuron update emitter: the threshold condition -/

/-- **C24.** In the body that the sim handler writes: if the threshold condition code is
empty, neither a test for a true spike nor the call of `genEmitTrueSpike` nor reset code is
written.  If it is not empty, and `th` is what the substitution makes of it, then with the
automatic refractory test `th` is stored in `oldSpike` and the test is
`(th) && !(oldSpike)`, and without it no `oldSpike` is declared and the test is `th`; in both
cases, as long as `th` is not empty, `genEmitTrueSpike` is called first in the scope of the
test and the reset code follows it.  The reset code is written only when it is not empty.
Whenever the handler finishes, the threshold section comes before the sim code and the test
for a true spike after it. -/
theorem neuronUpdate_threshold (layer : SubstitutionLayer)
    (isVarQueueRequired : NeuronGroup → String → Bool) (ndebug : Bool)
    (model : ModelSpecInternal) (ng : NeuronGroupMerged) (popSubs : Substitutions) :
    (ng.getArchetype.getNeuronModel.thresholdConditionCode.isEmpty = true →
      neuronThreshold layer model ng (neuronUpdateSubs ng popSubs) =
        .ok (ng.getArchetype.getNeuronModel.thresholdConditionCode, []) ∧
      neuronTrueSpike layer ndebug model ng (neuronUpdateSubs ng popSubs)
        ng.getArchetype.getNeuronModel.thresholdConditionCode = .ok []) ∧
    (ng.getArchetype.getNeuronModel.thresholdConditionCode.isEmpty = false →
      ∀ th, layer.applyCheckUnreplaced (neuronUpdateSubs ng popSubs)
          ng.getArchetype.getNeuronModel.thresholdConditionCode
          ("thresholdConditionCode : merged" ++ toString ng.getIndex) = some th →
        neuronThreshold layer model ng (neuronUpdateSubs ng popSubs) =
          .ok (layer.ensureFtype th model.getPrecision,
            [Code.line "// test whether spike condition was fulfilled previously"]
              ++ (if ng.getArchetype.getNeuronModel.isAutoRefractoryRequired = true then
                    [Code.line ("const bool oldSpike= ("
                      ++ layer.ensureFtype th model.getPrecision ++ ");")]
                  else [])) ∧
        ((layer.ensureFtype th model.getPrecision).isEmpty = false →
          ∀ reset nonSpiking,
            neuronReset layer model ng (neuronUpdateSubs ng popSubs) = .ok reset →
            neuronNonSpiking ndebug ng = .ok nonSpiking →
            neuronTrueSpike layer ndebug model ng (neuronUpdateSubs ng popSubs)
                (layer.ensureFtype th model.getPrecision) =
              .ok ([Code.line "// test for and register a true spike",
                    Code.scope
                      (if ng.getArchetype.getNeuronModel.isAutoRefractoryRequired = true then
                        "if ((" ++ layer.ensureFtype th model.getPrecision
                          ++ ") && !(oldSpike))"
                       else "if (" ++ layer.ensureFtype th model.getPrecision ++ ")")
                      (Code.genEmitTrueSpike :: reset)]
                ++ nonSpiking))) ∧
    (ng.getArchetype.getNeuronModel.resetCode.isEmpty = true →
      neuronReset layer model ng (neuronUpdateSubs ng popSubs) = .ok []) ∧
    (ng.getArchetype.getNeuronModel.resetCode.isEmpty = false →
      ∀ r, layer.applyCheckUnreplaced (neuronUpdateSubs ng popSubs)
          ng.getArchetype.getNeuronModel.resetCode
          ("resetCode : merged" ++ toString ng.getIndex) = some r →
        neuronReset layer model ng (neuronUpdateSubs ng popSubs) =
          .ok [Code.line "// spike reset code",
               Code.line (layer.ensureFtype r model.getPrecision)]) ∧
    (∀ out, neuronUpdateSimHandler layer isVarQueueRequired ndebug model ng popSubs = .ok out →
      ∃ before threshold sim spikeEvent trueSpike after,
        neuronThreshold layer model ng (neuronUpdateSubs ng popSubs) = .ok threshold ∧
        neuronSimCode layer model ng (neuronUpdateSubs ng popSubs) = .ok sim ∧
        neuronTrueSpike layer ndebug model ng (neuronUpdateSubs ng popSubs) threshold.1
          = .ok trueSpike ∧
        out = before ++ threshold.2 ++ sim ++ spikeEvent ++ trueSpike ++ after) := by
  refine ⟨?_, ?_, ?_, ?_, ?_⟩
  · intro hempty
    constructor
    · unfold neuronThreshold
      simp only [hempty, Bool.not_true, Bool.false_eq_true, if_false]
      rfl
    · unfold neuronTrueSpike
      simp only [hempty, Bool.not_true, Bool.false_eq_true, if_false]
      rfl
  · intro hne th hth
    constructor
    · unfold neuronThreshold
      simp only [hne, Bool.not_false, if_true, hth, orThrow, Except.ok_bind', pure,
        Except.pure]
    · intro hthne reset nonSpiking hreset hnonSpiking
      unfold neuronTrueSpike
      simp only [hthne, Bool.not_false, if_true, hreset, hnonSpiking, Except.ok_bind', pure,
        Except.pure, List.singleton_append]
  · intro hempty
    unfold neuronReset
    simp only [hempty, Bool.not_true, Bool.false_eq_true, if_false]
    rfl
  · intro hne r hr
    unfold neuronReset
    simp only [hne, Bool.not_false, if_true, hr, orThrow, Except.ok_bind', pure, Except.pure]
  · intro out hout
    obtain ⟨varLoad, spikeTime, inSyn, support, threshold, sim, spikeEvent, trueSpike,
      writeBack, _, _, _, _, h5, h6, _, h8, _, hout'⟩ :=
      (neuronUpdateSimHandler_ok_iff layer isVarQueueRequired ndebug model ng popSubs out).mp
        hout
    refine ⟨varLoad ++ spikeTime ++ neuronIsynDeclaration model ng
      ++ neuronAdditionalInputVars ng ++ inSyn ++ support, threshold, sim, spikeEvent,
      trueSpike, writeBack, h5, h6, h8, ?_⟩
    rw [hout']

/-- Witness of C24: for the example group, whose model asks for the automatic refractory
test, the condition is stored in `oldSpike` and the test is `(th) && !(oldSpike)`, with the
reset code after the call of `genEmitTrueSpike`; for the example group whose model does not
ask for it and has no reset code, the test is `th` and nothing follows the call. -/
theorem neuronUpdate_threshold_witness :
    (neuronThreshold (specLayer examplePrint) exampleModelSpec exampleUpdateGroup
        (neuronUpdateSubs exampleUpdateGroup examplePopSubs) =
      .ok ("lV >= neuronGroup.Vthresh",
        [Code.line "// test whether spike condition was fulfilled previously",
         Code.line "const bool oldSpike= (lV >= neuronGroup.Vthresh);"]) ∧
     neuronTrueSpike (specLayer examplePrint) false exampleModelSpec exampleUpdateGroup
        (neuronUpdateSubs exampleUpdateGroup examplePopSubs) "lV >= neuronGroup.Vthresh" =
      .ok [Code.line "// test for and register a true spike",
           Code.scope "if ((lV >= neuronGroup.Vthresh) && !(oldSpike))"
             [Code.genEmitTrueSpike,
              Code.line "// spike reset code",
              Code.line "lV = 0;"]]) ∧
    (neuronThreshold (specLayer examplePrint) exampleModelSpec exampleNoRefractoryUpdateGroup
        (neuronUpdateSubs exampleNoRefractoryUpdateGroup examplePopSubs) =
      .ok ("lV >= neuronGroup.Vthresh",
        [Code.line "// test whether spike condition was fulfilled previously"]) ∧
     neuronTrueSpike (specLayer examplePrint) false exampleModelSpec
        exampleNoRefractoryUpdateGroup
        (neuronUpdateSubs exampleNoRefractoryUpdateGroup examplePopSubs)
        "lV >= neuronGroup.Vthresh" =
      .ok [Code.line "// test for and register a true spike",
           Code.scope "if (lV >= neuronGroup.Vthresh)" [Code.genEmitTrueSpike]]) :=
  ⟨⟨((neuronUpdate_threshold (specLayer examplePrint) NeuronGroup.isVarQueueRequiredByName
        false exampleModelSpec exampleUpdateGroup examplePopSubs).2.1 (by decide)
        "lV >= neuronGroup.Vthresh" rfl).1,
     ((neuronUpdate_threshold (specLayer examplePrint) NeuronGroup.isVarQueueRequiredByName
        false exampleModelSpec exampleUpdateGroup examplePopSubs).2.1 (by decide)
        "lV >= neuronGroup.Vthresh" rfl).2 (by decide) _ _ rfl rfl⟩,
   ⟨((neuronUpdate_threshold (specLayer examplePrint) NeuronGroup.isVarQueueRequiredByName
        false exampleModelSpec exampleNoRefractoryUpdateGroup examplePopSubs).2.1 (by decide)
        "lV >= neuronGroup.Vthresh" rfl).1,
     ((neuronUpdate_threshold (specLayer examplePrint) NeuronGroup.isVarQueueRequiredByName
        false exampleModelSpec exampleNoRefractoryUpdateGroup examplePopSubs).2.1 (by decide)
        "lV >= neuronGroup.Vthresh" rfl).2 (by decide) _ _ rfl rfl⟩⟩

/-! ## The neuron update emitter: postsynaptic variables -/

/-- Appending a text changes a text unless the appended text is empty. -/
theorem String.append_eq_self_iff (a b : String) : a ++ b = a ↔ b = "" := by
  constructor
  · intro h
    have hdata := congrArg String.data h
    simp only [String.data_append, List.append_right_eq_self] at hdata
    exact String.ext hdata
  · intro h
    rw [h, String.append_empty]

/-- **C23 (refuted).** For a merged incoming entry whose archetype `sg` has individual
postsynaptic variables and a variable `v` of its postsynaptic model: the substitution that
`addPostsynapticModelSubstitutions` installs for the variables declares for `$(v.name)` the
text `"lps" + v.name + sg.getName()`, whereas the local variable that the body declares for
`v`, and reads when it writes `v` back, is called `"lps" + v.name`.  The two names are the
same only if the name of the synapse group is empty. -/
theorem psm_substitution_target (print : Double → String) (layer : SubstitutionLayer)
    (neuronSubs : Substitutions) (sg : SynapseGroupInternal) (i : Nat) (v : Var)
    (hindividual : sg.matrixType.INDIVIDUAL_PSM = true) (hv : v ∈ sg.psModel.vars) :
    Substitution.addVarNameSubstitution (sg.psModel.vars.map Var.name) "" "lps" sg.name
      ∈ inSynSubs neuronSubs sg ∧
    (v.name ++ "", "lps" ++ v.name ++ sg.name) ∈
      (Substitution.addVarNameSubstitution (sg.psModel.vars.map Var.name) "" "lps"
        sg.name).declarations print ∧
    (∀ id, layer.getVarSubstitution neuronSubs "id" = some id →
      psmVarLoad layer neuronSubs i v =
        .ok [Code.line
          ((if v.access = VarAccess.READ_ONLY then "const " else "")
            ++ v.type ++ " " ++ ("lps" ++ v.name)
            ++ " = neuronGroup." ++ v.name ++ toString i ++ "[" ++ id ++ "];")]) ∧
    (v.access = VarAccess.READ_WRITE →
      ∀ id, layer.getVarSubstitution (inSynSubs neuronSubs sg) "id" = some id →
        psmVarWriteBack layer (inSynSubs neuronSubs sg) i v =
          .ok [Code.line
            ("neuronGroup." ++ v.name ++ toString i ++ "[" ++ id ++ "]" ++ " = "
              ++ ("lps" ++ v.name) ++ ";")]) ∧
    ("lps" ++ v.name ++ sg.name = "lps" ++ v.name ↔ sg.name = "") := by
  have hlps : (" lps" : String) = " " ++ "lps" := by decide
  have heq : (" = lps" : String) = " = " ++ "lps" := by decide
  refine ⟨?_, ?_, ?_, ?_, String.append_eq_self_iff _ _⟩
  · unfold inSynSubs addPostsynapticModelSubstitutions
    simp only [hindividual, if_true, List.mem_cons, true_or, or_true]
  · simp only [Substitution.declarations, List.mem_map]
    exact ⟨v.name, ⟨v, hv, rfl⟩, rfl⟩
  · intro id hid
    unfold psmVarLoad
    simp only [hid, orThrow, Except.ok_bind', pure, Except.pure, hlps, String.append_assoc]
  · intro hrw id hid
    unfold psmVarWriteBack
    simp only [hrw, if_true, hid, orThrow, Except.ok_bind', pure, Except.pure, heq,
      String.append_assoc]

/-- Witness of C23: for the example synapse group `SynI` with the individual postsynaptic
variable `g`, the body declares and writes back the local `lpsg`, whereas the apply-input
code `$(Isyn) += $(inSyn) * $(g);` comes out with `lpsgSynI`. -/
theorem psm_substitution_target_witness :
    ("lpsgSynI" ≠ "lpsg") ∧
    ("g", "lpsgSynI") ∈
      (Substitution.addVarNameSubstitution (exampleIndividualSyn.psModel.vars.map Var.name)
        "" "lps" exampleIndividualSyn.name).declarations examplePrint ∧
    mergedInSynBody (specLayer examplePrint) exampleModelSpec examplePopSubs
        (neuronUpdateSubs exampleUpdateGroup examplePopSubs) 0
        (exampleIndividualSyn, [exampleIndividualSyn]) =
      .ok [Code.scope ""
        [Code.line "// pull inSyn values in a coalesced access",
         Code.line "float linSyn = neuronGroup.inSyn0[lid];",
         Code.line "scalar lpsg = neuronGroup.g0[lid];",
         Code.line "Isyn += linSyn * lpsgSynI;",
         Code.line "linSyn *= 0.5;",
         Code.line "neuronGroup.inSyn0[lid] = linSyn;",
         Code.line "neuronGroup.g0[lid] = lpsg;"]] :=
  ⟨by decide,
    (psm_substitution_target examplePrint (specLayer examplePrint)
      (neuronUpdateSubs exampleUpdateGroup examplePopSubs) exampleIndividualSyn 0
      { name := "g", type := "scalar", access := .READ_WRITE } rfl
      (List.mem_singleton.mpr rfl)).2.1,
    rfl⟩

/-! ## The contexts of `applyCheckUnreplaced` -/

/-- The sum of a string literal that is not empty and an index is never the literal followed
by the decimal text of the index. -/
theorem literalPlus_ne_append (literal : String) (hliteral : 0 < literal.length) (i : Nat) :
    literalPlus literal i ≠ .ok (literal ++ toString i) := by
  intro h
  unfold literalPlus at h
  split at h
  · have hdata := congrArg String.data (Except.ok.inj h)
    simp only [String.data_append] at hdata
    have hlen := congrArg List.length hdata
    simp only [List.length_drop, List.length_append] at hlen
    have hlength : literal.length = literal.data.length := rfl
    have hi : i = 0 := by omega
    subst hi
    have hzero : (toString 0).data.length = 1 := by decide
    omega
  · cases h

/-- **C27 (refuted).** The context that `applyCheckUnreplaced` gets for the apply-input code
of the merged incoming entry `i` is the value of `"postSyntoCurrent : merged " + i`, which is
pointer arithmetic on the string literal: it is the literal without its first `i`
characters for `i` up to 26, the length of the literal, and a read outside the literal
beyond that.  It is never the literal followed by the decimal text of `i`; the same holds
for `"decayCode : merged " + i` and for
`"proceduralSparseConnectivity : merged " + sg.getIndex()`.  For the entry at index 1 the
two contexts are `ostSyntoCurrent : merged ` and `ecayCode : merged `, and these are what
the body of the loop hands to `applyCheckUnreplaced`. -/
theorem error_context_is_pointer_arithmetic (i : Nat) :
    postSyntoCurrentContext i ≠ .ok ("postSyntoCurrent : merged " ++ toString i) ∧
    decayCodeContext i ≠ .ok ("decayCode : merged " ++ toString i) ∧
    proceduralSparseConnectivityContext i ≠
      .ok ("proceduralSparseConnectivity : merged " ++ toString i) ∧
    postSyntoCurrentContext i =
      (if i ≤ 26 then .ok (String.mk ("postSyntoCurrent : merged ".data.drop i))
       else .error .undefinedBehaviour) ∧
    postSyntoCurrentContext 0 = .ok "postSyntoCurrent : merged " ∧
    postSyntoCurrentContext 1 = .ok "ostSyntoCurrent : merged " ∧
    decayCodeContext 1 = .ok "ecayCode : merged " ∧
    proceduralSparseConnectivityContext 1 = .ok "roceduralSparseConnectivity : merged " ∧
    mergedInSynBody contextLayer exampleModelSpec examplePopSubs
        (neuronUpdateSubs exampleUpdateGroup examplePopSubs) 1
        (exampleSyn "SynA" 5 [], [exampleSyn "SynA" 5 []]) =
      .ok [Code.scope ""
        [Code.line "// pull inSyn values in a coalesced access",
         Code.line "float linSyn = neuronGroup.inSyn1[lid];",
         Code.line "ostSyntoCurrent : merged ",
         Code.line "ecayCode : merged ",
         Code.line "neuronGroup.inSyn1[lid] = linSyn;"]] := by
  refine ⟨literalPlus_ne_append _ (by decide) i, literalPlus_ne_append _ (by decide) i,
    literalPlus_ne_append _ (by decide) i, rfl, rfl, rfl, rfl, rfl, rfl⟩

/-! ## The synapse update emitter: delayed indices -/

/-- The scope that `applySynapseSubstitutions` hands on after the variables of the weight
update model still starts with the substitution for these variables followed by the scope it
was given. -/
theorem synapseWeightSubs_scope (layer : SubstitutionLayer) (sg : SynapseGroupInternal)
    (synapseSubs : Substitutions) (weights : List Code × Substitutions)
    (h : synapseWeightSubs layer sg synapseSubs = .ok weights) :
    ∃ weightSubstitution, weights.2 = weightSubstitution :: synapseSubs := by
  unfold synapseWeightSubs at h
  simp only [] at h
  split at h
  · cases hid : layer.getVarSubstitution synapseSubs "id_syn" with
    | none =>
      rw [hid] at h
      cases h
    | some idSyn =>
      rw [hid] at h
      simp only [orThrow, Except.ok_bind', pure, Except.pure, Except.ok.injEq] at h
      exact ⟨_, by rw [← h]⟩
  · split at h
    · cases hdecl : proceduralVarInit layer sg synapseSubs sg.wuModel.vars
          sg.wuVarInitialisers with
      | error e =>
        rw [hdecl] at h
        cases h
      | ok declarations =>
        rw [hdecl] at h
        simp only [Except.ok_bind', pure, Except.pure, Except.ok.injEq] at h
        exact ⟨_, by rw [← h]⟩
    · simp only [pure, Except.pure, Except.ok.injEq] at h
      exact ⟨_, by rw [← h]⟩

/-- **C25.** In `applySynapseSubstitutions` the presynaptic variables of the weight update
model are indexed by `"preReadDelayOffset + "` followed by the text of `id_pre` exactly when
the axonal delay of the synapse group is not `NO_DELAY`, and by the text of `id_pre` alone
otherwise; the postsynaptic variables are indexed by `"postReadDelayOffset + "` followed by
the text of `id_post` exactly when the back-propagation delay is not `NO_DELAY`, and by the
text of `id_post` alone otherwise.  Each choice reads its own delay only.  With a delay the
text is looked up in the scope handed in, without one in the scope built so far.  The scope
with these two substitutions is the one that the function goes on with: the substitution for
the variables of the weight update model is put in front of it, and what the function writes
last is the code after `apply` on the scope that `neuronSubstitutionsInSynapticCode` makes of
the result. -/
theorem applySynapseSubstitutions_delayed_indices (layer : SubstitutionLayer)
    (sg : SynapseGroupInternal) (baseSubs : Substitutions)
    (idPre idPreBase idPost idPostBase : String)
    (hpre : layer.getVarSubstitution (synapseParamSubs sg baseSubs) "id_pre" = some idPre)
    (hpreBase : layer.getVarSubstitution baseSubs "id_pre" = some idPreBase)
    (hpost : ∀ preIdx,
      layer.getVarSubstitution (synapsePreSubs sg baseSubs preIdx) "id_post" = some idPost)
    (hpostBase : layer.getVarSubstitution baseSubs "id_post" = some idPostBase) :
    synapseVarSubs layer sg baseSubs =
      .ok (Substitution.addVarNameSubstitution (sg.wuModel.postVars.map Var.name) ""
            "synapseGroup."
            ("[" ++ (if sg.backPropDelaySteps ≠ NO_DELAY then
                      "postReadDelayOffset + " ++ idPostBase
                     else idPost) ++ "]")
        :: Substitution.addVarNameSubstitution (sg.wuModel.preVars.map Var.name) ""
            "synapseGroup."
            ("[" ++ (if sg.delaySteps ≠ NO_DELAY then "preReadDelayOffset + " ++ idPreBase
                     else idPre) ++ "]")
        :: synapseParamSubs sg baseSubs) ∧
    (∀ (f : Substitutions → SynapseGroupInternal → String → String → String → Double
          → Substitutions)
        (getVarPrefix : String) (model : ModelSpecInternal) (code errorContext : String),
      applySynapseSubstitutions layer f getVarPrefix model code errorContext sg baseSubs =
        (synapseWeightSubs layer sg
          (Substitution.addVarNameSubstitution (sg.wuModel.postVars.map Var.name) ""
              "synapseGroup."
              ("[" ++ (if sg.backPropDelaySteps ≠ NO_DELAY then
                        "postReadDelayOffset + " ++ idPostBase
                       else idPost) ++ "]")
            :: Substitution.addVarNameSubstitution (sg.wuModel.preVars.map Var.name) ""
              "synapseGroup."
              ("[" ++ (if sg.delaySteps ≠ NO_DELAY then
                        "preReadDelayOffset + " ++ idPreBase
                       else idPre) ++ "]")
            :: synapseParamSubs sg baseSubs) >>= fun weights =>
         orThrow (layer.getVarSubstitution weights.2 "id_pre") >>= fun idPreLast =>
         orThrow (layer.getVarSubstitution weights.2 "id_post") >>= fun idPostLast =>
         pure (weights.1 ++ [Code.text (layer.ensureFtype
           (layer.apply (f weights.2 sg idPreLast idPostLast getVarPrefix model.getDT) code)
           model.getPrecision)]))) ∧
    (∀ (f : Substitutions → SynapseGroupInternal → String → String → String → Double
          → Substitutions)
        (getVarPrefix : String) (model : ModelSpecInternal) (code errorContext : String)
        (out : List Code),
      applySynapseSubstitutions layer f getVarPrefix model code errorContext sg baseSubs
          = .ok out →
        ∃ declarations weightSubstitution idPreLast idPostLast,
          out = declarations ++ [Code.text (layer.ensureFtype
            (layer.apply
              (f (weightSubstitution
                  :: Substitution.addVarNameSubstitution (sg.wuModel.postVars.map Var.name) ""
                    "synapseGroup."
                    ("[" ++ (if sg.backPropDelaySteps ≠ NO_DELAY then
                              "postReadDelayOffset + " ++ idPostBase
                             else idPost) ++ "]")
                  :: Substitution.addVarNameSubstitution (sg.wuModel.preVars.map Var.name) ""
                    "synapseGroup."
                    ("[" ++ (if sg.delaySteps ≠ NO_DELAY then
                              "preReadDelayOffset + " ++ idPreBase
                             else idPre) ++ "]")
                  :: synapseParamSubs sg baseSubs)
                sg idPreLast idPostLast getVarPrefix model.getDT) code)
            model.getPrecision)]) := by
  have hsubs : synapseVarSubs layer sg baseSubs =
      .ok (Substitution.addVarNameSubstitution (sg.wuModel.postVars.map Var.name) ""
            "synapseGroup."
            ("[" ++ (if sg.backPropDelaySteps ≠ NO_DELAY then
                      "postReadDelayOffset + " ++ idPostBase
                     else idPost) ++ "]")
        :: Substitution.addVarNameSubstitution (sg.wuModel.preVars.map Var.name) ""
            "synapseGroup."
            ("[" ++ (if sg.delaySteps ≠ NO_DELAY then "preReadDelayOffset + " ++ idPreBase
                     else idPre) ++ "]")
        :: synapseParamSubs sg baseSubs) := by
    unfold synapseVarSubs delayedPreIdx delayedPostIdx synapsePostSubs synapsePreSubs
    by_cases hd : sg.delaySteps = NO_DELAY <;> by_cases hb : sg.backPropDelaySteps = NO_DELAY
    · have hpost' := hpost idPre
      unfold synapsePreSubs at hpost'
      simp only [hd, hb, if_true, hpre, hpost', orThrow, Except.ok_bind', pure, Except.pure,
        ne_eq, not_true_eq_false, if_false]
    · simp only [hd, hb, if_true, if_false, hpre, hpostBase, orThrow, Except.ok_bind', pure,
        Except.pure, ne_eq, not_true_eq_false, not_false_eq_true]
    · have hpost' := hpost ("preReadDelayOffset + " ++ idPreBase)
      unfold synapsePreSubs at hpost'
      simp only [hd, hb, if_true, if_false, hpreBase, hpost', orThrow, Except.ok_bind', pure,
        Except.pure, ne_eq, not_true_eq_false, not_false_eq_true]
    · simp only [hd, hb, if_false, hpreBase, hpostBase, orThrow, Except.ok_bind', pure,
        Except.pure, ne_eq, not_false_eq_true, if_true]
  have hrun : ∀ (f : Substitutions → SynapseGroupInternal → String → String → String → Double
          → Substitutions)
        (getVarPrefix : String) (model : ModelSpecInternal) (code errorContext : String),
      applySynapseSubstitutions layer f getVarPrefix model code errorContext sg baseSubs =
        (synapseWeightSubs layer sg
          (Substitution.addVarNameSubstitution (sg.wuModel.postVars.map Var.name) ""
              "synapseGroup."
              ("[" ++ (if sg.backPropDelaySteps ≠ NO_DELAY then
                        "postReadDelayOffset + " ++ idPostBase
                       else idPost) ++ "]")
            :: Substitution.addVarNameSubstitution (sg.wuModel.preVars.map Var.name) ""
              "synapseGroup."
              ("[" ++ (if sg.delaySteps ≠ NO_DELAY then
                        "preReadDelayOffset + " ++ idPreBase
                       else idPre) ++ "]")
            :: synapseParamSubs sg baseSubs) >>= fun weights =>
         orThrow (layer.getVarSubstitution weights.2 "id_pre") >>= fun idPreLast =>
         orThrow (layer.getVarSubstitution weights.2 "id_post") >>= fun idPostLast =>
         pure (weights.1 ++ [Code.text (layer.ensureFtype
           (layer.apply (f weights.2 sg idPreLast idPostLast getVarPrefix model.getDT) code)
           model.getPrecision)])) := by
    intro f getVarPrefix model code errorContext
    unfold applySynapseSubstitutions
    rw [hsubs]
    rfl
  refine ⟨hsubs, hrun, ?_⟩
  intro f getVarPrefix model code errorContext out hout
  rw [hrun] at hout
  cases hw : synapseWeightSubs layer sg
      (Substitution.addVarNameSubstitution (sg.wuModel.postVars.map Var.name) ""
          "synapseGroup."
          ("[" ++ (if sg.backPropDelaySteps ≠ NO_DELAY then
                    "postReadDelayOffset + " ++ idPostBase
                   else idPost) ++ "]")
        :: Substitution.addVarNameSubstitution (sg.wuModel.preVars.map Var.name) ""
          "synapseGroup."
          ("[" ++ (if sg.delaySteps ≠ NO_DELAY then "preReadDelayOffset + " ++ idPreBase
                   else idPre) ++ "]")
        :: synapseParamSubs sg baseSubs) with
  | error e =>
    rw [hw] at hout
    cases hout
  | ok weights =>
    rw [hw] at hout
    simp only [Except.ok_bind'] at hout
    obtain ⟨weightSubstitution, hscope⟩ := synapseWeightSubs_scope layer sg _ weights hw
    cases h3 : layer.getVarSubstitution weights.2 "id_pre" with
    | none =>
      rw [h3] at hout
      cases hout
    | some idPreLast =>
      rw [h3] at hout
      simp only [orThrow, Except.ok_bind'] at hout
      cases h4 : layer.getVarSubstitution weights.2 "id_post" with
      | none =>
        rw [h4] at hout
        cases hout
      | some idPostLast =>
        rw [h4] at hout
        simp only [Except.ok_bind', pure, Except.pure, Except.ok.injEq] at hout
        refine ⟨weights.1, weightSubstitution, idPreLast, idPostLast, ?_⟩
        rw [← hscope, ← hout]

/-- Witness of C25: the example synapse group has an axonal delay of 5 steps and no
back-propagation delay, so its presynaptic variables are indexed by
`preReadDelayOffset + preInd` and its postsynaptic variables by `ipost`, and this is what
the function writes for the code `$(x)*$(y)`. -/
theorem applySynapseSubstitutions_delayed_indices_witness :
    synapseVarSubs (specLayer examplePrint) exampleWeightSyn exampleSynapseSubs =
      .ok (Substitution.addVarNameSubstitution ["y"] "" "synapseGroup." "[ipost]"
        :: Substitution.addVarNameSubstitution ["x"] "" "synapseGroup."
            "[preReadDelayOffset + preInd]"
        :: synapseParamSubs exampleWeightSyn exampleSynapseSubs) ∧
    applySynapseSubstitutions (specLayer examplePrint)
        exampleNeuronSubstitutionsInSynapticCode "" exampleModelSpec "$(x)*$(y)" "simCode"
        exampleWeightSyn exampleSynapseSubs =
      .ok [Code.text "synapseGroup.x[preReadDelayOffset + preInd]*synapseGroup.y[ipost]"] :=
  ⟨(applySynapseSubstitutions_delayed_indices (specLayer examplePrint) exampleWeightSyn
      exampleSynapseSubs "preInd" "preInd" "ipost" "ipost" rfl rfl (fun _ => rfl) rfl).1,
    ((applySynapseSubstitutions_delayed_indices (specLayer examplePrint) exampleWeightSyn
      exampleSynapseSubs "preInd" "preInd" "ipost" "ipost" rfl rfl (fun _ => rfl) rfl).2.1
      exampleNeuronSubstitutionsInSynapticCode "" exampleModelSpec "$(x)*$(y)"
      "simCode").trans rfl⟩

/-! ## Placeholders in synapse code -/

/-- What `applySynapseSubstitutions` writes last is the code after `apply` and
`ensureFtype`. -/
theorem applySynapseSubstitutions_ok (layer : SubstitutionLayer)
    (f : Substitutions → SynapseGroupInternal → String → String → String → Double
      → Substitutions)
    (getVarPrefix : String) (model : ModelSpecInternal) (code errorContext : String)
    (sg : SynapseGroupInternal) (baseSubs : Substitutions) (out : List Code)
    (h : applySynapseSubstitutions layer f getVarPrefix model code errorContext sg baseSubs
      = .ok out) :
    ∃ declarations scope,
      out = declarations
        ++ [Code.text (layer.ensureFtype (layer.apply scope code) model.getPrecision)] := by
  unfold applySynapseSubstitutions at h
  cases h1 : synapseVarSubs layer sg baseSubs with
  | error e =>
    rw [h1] at h
    cases h
  | ok synapseSubs =>
    rw [h1] at h
    simp only [Except.ok_bind'] at h
    cases h2 : synapseWeightSubs layer sg synapseSubs with
    | error e =>
      rw [h2] at h
      cases h
    | ok weights =>
      rw [h2] at h
      simp only [Except.ok_bind'] at h
      cases h3 : layer.getVarSubstitution weights.2 "id_pre" with
      | none =>
        rw [h3] at h
        cases h
      | some idPre =>
        rw [h3] at h
        simp only [orThrow, Except.ok_bind'] at h
        cases h4 : layer.getVarSubstitution weights.2 "id_post" with
        | none =>
          rw [h4] at h
          cases h
        | some idPost =>
          rw [h4] at h
          simp only [Except.ok_bind', pure, Except.pure, Except.ok.injEq] at h
          exact ⟨_, _, h.symm⟩

/-- For weights that are not procedural, `applySynapseSubstitutions` does not depend on
`applyCheckUnreplaced`. -/
theorem applySynapseSubstitutions_check_irrelevant (layer : SubstitutionLayer)
    (check : Substitutions → String → String → Option String)
    (f : Substitutions → SynapseGroupInternal → String → String → String → Double
      → Substitutions)
    (getVarPrefix : String) (model : ModelSpecInternal) (code errorContext : String)
    (sg : SynapseGroupInternal) (baseSubs : Substitutions)
    (h : sg.matrixType.INDIVIDUAL = true ∨ sg.matrixType.PROCEDURAL = false) :
    applySynapseSubstitutions { layer with applyCheckUnreplaced := check } f getVarPrefix
        model code errorContext sg baseSubs =
      applySynapseSubstitutions layer f getVarPrefix model code errorContext sg baseSubs := by
  unfold applySynapseSubstitutions synapseVarSubs delayedPreIdx delayedPostIdx
    synapseWeightSubs
  cases hI : sg.matrixType.INDIVIDUAL
  · have hP : sg.matrixType.PROCEDURAL = false := by
      rcases h with h | h
      · rw [hI] at h
        cases h
      · exact h
    simp only [hP, Bool.false_eq_true, if_false]
  · simp only [if_true]

/-- The loop of the kernel handler does not depend on `applyCheckUnreplaced`. -/
theorem kernelVarInitLoop_check_irrelevant (layer : SubstitutionLayer)
    (check : Substitutions → String → String → Option String) (precision : String)
    (sg : SynapseConnectivityInitGroupMerged) (k : Nat) (vars : List Var)
    (popSubs : Substitutions) :
    kernelVarInitLoop { layer with applyCheckUnreplaced := check } precision sg k vars popSubs
      = kernelVarInitLoop layer precision sg k vars popSubs := by
  induction vars generalizing k popSubs with
  | nil => rfl
  | cons v vs ih =>
    unfold kernelVarInitLoop
    simp only [ih]

/-- **C26 (refuted).** The code that goes through `applySynapseSubstitutions` (sim code,
event code, post-learning code, synapse dynamics code) and the code of a variable
initialiser in the kernel handler of the init emitter go through `apply`, not through
`applyCheckUnreplaced`: what is written is the result of `apply`, and for weights that are
not procedural, and in the kernel handler, the outcome does not depend on
`applyCheckUnreplaced` at all.  On the example synapse group, whose sim code and whose
variable initialiser use the placeholder `$(undefined)` that no scope defines, both handlers
finish and what they write still holds `$(undefined)`, whereas `applyCheckUnreplaced` fails
on the text. -/
theorem synapse_code_placeholders_unchecked :
    (∀ (layer : SubstitutionLayer)
        (f : Substitutions → SynapseGroupInternal → String → String → String → Double
          → Substitutions)
        (getVarPrefix : String) (model : ModelSpecInternal) (code errorContext : String)
        (sg : SynapseGroupInternal) (baseSubs : Substitutions) (out : List Code),
      applySynapseSubstitutions layer f getVarPrefix model code errorContext sg baseSubs
          = .ok out →
        ∃ declarations scope,
          out = declarations
            ++ [Code.text (layer.ensureFtype (layer.apply scope code) model.getPrecision)]) ∧
    (∀ (layer : SubstitutionLayer) (check : Substitutions → String → String → Option String)
        (f : Substitutions → SynapseGroupInternal → String → String → String → Double
          → Substitutions)
        (getVarPrefix : String) (model : ModelSpecInternal) (code errorContext : String)
        (sg : SynapseGroupInternal) (baseSubs : Substitutions),
      sg.matrixType.INDIVIDUAL = true ∨ sg.matrixType.PROCEDURAL = false →
        applySynapseSubstitutions { layer with applyCheckUnreplaced := check } f getVarPrefix
            model code errorContext sg baseSubs =
          applySynapseSubstitutions layer f getVarPrefix model code errorContext sg
            baseSubs) ∧
    (∀ (layer : SubstitutionLayer) (check : Substitutions → String → String → Option String)
        (genKernelIndex : Substitutions → SynapseConnectivityInitGroupMerged → String)
        (precision : String) (sg : SynapseConnectivityInitGroupMerged)
        (popSubs : Substitutions),
      kernelVarInitHandler { layer with applyCheckUnreplaced := check } genKernelIndex
          precision sg popSubs =
        kernelVarInitHandler layer genKernelIndex precision sg popSubs) ∧
    presynapticSpikeHandler (specLayer examplePrint) exampleNeuronSubstitutionsInSynapticCode
        "" exampleModelSpec exampleSynapseGroupMerged exampleSynapseSubs =
      .ok [Code.text "synapseGroup.g[synAddress] += $(undefined);"] ∧
    kernelVarInitHandler (specLayer examplePrint) (fun _ _ => "kernelIndex") "float"
        exampleKernelGroupMerged exampleSynapseSubs =
      .ok [Code.line "const unsigned int kernelInd = kernelIndex;",
           Code.scope "" [Code.line "group->g[synAddress] = $(undefined);"]] ∧
    (specLayer examplePrint).applyCheckUnreplaced exampleSynapseSubs
        exampleWeightSyn.wuModel.simCode "simCode : SynW" = none ∧
    (specLayer examplePrint).applyCheckUnreplaced exampleSynapseSubs
        "group->g[synAddress] = $(undefined);" "initVar : mergedg0" = none := by
  refine ⟨?_, ?_, ?_, rfl, rfl, rfl, rfl⟩
  · intro layer f getVarPrefix model code errorContext sg baseSubs out h
    exact applySynapseSubstitutions_ok layer f getVarPrefix model code errorContext sg
      baseSubs out h
  · intro layer check f getVarPrefix model code errorContext sg baseSubs h
    exact applySynapseSubstitutions_check_irrelevant layer check f getVarPrefix model code
      errorContext sg baseSubs h
  · intro layer check genKernelIndex precision sg popSubs
    unfold kernelVarInitHandler
    simp only [kernelVarInitLoop_check_irrelevant]

end GeNN
